import Mathlib

/-!
Natours: authentication chain, central error responder and query shaping.

A shallow embedding of the request pipeline of the Natours tour-booking
application:

* `controllers/errorController.js`  (the central error responder),
* `controllers/authController.js`   (`protect`, `restrictTo`),
* `models/userModel.js`             (`changedPasswordAfter`),
* `utils/apiFeatures.js`            (`APIFeatures`),
* `utils/catchAsync.js`.

JavaScript values are represented by explicit records.  A property that may be
`undefined` is an `Option`; a function that may throw returns `Except`.
External collaborators (token verification, the persistence layer, the
`Number` coercion of the language) are parameters of the functions using them.
-/

namespace Natours

/-! ## Error values -/

/-- An error object as it travels through `next(err)`.  Only the properties read
somewhere in the pipeline are represented.

* `name`, `message`, `stack`: the standard properties of `Error`;
* `nameOwn`: whether `name` is an own enumerable property of the object (as in
  the errors of `jsonwebtoken`, which assign `this.name`) or is inherited from
  the prototype (as in a class extending `Error`);
* `statusCode`, `status`, `isOperational`: set by `AppError` and by the
  responder;
* `code`: the numeric driver code (`err.code === 11000`), `none` when the
  error has no numeric code;
* `path`, `value`: read by `handleCastErrorDB`;
* `keyValue`: read by `handleDuplicateFieldsDB`, an object from field names to
  (printed) values;
* `errors`: read by `handleValidationErrorDB`, an object from field names to
  validator failures, each represented by its `message`. -/
structure Err where
  name : Option String := none
  nameOwn : Bool := false
  message : String := ""
  stack : Option String := none
  statusCode : Option Nat := none
  status : Option String := none
  isOperational : Bool := false
  code : Option Nat := none
  path : Option String := none
  value : Option String := none
  keyValue : Option (List (String × String)) := none
  errors : Option (List (String × String)) := none
  deriving DecidableEq, Repr

/-- Modelled from the spec: `utils/appError.js` is not among the sources.  The
spec describes it as the typed operational error "carrying an HTTP status and a
human-readable message, distinguished from unexpected/programming errors": the
constructor stores its two arguments and marks the value operational.  The
`status` label sent in response bodies is not described in the spec, it is the
parameter `statusOf` (a function of the status code given to the constructor).
A call with one argument leaves `statusCode` undefined. -/
def AppError (statusOf : Option Nat → Option String) (message : String)
    (statusCode : Option Nat) : Err :=
  { name := some "Error"
    message := message
    statusCode := statusCode
    status := statusOf statusCode
    isOperational := true }

/-- Coercion of a possibly undefined string in a template literal. -/
def tpl : Option String → String
  | some s => s
  | none => "undefined"

/-- The value of `a || b` on status codes: `undefined` and `0` are falsy. -/
def orNat (a : Option Nat) (b : Nat) : Nat :=
  match a with
  | some n => if n = 0 then b else n
  | none => b

/-- The value of `a || b` on strings: `undefined` and `''` are falsy. -/
def orStr (a : Option String) (b : String) : String :=
  match a with
  | some s => if s = "" then b else s
  | none => b

/-- Lookup of a property in an object given by its entries; a later entry for
the same key shadows an earlier one. -/
def getProp {α : Type} (k : String) : List (String × α) → Option α
  | [] => none
  | (k', v) :: rest =>
    match getProp k rest with
    | some w => some w
    | none => if k' = k then some v else none

/-- `Array.prototype.join`. -/
def joinWith (sep : String) : List String → String
  | [] => ""
  | [s] => s
  | s :: rest => s ++ sep ++ joinWith sep rest

/-! ## errorController.js -/

/-- `handleCastErrorDB`. -/
def handleCastErrorDB (statusOf : Option Nat → Option String) (err : Err) : Err :=
  let message := "Invalid " ++ tpl err.path ++ ": " ++ tpl err.value
  AppError statusOf message (some 400)

/-- `handleDuplicateFieldsDB`: `err.keyValue.name` throws a `TypeError` when
`err.keyValue` is undefined. -/
def handleDuplicateFieldsDB (statusOf : Option Nat → Option String) (err : Err) :
    Except String Err :=
  match err.keyValue with
  | none => .error "TypeError: Cannot read properties of undefined (reading 'name')"
  | some kv =>
    let value := getProp "name" kv
    let message := "Duplicate field value: \"" ++ tpl value ++ "\". Please use another value"
    .ok (AppError statusOf message (some 400))

/-- `handleValidationErrorDB`: `Object.values(err.errors)` throws a `TypeError`
when `err.errors` is undefined. -/
def handleValidationErrorDB (statusOf : Option Nat → Option String) (err : Err) :
    Except String Err :=
  match err.errors with
  | none => .error "TypeError: Cannot convert undefined or null to object"
  | some es =>
    let errors := es.map (fun el => el.2)
    let message := "Invalid input data. " ++ joinWith ". " errors
    .ok (AppError statusOf message (some 400))

/-- `handleJsonWebTokenError`. -/
def handleJsonWebTokenError (statusOf : Option Nat → Option String) : Err :=
  AppError statusOf "Invalid token! Please log in again." (some 401)

/-- `handleTokenExpiredError`. -/
def handleTokenExpiredError (statusOf : Option Nat → Option String) : Err :=
  AppError statusOf "Your token has expired! Please log in again." (some 401)

/-- A value placed in a JSON response body. -/
inductive Field where
  | text (s : Option String)
  | error (e : Err)
  deriving DecidableEq, Repr

/-- What is sent to the caller: `res.status(c).json(fields)` or
`res.status(c).render(template, locals)`. -/
inductive Response where
  | json (statusCode : Option Nat) (fields : List (String × Field))
  | render (statusCode : Option Nat) (template : String) (locals : List (String × String))
  deriving DecidableEq, Repr

/-- The status code of a response. -/
def Response.statusCode : Response → Option Nat
  | .json c _ => c
  | .render c _ _ => c

/-- The message shown to the caller: the `message` field of a JSON body, the
`msg` local of a rendered page. -/
def Response.message : Response → Option String
  | .json _ fields =>
    match getProp "message" fields with
    | some (.text s) => s
    | _ => none
  | .render _ _ locals => getProp "msg" locals

/-- `req.originalUrl.startsWith('/api')`. -/
def isApiUrl (originalUrl : String) : Bool :=
  "/api".data.isPrefixOf originalUrl.data

/-- `sendErrorDev`. -/
def sendErrorDev (err : Err) (originalUrl : String) : Response :=
  if isApiUrl originalUrl then
    .json err.statusCode
      [("status", .text err.status), ("error", .error err),
       ("message", .text (some err.message)), ("stack", .text err.stack)]
  else
    .render err.statusCode "error"
      [("title", "Something went wrong!"), ("msg", err.message)]

/-- `sendErrorProduction`. -/
def sendErrorProduction (err : Err) (originalUrl : String) : Response :=
  if isApiUrl originalUrl then
    if err.isOperational then
      .json err.statusCode
        [("status", .text err.status), ("message", .text (some err.message))]
    else
      .json (some 500)
        [("status", .text (some "error")), ("message", .text (some "Something went very wrong!"))]
  else
    if err.isOperational then
      .render err.statusCode "error"
        [("title", "Something went wrong!"), ("msg", err.message)]
    else
      .render err.statusCode "error"
        [("title", "Something went wrong!"), ("msg", "Please try again later.")]

/-- The first two statements of the responder:
`err.statusCode = err.statusCode || 500; err.status = err.status || 'error'`. -/
def withDefaults (err : Err) : Err :=
  { err with
    statusCode := some (orNat err.statusCode 500)
    status := some (orStr err.status "error") }

/-- The object `{ ...err }` followed by `errCopy.message = err.message`: the own
enumerable properties are copied; an inherited `name` and `stack` (not
enumerable) are not. -/
def spreadCopy (err : Err) : Err :=
  { err with name := if err.nameOwn then err.name else none, stack := none }

/-- The chain of `if` statements of the production branch.  The tests read
`err` (the original), each handler receives the current `errCopy`. -/
def classify (statusOf : Option Nat → Option String) (err : Err) : Except String Err :=
  let c0 := spreadCopy err
  let c1 := if err.name = some "CastError" then handleCastErrorDB statusOf c0 else c0
  (if err.code = some 11000 then handleDuplicateFieldsDB statusOf c1 else .ok c1) >>= fun c2 =>
  (if err.name = some "ValidationError" then handleValidationErrorDB statusOf c2
   else .ok c2) >>= fun c3 =>
  let c4 := if err.name = some "JsonWebTokenError" then handleJsonWebTokenError statusOf else c3
  let c5 := if err.name = some "TokenExpiredError" then handleTokenExpiredError statusOf else c4
  .ok c5

/-- What the responder did with an error. -/
inductive Handled where
  | sent (r : Response)
  | nothing
  | threw (what : String)
  deriving DecidableEq, Repr

/-- The exported error-handling middleware; `nodeEnv` is `process.env.NODE_ENV`. -/
def globalErrorHandler (statusOf : Option Nat → Option String) (nodeEnv : Option String)
    (err : Err) (originalUrl : String) : Handled :=
  let err := withDefaults err
  if nodeEnv = some "development" then
    .sent (sendErrorDev err originalUrl)
  else if nodeEnv = some "production" then
    match classify statusOf err with
    | .ok errCopy => .sent (sendErrorProduction errCopy originalUrl)
    | .error what => .threw what
  else
    .nothing

/-! ## userModel.js -/

/-- An account document.  `passwordChangedAt` is the stored `Date`, given by its
`getTime()` value (milliseconds since the epoch), `none` when the field is
absent; `passwordResetExpires` likewise.  `password` is the stored (hashed)
secret, `passwordResetToken` the stored hash of the reset token. -/
structure User where
  id : String
  name : String := ""
  email : String := ""
  role : String := "user"
  passwordChangedAt : Option Int := none
  password : String := ""
  passwordResetToken : Option String := none
  passwordResetExpires : Option Int := none
  active : Bool := true
  deriving DecidableEq, Repr

/-- `userSchema.methods.changedPasswordAfter`.  A `Date` object is always
truthy; the division by 1000 is not rounded, it is carried out over the
rationals. -/
def changedPasswordAfter (user : User) (JWTTimestamp : Int) : Bool :=
  match user.passwordChangedAt with
  | some ms =>
    let changedTimestamp : ℚ := (ms : ℚ) / 1000
    decide ((JWTTimestamp : ℚ) < changedTimestamp)
  | none => false

/-! ## authController.js -/

/-- The claims of a verified token read by `protect`. -/
structure Decoded where
  id : String
  iat : Int
  deriving DecidableEq, Repr

/-- The external collaborators awaited by `protect`: `promisify(jwt.verify)`
with the configured secret, and `User.findById`.  Each may reject with an
error; `findById` resolves to `null` (`none`) when no account matches. -/
structure Services where
  verify : String → Except Err Decoded
  findById : String → Except Err (Option User)

/-- The part of the request and response objects that the authentication chain
reads and writes. -/
structure Ctx where
  originalUrl : String := "/"
  authorization : Option String := none
  jwtCookie : Option String := none
  reqUser : Option User := none
  localsUser : Option User := none
  deriving DecidableEq, Repr

/-- How a middleware hands over: `next()` or `next(err)`. -/
inductive Next where
  | proceed
  | error (err : Err)
  deriving DecidableEq, Repr

/-- `s.split(sep)` for a single-character separator. -/
def splitChars (sep : Char) : List Char → List (List Char)
  | [] => [[]]
  | c :: cs =>
    if c = sep then [] :: splitChars sep cs
    else
      match splitChars sep cs with
      | [] => [[c]]
      | h :: t => (c :: h) :: t

/-- Truthiness of a possibly undefined string. -/
def truthy : Option String → Bool
  | some s => s != ""
  | none => false

/-- The token chosen by the first statement of `protect`: the second
space-separated part of an `Authorization` header starting with `Bearer`,
else a `jwt` cookie other than `loggedout`.  The result is `undefined` when
neither branch assigns, or when the header has no second part. -/
def extractToken (ctx : Ctx) : Option String :=
  match ctx.authorization with
  | some auth =>
    if auth != "" && "Bearer".data.isPrefixOf auth.data then
      ((splitChars ' ' auth.data).get? 1).map String.mk
    else if truthy ctx.jwtCookie && ctx.jwtCookie != some "loggedout" then ctx.jwtCookie
    else none
  | none =>
    if truthy ctx.jwtCookie && ctx.jwtCookie != some "loggedout" then ctx.jwtCookie
    else none

/-- The error forwarded by `protect` when no token was found.  The status code
`401` is written as the second argument of `next`, not of `AppError`: the
constructor receives the message only. -/
def notLoggedIn (statusOf : Option Nat → Option String) : Err :=
  AppError statusOf "You are not logged in! Please login to get access" none

/-- `protect`, wrapped by `catchAsync`: a rejection of an awaited call is
handed to `next`.  The result is the updated request/response state and the
argument of the `next` call. -/
def protect (statusOf : Option Nat → Option String) (svc : Services) (ctx : Ctx) :
    Ctx × Next :=
  match extractToken ctx with
  | none => (ctx, .error (notLoggedIn statusOf))
  | some token =>
    if token = "" then (ctx, .error (notLoggedIn statusOf))
    else
      match svc.verify token with
      | .error err => (ctx, .error err)
      | .ok decoded =>
        match svc.findById decoded.id with
        | .error err => (ctx, .error err)
        | .ok none =>
          (ctx, .error (AppError statusOf
            "The user belonging to the token does no longer exists." (some 401)))
        | .ok (some currentUser) =>
          if changedPasswordAfter currentUser decoded.iat then
            (ctx, .error (AppError statusOf
              "User recently changed password! Please login again!" (some 401)))
          else
            ({ ctx with reqUser := some currentUser, localsUser := some currentUser }, .proceed)

/-- `restrictTo(...roles)`: the returned middleware.  Reading `req.user.role`
throws a `TypeError` when `req.user` is undefined; Express hands a thrown error
to the error handlers. -/
def restrictTo (statusOf : Option Nat → Option String) (roles : List String) (ctx : Ctx) :
    Next :=
  match ctx.reqUser with
  | none =>
    .error { name := some "TypeError",
             message := "Cannot read properties of undefined (reading 'role')" }
  | some user =>
    if !roles.contains user.role then
      .error (AppError statusOf "You do not have permission to perform this action" (some 403))
    else
      .proceed

/-- The middleware chain in front of the admin-only user routes
(`userRoutes.js`): `router.use(protect)` then `router.use(restrictTo('admin'))`.
The result is the request state and the `next` argument after the chain: the
controllers are reached on `proceed` only. -/
def adminUserRoute (statusOf : Option Nat → Option String) (svc : Services) (ctx : Ctx) :
    Ctx × Next :=
  match protect statusOf svc ctx with
  | (ctx1, .error err) => (ctx1, .error err)
  | (ctx1, .proceed) => (ctx1, restrictTo statusOf ["admin"] ctx1)

/-- The error with which `jwt.verify` rejects an expired token (`jsonwebtoken`,
`TokenExpiredError`): it assigns its own `name` and `message` and carries the
expiry date, but none of the properties read by the database handlers. -/
def TokenExpiredError (message : String) (stack : Option String) : Err :=
  { name := some "TokenExpiredError", nameOwn := true, message := message, stack := stack }

/-! ## apiFeatures.js -/

/-- A value of the parsed query string (`req.query`): a string, an array, or a
nested object given by its entries in enumeration order.  In a list of entries
a later entry for a key shadows an earlier one (see `getProp`). -/
inductive QVal where
  | str (s : String)
  | arr (items : List QVal)
  | obj (entries : List (String × QVal))
  deriving Repr

/-- A number of the language (an IEEE 754 double): `NaN`, an infinity, or a
finite value, given as the rational it denotes.  The two zeros, equal under
`===`, are not distinguished: the code divides by no variable quantity, so no
result depends on the sign of a zero.  A value computed by the arithmetic below
is a double; `num x` for another rational `x` stands for no value of the
language. -/
inductive JSNum where
  | nan
  | inf (negative : Bool)
  | num (x : ℚ)
  deriving DecidableEq, Repr

/-- The integer nearest to a rational, a tie going to the even one. -/
def roundHalfEven (m : ℚ) : ℤ :=
  let f := Int.floor m
  if m - f < 1 / 2 then f
  else if 1 / 2 < m - f then f + 1
  else if f % 2 = 0 then f else f + 1

/-- The double nearest to `x ≠ 0` (round to nearest, ties to even), `e` being
the binary exponent of `x`, `2 ^ e ≤ |x| < 2 ^ (e + 1)`: the significand has 53
bits, the least exponent of a unit in the last place is `-1074` (subnormals),
and a result of `2 ^ 1024` or more overflows to an infinity. -/
def roundAt (e : ℤ) (x : ℚ) : JSNum :=
  let q := max (e - 52) (-1074)
  let r : ℚ := (roundHalfEven (|x| / 2 ^ q) : ℚ) * 2 ^ q
  if (2 : ℚ) ^ (1024 : ℤ) ≤ r then .inf (decide (x < 0))
  else .num (if x < 0 then -r else r)

/-- The double nearest to a rational: the result of an arithmetic operation
whose exact result is `x`. -/
def roundDouble (x : ℚ) : JSNum :=
  if x = 0 then .num 0 else roundAt (Int.log 2 |x|) x

/-- The operator `*` on numbers. -/
def JSNum.mul : JSNum → JSNum → JSNum
  | .nan, _ => .nan
  | _, .nan => .nan
  | .inf s, .inf t => .inf (s != t)
  | .inf s, .num y => if y = 0 then .nan else .inf (s != decide (y < 0))
  | .num x, .inf t => if x = 0 then .nan else .inf (decide (x < 0) != t)
  | .num x, .num y => roundDouble (x * y)

/-- The operator `-` on numbers. -/
def JSNum.sub : JSNum → JSNum → JSNum
  | .nan, _ => .nan
  | _, .nan => .nan
  | .inf s, .inf t => if s = t then .nan else .inf s
  | .inf s, .num _ => .inf s
  | .num _, .inf t => .inf (!t)
  | .num x, .num y => roundDouble (x - y)

/-- A call made on the pending mongoose query.  The query object is external;
it is represented by the calls the code makes on it, in order. -/
inductive QueryCall where
  | find (conditions : QVal)
  | sort (arg : String)
  | select (arg : String)
  | skip (n : JSNum)
  | limit (n : JSNum)

/-- The class `APIFeatures`: the pending query and the query-string mapping. -/
structure APIFeatures where
  query : List QueryCall
  queryString : List (String × QVal)

/-! ### `JSON.stringify` -/

/-- Lowercase hexadecimal digit of a number below 16. -/
def hexDigit (n : Nat) : Char :=
  if n < 10 then Char.ofNat (48 + n) else Char.ofNat (87 + n)

/-- `QuoteJSONString` on one character: the two-character escapes, `\u00XX`
for the remaining control characters, the character itself otherwise. -/
def escapeChar (c : Char) : List Char :=
  if c = '"' then ['\\', '"']
  else if c = '\\' then ['\\', '\\']
  else if c = '\x08' then ['\\', 'b']
  else if c = '\x0c' then ['\\', 'f']
  else if c = '\n' then ['\\', 'n']
  else if c = '\r' then ['\\', 'r']
  else if c = '\t' then ['\\', 't']
  else if c.toNat < 32 then
    ['\\', 'u', '0', '0', hexDigit (c.toNat / 16), hexDigit (c.toNat % 16)]
  else [c]

/-- The escaped content of a string literal. -/
def escape : List Char → List Char
  | [] => []
  | c :: cs => escapeChar c ++ escape cs

/-- A string literal of the JSON text. -/
def quote (s : String) : List Char :=
  '"' :: (escape s.data ++ ['"'])

mutual
/-- `JSON.stringify` on a query value: no insignificant whitespace. -/
def stringify : QVal → List Char
  | .str s => quote s
  | .arr [] => ['[', ']']
  | .arr (x :: xs) => '[' :: (stringify x ++ stringifyItems xs)
  | .obj [] => ['{', '}']
  | .obj ((k, v) :: es) => '{' :: (quote k ++ ':' :: (stringify v ++ stringifyEntries es))
/-- The remaining items of an array, up to the closing bracket. -/
def stringifyItems : List QVal → List Char
  | [] => [']']
  | x :: xs => ',' :: (stringify x ++ stringifyItems xs)
/-- The remaining entries of an object, up to the closing brace. -/
def stringifyEntries : List (String × QVal) → List Char
  | [] => ['}']
  | (k, v) :: es => ',' :: (quote k ++ ':' :: (stringify v ++ stringifyEntries es))
end

/-! ### `queryStr.replace(/\b(gte|gt|lte|lt)\b/g, (match) => '$' + match)` -/

/-- The class `\w` of the regular expression: `[A-Za-z0-9_]`. -/
def isWordChar (c : Char) : Bool :=
  c.isAlphanum || c = '_'

/-- The alternatives of the group, in the order of the pattern. -/
def operators : List (List Char) := ["gte".data, "gt".data, "lte".data, "lt".data]

/-- The assertion `\b` after a word character: the text ends or goes on with a
character outside `\w`. -/
def boundaryAfter : List Char → Bool
  | [] => true
  | c :: _ => !isWordChar c

/-- The part `(gte|gt|lte|lt)\b` of the pattern matches at the head of the
text: one of the alternatives is a prefix and is followed by a boundary. -/
def startsOperator (text : List Char) : Bool :=
  operators.any fun w => w.isPrefixOf text && boundaryAfter (text.drop w.length)

/-- The global replacement, scanning from left to right; `prevWord` tells
whether the character before the current position is in `\w`.  A match begins
where the leading `\b` holds (the previous character is not a word character,
the current one is) and the rest of the pattern matches; its replacement is
`$` followed by the match, so the scan emits `$` and copies the characters. -/
def replaceFrom (prevWord : Bool) : List Char → List Char
  | [] => []
  | c :: cs =>
    (if !prevWord && startsOperator (c :: cs) then ['$'] else []) ++
      c :: replaceFrom (isWordChar c) cs

/-! ### `JSON.parse` -/

/-- The value of a hexadecimal digit. -/
def hexValue (c : Char) : Option Nat :=
  if '0' ≤ c ∧ c ≤ '9' then some (c.toNat - 48)
  else if 'a' ≤ c ∧ c ≤ 'f' then some (c.toNat - 87)
  else if 'A' ≤ c ∧ c ≤ 'F' then some (c.toNat - 55)
  else none

/-- The character denoted by a two-character escape. -/
def unescapeChar (c : Char) : Option Char :=
  if c = '"' then some '"'
  else if c = '\\' then some '\\'
  else if c = '/' then some '/'
  else if c = 'b' then some '\x08'
  else if c = 'f' then some '\x0c'
  else if c = 'n' then some '\n'
  else if c = 'r' then some '\r'
  else if c = 't' then some '\t'
  else none

/-- The character denoted by `\uXXXX`. -/
def hex4 (a b c d : Char) : Option Char :=
  match hexValue a, hexValue b, hexValue c, hexValue d with
  | some x, some y, some z, some w => some (Char.ofNat (4096 * x + 256 * y + 16 * z + w))
  | _, _, _, _ => none

/-- The content of a string literal after its opening quote, and the text after
the closing quote.  A raw control character is a syntax error. -/
def lexBody : List Char → Option (List Char × List Char)
  | [] => none
  | c :: rest =>
    if c = '"' then some ([], rest)
    else if c = '\\' then
      match rest with
      | [] => none
      | e :: rest1 =>
        if e = 'u' then
          match rest1 with
          | a :: b :: c :: d :: rest2 =>
            match hex4 a b c d, lexBody rest2 with
            | some ch, some (s, r) => some (ch :: s, r)
            | _, _ => none
          | _ => none
        else
          match unescapeChar e, lexBody rest1 with
          | some ch, some (s, r) => some (ch :: s, r)
          | _, _ => none
    else if c.toNat < 32 then none
    else
      match lexBody rest with
      | some (s, r) => some (c :: s, r)
      | none => none

mutual
/-- A value at the head of the text, and the text after it.  The grammar is JSON
restricted to strings, arrays and objects without insignificant whitespace (the
texts `stringify` emits); the first argument bounds the depth of the descent. -/
def parseValue : Nat → List Char → Option (QVal × List Char)
  | 0, _ => none
  | _ + 1, [] => none
  | n + 1, c :: rest =>
    if c = '"' then
      (lexBody rest).map fun sr => (QVal.str ⟨sr.1⟩, sr.2)
    else if c = '[' then
      if rest.head? = some ']' then some (QVal.arr [], rest.tail)
      else
        (parseValue n rest).bind fun vr =>
          (parseItems n vr.2).map fun vsr => (QVal.arr (vr.1 :: vsr.1), vsr.2)
    else if c = '{' then
      if rest.head? = some '}' then some (QVal.obj [], rest.tail)
      else
        (parseEntry n rest).bind fun er =>
          (parseEntries n er.2).map fun esr => (QVal.obj (er.1 :: esr.1), esr.2)
    else none
/-- The remaining items of an array, up to the closing bracket. -/
def parseItems : Nat → List Char → Option (List QVal × List Char)
  | 0, _ => none
  | _ + 1, [] => none
  | n + 1, c :: rest =>
    if c = ']' then some ([], rest)
    else if c = ',' then
      (parseValue n rest).bind fun vr =>
        (parseItems n vr.2).map fun vsr => (vr.1 :: vsr.1, vsr.2)
    else none
/-- One entry of an object: a key, a colon, a value. -/
def parseEntry : Nat → List Char → Option ((String × QVal) × List Char)
  | 0, _ => none
  | _ + 1, [] => none
  | n + 1, c :: rest =>
    if c = '"' then
      (lexBody rest).bind fun kr =>
        if kr.2.head? = some ':' then
          (parseValue n kr.2.tail).map fun vr => ((⟨kr.1⟩, vr.1), vr.2)
        else none
    else none
/-- The remaining entries of an object, up to the closing brace. -/
def parseEntries : Nat → List Char → Option (List (String × QVal) × List Char)
  | 0, _ => none
  | _ + 1, [] => none
  | n + 1, c :: rest =>
    if c = '}' then some ([], rest)
    else if c = ',' then
      (parseEntry n rest).bind fun er =>
        (parseEntries n er.2).map fun esr => (er.1 :: esr.1, esr.2)
    else none
end

/-- `JSON.parse` on the texts of the grammar above: `none` stands for the
`SyntaxError`.  The length of the text bounds the depth of any value in it. -/
def parse (text : List Char) : Option QVal :=
  match parseValue (text.length + 1) text with
  | some (v, []) => some v
  | _ => none

/-! ### The methods -/

/-- The keys removed by `filter`. -/
def excludeFields : List String := ["page", "sort", "limit", "fields"]

/-- The statement `delete obj[k]`. -/
def deleteProp (k : String) (obj : List (String × QVal)) : List (String × QVal) :=
  obj.filter fun e => e.1 != k

/-- `APIFeatures.filter`: copy the mapping, delete the excluded keys, stringify,
replace the operator names in the text, parse, and pass the result to
`query.find`.  A `SyntaxError` of `JSON.parse` would be thrown. -/
def APIFeatures.filter (self : APIFeatures) : Except String APIFeatures :=
  let queryObj := excludeFields.foldl (fun obj el => deleteProp el obj) self.queryString
  let queryStr := stringify (.obj queryObj)
  let queryStr := replaceFrom false queryStr
  match parse queryStr with
  | some conditions => .ok { self with query := self.query ++ [.find conditions] }
  | none => .error "SyntaxError"

/-- The value of `v * 1` for a property `v` of the query string: `NaN` when the
property is undefined, else the product of the `Number` coercion of the value,
which is the parameter `toNumber`, and `1`. -/
def timesOne (toNumber : QVal → JSNum) : Option QVal → JSNum
  | none => .nan
  | some v => JSNum.mul (toNumber v) (.num 1)

/-- The value of `a || b` on numbers: `NaN` and `0` are falsy, every other
number, the infinities included, is truthy. -/
def orNum (a b : JSNum) : JSNum :=
  match a with
  | .num x => if x = 0 then b else a
  | .nan => b
  | .inf _ => a

/-- `APIFeatures.paginate`. -/
def APIFeatures.paginate (toNumber : QVal → JSNum) (self : APIFeatures) : APIFeatures :=
  let page := orNum (timesOne toNumber (getProp "page" self.queryString)) (.num 1)
  let limit := orNum (timesOne toNumber (getProp "limit" self.queryString)) (.num 100)
  let skip := JSNum.mul (JSNum.sub page (.num 1)) limit
  { self with query := self.query ++ [.skip skip, .limit limit] }

/-- The value of a string of decimal digits. -/
def digitsValue : List Char → Option Nat
  | [] => some 0
  | c :: cs =>
    if c.isDigit then (digitsValue cs).map fun v => (c.toNat - 48) * 10 ^ cs.length + v
    else none

/-- The `Number` coercion on the strings of decimal digits (the empty string is
`0`): the double nearest to the value written.  On every other value this
function answers `NaN`, which the language does not always do: it instantiates
the coercion at concrete inputs made of digits only. -/
def numberOfDigits : QVal → JSNum
  | .str s =>
    match digitsValue s.data with
    | some v => roundDouble v
    | none => .nan
  | _ => .nan

/-! ### What `filter` computes, on the values themselves -/

/-- A string after the round trip through the text: `$` is put before every
operator name that stands as a whole word.  A control character is escaped in
the text with a sequence ending in a letter or digit, so it counts as a word
character for the character that follows it. -/
def rewriteFrom (prevWord : Bool) : List Char → List Char
  | [] => []
  | c :: cs =>
    (if !prevWord && startsOperator (c :: cs) then ['$'] else []) ++
      c :: rewriteFrom (isWordChar c || decide (c.toNat < 32)) cs

/-- The rewriting of a key or of a string value. -/
def rewriteStr (s : String) : String :=
  ⟨rewriteFrom false s.data⟩

mutual
/-- A query value with every string in it rewritten, keys and values alike. -/
def rewriteVal : QVal → QVal
  | .str s => .str (rewriteStr s)
  | .arr xs => .arr (rewriteItems xs)
  | .obj es => .obj (rewriteEntries es)
/-- The items of an array, rewritten. -/
def rewriteItems : List QVal → List QVal
  | [] => []
  | x :: xs => rewriteVal x :: rewriteItems xs
/-- The entries of an object, rewritten. -/
def rewriteEntries : List (String × QVal) → List (String × QVal)
  | [] => []
  | (k, v) :: es => (rewriteStr k, rewriteVal v) :: rewriteEntries es
end

/-- Some operator name stands as a whole word in the string (in the sense of
`rewriteFrom`). -/
def mentionsOperator (prevWord : Bool) : List Char → Bool
  | [] => false
  | c :: cs =>
    (!prevWord && startsOperator (c :: cs)) ||
      mentionsOperator (isWordChar c || decide (c.toNat < 32)) cs

mutual
/-- A depth of descent sufficient to parse the text of a value. -/
def fuelVal : QVal → Nat
  | .str _ => 1
  | .arr [] => 1
  | .arr (x :: xs) => 1 + fuelVal x + fuelItems xs
  | .obj [] => 1
  | .obj ((_, v) :: es) => 2 + fuelVal v + fuelEntries es
/-- A depth sufficient for the remaining items of an array. -/
def fuelItems : List QVal → Nat
  | [] => 1
  | x :: xs => 1 + fuelVal x + fuelItems xs
/-- A depth sufficient for the remaining entries of an object. -/
def fuelEntries : List (String × QVal) → Nat
  | [] => 1
  | (_, v) :: es => 2 + fuelVal v + fuelEntries es
end

/-- The entries of the query string that `filter` keeps: those whose key is not
one of the excluded keys. -/
def nonReserved (queryString : List (String × QVal)) : List (String × QVal) :=
  queryString.filter fun e => !excludeFields.contains e.1

/-- The keys of an object. -/
def keysOf (obj : List (String × QVal)) : List String :=
  obj.map Prod.fst

/-- The test of the production branch: the error matches one of the five
patterns (`name` among the four recognised names, or `code === 11000`). -/
def recognised (err : Err) : Bool :=
  err.name = some "CastError" || err.code = some 11000 || err.name = some "ValidationError"
    || err.name = some "JsonWebTokenError" || err.name = some "TokenExpiredError"

/-- The error matches a token pattern. -/
def tokenKind (err : Err) : Bool :=
  err.name = some "JsonWebTokenError" || err.name = some "TokenExpiredError"

/-- Every handler that the production chain runs on the error finds the
property it dereferences: the duplicate-key handler runs on an object with
`keyValue` (so not on the result of the cast handler), the validation handler
on an object with `errors` (so not on the result of an earlier handler). -/
def handlersDefined (err : Err) : Bool :=
  (err.code != some 11000 || (err.name != some "CastError" && err.keyValue.isSome)) &&
  (err.name != some "ValidationError" || (err.code != some 11000 && err.errors.isSome))

/-! ### `sort` and `limitFields` -/

/-- `pieces.join(sep)` for a single-character separator. -/
def joinChars (sep : Char) : List (List Char) → List Char
  | [] => []
  | [x] => x
  | x :: y :: rest => x ++ sep :: joinChars sep (y :: rest)

/-- The expression `s.split(',').join(' ')`. -/
def commaToSpace (s : String) : String :=
  ⟨joinChars ' ' (splitChars ',' s.data)⟩

/-- `APIFeatures.sort`.  The test `if (this.queryString.sort)` is the truthiness
of the parameter: an absent parameter and the empty string take the `else`
branch.  An array or an object is truthy and has no method `split`: the call
throws a `TypeError`. -/
def APIFeatures.sort (self : APIFeatures) : Except String APIFeatures :=
  match getProp "sort" self.queryString with
  | some (.str s) =>
    if s != "" then .ok { self with query := self.query ++ [.sort (commaToSpace s)] }
    else .ok { self with query := self.query ++ [.sort "-createdAt _id"] }
  | some _ => .error "TypeError: this.queryString.sort.split is not a function"
  | none => .ok { self with query := self.query ++ [.sort "-createdAt _id"] }

/-- `APIFeatures.limitFields`, with the same truthiness test on the parameter
`fields`. -/
def APIFeatures.limitFields (self : APIFeatures) : Except String APIFeatures :=
  match getProp "fields" self.queryString with
  | some (.str s) =>
    if s != "" then .ok { self with query := self.query ++ [.select (commaToSpace s)] }
    else .ok { self with query := self.query ++ [.select "-__v"] }
  | some _ => .error "TypeError: this.queryString.fields.split is not a function"
  | none => .ok { self with query := self.query ++ [.select "-__v"] }

/-- The path names of the string syntax that the query builder accepts for
`sort` and `select`: a space delimited list of path names (empty names are
skipped). -/
def pathNames (arg : String) : List (List Char) :=
  (splitChars ' ' arg.data).filter fun name => !name.isEmpty

/-- One key of a sort order. -/
structure SortKey where
  path : String
  descending : Bool
  deriving DecidableEq, Repr

/-- The sort key a path name stands for: ascending, unless the name is
prefixed with `-`, which makes it descending. -/
def sortKeyOf : List Char → SortKey
  | '-' :: path => ⟨⟨path⟩, true⟩
  | path => ⟨⟨path⟩, false⟩

/-- The ordered sort key list that the query builder reads from the argument of
`sort`. -/
def sortKeys (arg : String) : List SortKey :=
  (pathNames arg).map sortKeyOf

/-- One entry of a projection: a path to include, a path to exclude (prefix
`-`), or a path whose schema-level exclusion is lifted (prefix `+`). -/
inductive ProjectionEntry where
  | include (path : String)
  | exclude (path : String)
  | force (path : String)
  deriving DecidableEq, Repr

/-- The projection entry a path name stands for. -/
def projectionEntryOf : List Char → ProjectionEntry
  | '-' :: path => .exclude ⟨path⟩
  | '+' :: path => .force ⟨path⟩
  | path => .include ⟨path⟩

/-- The projection that the query builder reads from the argument of
`select`. -/
def projection (arg : String) : List ProjectionEntry :=
  (pathNames arg).map projectionEntryOf

/-- The pieces of a parameter between commas, the empty ones left out. -/
def commaPieces (s : String) : List (List Char) :=
  (splitChars ',' s.data).filter fun name => !name.isEmpty

/-! ### `isLoggedIn` and `catchAsync` -/

/-- What a middleware did: the request/response state it leaves, the calls of
`next` it made, and the responses it sent. -/
structure Effects where
  ctx : Ctx
  nextCalls : List Next
  responses : List Response
  deriving DecidableEq, Repr

/-- `isLoggedIn`.  Everything happens inside `try`; the `catch` clause calls
`next()` for any rejection of an awaited call. -/
def isLoggedIn (svc : Services) (ctx : Ctx) : Effects :=
  match ctx.jwtCookie with
  | none => ⟨ctx, [.proceed], []⟩
  | some cookie =>
    if cookie = "" then ⟨ctx, [.proceed], []⟩
    else
      match svc.verify cookie with
      | .error _ => ⟨ctx, [.proceed], []⟩
      | .ok decoded =>
        match svc.findById decoded.id with
        | .error _ => ⟨ctx, [.proceed], []⟩
        | .ok none => ⟨ctx, [.proceed], []⟩
        | .ok (some currentUser) =>
          if changedPasswordAfter currentUser decoded.iat then ⟨ctx, [.proceed], []⟩
          else ⟨{ ctx with localsUser := some currentUser }, [.proceed], []⟩

/-- How the promise returned by an `async` handler settles. -/
inductive Settled where
  | fulfilled
  | rejected (err : Err)
  deriving DecidableEq, Repr

/-- One run of an `async` request handler: what it did itself (state, calls of
`next`, responses) and how its promise settled.  An `async` function never
throws synchronously: every failure is a rejection. -/
structure AsyncRun where
  effects : Effects
  settled : Settled
  deriving DecidableEq, Repr

/-- The calls of `next` made by the wrapper itself: the handler attached with
`.catch` runs once if the promise rejects, and not at all if it fulfils. -/
def catchCalls : Settled → List Next
  | .rejected err => [.error err]
  | .fulfilled => []

/-- `catchAsync(fn)`: the returned middleware runs `fn` and attaches
`.catch((err) => next(err))` to its promise. -/
def catchAsync (fn : Ctx → AsyncRun) (ctx : Ctx) : Effects :=
  let run := fn ctx
  { run.effects with nextCalls := run.effects.nextCalls ++ catchCalls run.settled }

/-! ## reviewModel.js, tourModel.js, handlerFactory.js -/

/-- A review document, as far as the rating aggregate reads it. -/
structure Review where
  id : String
  tour : String
  user : String
  rating : ℚ
  deriving DecidableEq, Repr

/-- A tour document, as far as the rating aggregate reads and writes it; the
defaults are those of the schema. -/
structure Tour where
  id : String
  ratingsAverage : JSNum := .num (9 / 2)
  ratingsQuantity : ℕ := 0
  secretTour : Bool := false
  deriving DecidableEq, Repr

/-- The two collections touched by the review hooks. -/
structure Store where
  reviews : List Review
  tours : List Tour
  deriving DecidableEq, Repr

/-- `Math.round`: the nearest integer, a half going upwards; `NaN` and the
infinities are returned as they are. -/
def mathRound : JSNum → JSNum
  | .num x => .num (Int.floor (x + 1 / 2))
  | other => other

/-- The setter of `ratingsAverage` in the tour schema:
`(val) => Math.round(val * 10) / 10`.  The division is by the constant `10`:
of a finite number it gives the double nearest to the quotient, of `NaN` and of
an infinity the same value. -/
def roundRating (val : JSNum) : JSNum :=
  match mathRound (JSNum.mul val (.num 10)) with
  | .num k => roundDouble (k / 10)
  | other => other

/-- The reviews selected by the stage `$match: { tour: tourId }`. -/
def reviewsOf (tourId : String) (reviews : List Review) : List Review :=
  reviews.filter fun r => r.tour = tourId

/-- The result of the aggregation pipeline: no group when no review matches,
else one group with the count `nRating` (`$sum: 1`) and the average
`avgRating`.  The operator `$avg` is computed by the database server: it is the
parameter `avg`, applied to the ratings of the group. -/
def ratingStats (avg : List ℚ → JSNum) (tourId : String) (reviews : List Review) :
    Option (ℕ × JSNum) :=
  let matching := reviewsOf tourId reviews
  if matching.isEmpty then none
  else some (matching.length, avg (matching.map Review.rating))

/-- The exact mean of the ratings rounded once to a double: what `$avg` returns
when the sum of the ratings is exact, as it is for whole-number ratings. -/
def meanDouble (ratings : List ℚ) : JSNum :=
  roundDouble (ratings.sum / ratings.length)

/-- The filter of `Tour.findByIdAndUpdate(tourId, ...)`: the identifier, and
the condition `secretTour: { $ne: true }` that the hook `pre(/^find/)` of the
tour schema adds to every query whose name starts with `find`. -/
def matchesTour (tourId : String) (t : Tour) : Bool :=
  t.id = tourId && !t.secretTour

/-- The update of the first document that matches a filter. -/
def updateFirst (p : Tour → Bool) (f : Tour → Tour) : List Tour → List Tour
  | [] => []
  | t :: ts => if p t then f t :: ts else t :: updateFirst p f ts

/-- `Tour.findByIdAndUpdate(tourId, { ratingsQuantity, ratingsAverage })`: the
update is cast through the schema, so the setter of `ratingsAverage` is
applied to the value written. -/
def updateTourRatings (tourId : String) (quantity : ℕ) (average : JSNum) (tours : List Tour) :
    List Tour :=
  updateFirst (matchesTour tourId)
    (fun t => { t with ratingsQuantity := quantity, ratingsAverage := roundRating average }) tours

/-- `reviewSchema.statics.calcAverageRatings`. -/
def calcAverageRatings (avg : List ℚ → JSNum) (tourId : String) (db : Store) : Store :=
  match ratingStats avg tourId db.reviews with
  | some (nRating, avgRating) =>
    { db with tours := updateTourRatings tourId nRating avgRating db.tours }
  | none => { db with tours := updateTourRatings tourId 0 (.num (9 / 2)) db.tours }

/-- `Review.create(doc)` once the document is stored: the hook `post('save')`
calls `calcAverageRatings(this.tour)`. -/
def createReview (avg : List ℚ → JSNum) (review : Review) (db : Store) : Store :=
  calcAverageRatings avg review.tour { db with reviews := db.reviews ++ [review] }

/-- The fields of a review that an update may set. -/
structure ReviewPatch where
  rating : Option ℚ := none
  tour : Option String := none
  deriving DecidableEq, Repr

/-- A review with the fields of the patch written over. -/
def applyPatch (patch : ReviewPatch) (r : Review) : Review :=
  { r with rating := patch.rating.getD r.rating, tour := patch.tour.getD r.tour }

/-- The error thrown by the hook `post(/^findOneAnd/)` when the hook
`pre(/^findOneAnd/)` stored `null` in `this.r`: reading `this.r.constructor`. -/
def hookTypeError : Err :=
  { name := some "TypeError", message := "Cannot read properties of null (reading 'constructor')" }

/-- `Review.findByIdAndUpdate(id, patch)` with the two hooks on `findOneAnd`:
the pre-hook stores the current document in `this.r` (`null` when none
matches), the update runs, and the post-hook calls
`this.r.constructor.calcAverageRatings(this.r.tour)`.  The result is the
document returned by the query (`null` when none matched) and the collections
afterwards; a rejection of the post-hook rejects the query. -/
def reviewFindByIdAndUpdate (avg : List ℚ → JSNum) (id : String) (patch : ReviewPatch)
    (db : Store) : Except Err (Option Review × Store) :=
  let r := db.reviews.find? fun x => x.id = id
  let db1 : Store :=
    { db with reviews := db.reviews.map fun x => if x.id = id then applyPatch patch x else x }
  match r with
  | none => .error hookTypeError
  | some r => .ok (some (applyPatch patch r), calcAverageRatings avg r.tour db1)

/-- `Review.findByIdAndDelete(id)` with the same two hooks. -/
def reviewFindByIdAndDelete (avg : List ℚ → JSNum) (id : String) (db : Store) :
    Except Err (Option Review × Store) :=
  let r := db.reviews.find? fun x => x.id = id
  let db1 : Store := { db with reviews := db.reviews.filter fun x => x.id ≠ id }
  match r with
  | none => .error hookTypeError
  | some r => .ok (some r, calcAverageRatings avg r.tour db1)

/-- The three queries of a model used by the handler factory, for documents of
type `Doc` and update bodies of type `Body`.  Each may reject; each resolves to
`null` (`none`) when no document matches the identifier. -/
structure Model (Doc Body : Type) where
  findById : String → Except Err (Option Doc)
  findByIdAndUpdate : String → Body → Except Err (Option Doc)
  findByIdAndDelete : String → Except Err (Option Doc)

/-- What a factory handler, wrapped by `catchAsync`, ends with: an error handed
to `next`, or a success response with a status code and a document (`null` for
a deletion). -/
inductive FactoryOutcome (Doc : Type) where
  | forwarded (err : Err)
  | success (statusCode : Nat) (doc : Option Doc)

/-- `factory.deleteOne(Model)`, applied to `req.params.id`. -/
def deleteOne {Doc Body : Type} (statusOf : Option Nat → Option String) (model : Model Doc Body)
    (id : String) : FactoryOutcome Doc :=
  match model.findByIdAndDelete id with
  | .error err => .forwarded err
  | .ok none => .forwarded (AppError statusOf "No tour found with that ID" (some 404))
  | .ok (some _) => .success 204 none

/-- `factory.updateOne(Model)`, applied to `req.params.id` and `req.body`. -/
def updateOne {Doc Body : Type} (statusOf : Option Nat → Option String) (model : Model Doc Body)
    (id : String) (body : Body) : FactoryOutcome Doc :=
  match model.findByIdAndUpdate id body with
  | .error err => .forwarded err
  | .ok none => .forwarded (AppError statusOf "No document found with that ID" (some 404))
  | .ok (some doc) => .success 200 (some doc)

/-- `factory.getOne(Model)`, applied to `req.params.id`. -/
def getOne {Doc Body : Type} (statusOf : Option Nat → Option String) (model : Model Doc Body)
    (id : String) : FactoryOutcome Doc :=
  match model.findById id with
  | .error err => .forwarded err
  | .ok none => .forwarded (AppError statusOf "No document found with that ID" (some 404))
  | .ok (some doc) => .success 200 (some doc)

/-- The model `Review` over the collections `db`: `findById` runs no hook on
`findOneAnd`, the other two queries run both. -/
def reviewModel (avg : List ℚ → JSNum) (db : Store) : Model Review ReviewPatch where
  findById id := .ok (db.reviews.find? fun x => x.id = id)
  findByIdAndUpdate id patch := (reviewFindByIdAndUpdate avg id patch db).map Prod.fst
  findByIdAndDelete id := (reviewFindByIdAndDelete avg id db).map Prod.fst

/-! ## Password reset and password change -/

/-- `userSchema.methods.createPasswordResetToken`: the random token
`resetToken` is returned to the caller, its SHA-256 hash (the parameter
`sha256`) is stored with an expiry ten minutes after `now`. -/
def createPasswordResetToken (sha256 : String → String) (resetToken : String) (now : Int)
    (user : User) : User :=
  { user with
    passwordResetToken := some (sha256 resetToken)
    passwordResetExpires := some (now + 10 * 60 * 1000) }

/-- The second hook `pre('save')` of the user schema: when the password was
modified on a document that is not new, `passwordChangedAt` becomes
`Date.now() - 1000`. -/
def recordPasswordChange (now : Int) (passwordModified isNew : Bool) (user : User) : User :=
  if !passwordModified || isNew then user
  else { user with passwordChangedAt := some (now - 1000) }

/-- The first hook `pre('save')` of the user schema: a modified password is
replaced by its hash (the parameter `bcrypt`). -/
def hashPassword (bcrypt : String → String) (passwordModified : Bool) (user : User) : User :=
  if !passwordModified then user else { user with password := bcrypt user.password }

/-- `user.save()` on an existing document: the stored document with the same
identifier is replaced. -/
def saveUser (user : User) (users : List User) : List User :=
  users.map fun u => if u.id = user.id then user else u

/-- The validators of the schema on `password` and `passwordConfirm`, run by
`save()` before the hooks: both required, the password at least 8 characters
long, the confirmation equal to the password.  The result is the
`ValidationError` with which `save()` rejects, if any. -/
def validatePassword (password passwordConfirm : Option String) : Option Err :=
  let failures : List (String × String) :=
    (match password with
      | none => [("password", "Please provide a password")]
      | some p =>
        if p = "" then [("password", "Please provide a password")]
        else if p.length < 8 then
          [("password", "A password must have more or equal to 8 characters")]
        else []) ++
    (match passwordConfirm with
      | none => [("passwordConfirm", "Please provide a password")]
      | some c =>
        if c = "" then [("passwordConfirm", "Please provide a password")]
        else if some c ≠ password then [("passwordConfirm", "Passwords are not equal!")]
        else [])
  if failures.isEmpty then none
  else some { name := some "ValidationError", message := "User validation failed",
              errors := some failures }

/-- What an authentication handler, wrapped by `catchAsync`, ends with: an
error handed to `next`, or the response of `createSendToken` or of the handler
itself, with its status code and the claims of the token issued, if any. -/
inductive AuthOutcome where
  | forwarded (err : Err)
  | responded (statusCode : Nat) (token : Option Decoded)
  deriving DecidableEq, Repr

/-- `signToken`: the claims of the token signed at time `issuedAt`
(milliseconds); the library stamps `iat` with the current second. -/
def signToken (id : String) (issuedAt : Int) : Decoded :=
  ⟨id, issuedAt / 1000⟩

/-- `forgotPassword`, on the stored accounts.  `User.findOne` goes through the
hook `pre(/^find/)`, which keeps active accounts only.  `emailSent` tells
whether `sendPasswordReset` fulfilled.  The persistence layer is taken to
accept the writes (`validateBeforeSave` is off). -/
def forgotPassword (statusOf : Option Nat → Option String) (sha256 : String → String)
    (resetToken : String) (now : Int) (emailSent : Bool) (email : String) (users : List User) :
    List User × AuthOutcome :=
  match users.find? fun u => u.active && u.email = email with
  | none =>
    (users, .forwarded (AppError statusOf "There is no user with that email address." (some 404)))
  | some user =>
    let user1 := createPasswordResetToken sha256 resetToken now user
    let users1 := saveUser user1 users
    if emailSent then (users1, .responded 200 none)
    else
      let user2 := { user1 with passwordResetToken := none, passwordResetExpires := none }
      (saveUser user2 users1,
        .forwarded (AppError statusOf "There was an error sending the email. Try again later."
          (some 500)))

/-- The filter of `resetPassword`: an active account storing the hashed token
with an expiry later than `now`. -/
def matchesResetToken (hashedToken : String) (now : Int) (u : User) : Bool :=
  u.active && u.passwordResetToken = some hashedToken &&
    match u.passwordResetExpires with
    | some expires => decide (now < expires)
    | none => false

/-- `resetPassword`, on the stored accounts: `now` is the time of the lookup,
`savedAt` the time at which the hook of `save()` runs, `issuedAt` the time at
which `createSendToken` signs the token. -/
def resetPassword (statusOf : Option Nat → Option String) (sha256 bcrypt : String → String)
    (now savedAt issuedAt : Int) (token : String) (password passwordConfirm : Option String)
    (users : List User) : List User × AuthOutcome :=
  match users.find? (matchesResetToken (sha256 token) now) with
  | none => (users, .forwarded (AppError statusOf "Token is invalid or has expired" (some 400)))
  | some user =>
    match validatePassword password passwordConfirm with
    | some err => (users, .forwarded err)
    | none =>
      let user1 := { user with
        password := password.getD "", passwordResetToken := none, passwordResetExpires := none }
      let user2 := recordPasswordChange savedAt true false (hashPassword bcrypt true user1)
      (saveUser user2 users, .responded 200 (some (signToken user.id issuedAt)))

/-- `updatePassword`, for the authenticated account `reqUserId`: `compare` is
`bcrypt.compare`.  Reading `user.password` of an account that is not found
throws a `TypeError`. -/
def updatePassword (statusOf : Option Nat → Option String) (bcrypt : String → String)
    (compare : String → String → Bool) (savedAt issuedAt : Int) (reqUserId : String)
    (passwordCurrent : String) (newPassword passwordConfirm : Option String)
    (users : List User) : List User × AuthOutcome :=
  match users.find? fun u => u.active && u.id = reqUserId with
  | none =>
    (users, .forwarded { name := some "TypeError",
                         message := "Cannot read properties of null (reading 'password')" })
  | some user =>
    if !compare passwordCurrent user.password then
      (users, .forwarded (AppError statusOf
        "Password is Incorrect! Please fill in the Correct Password." (some 401)))
    else
      match validatePassword newPassword passwordConfirm with
      | some err => (users, .forwarded err)
      | none =>
        let user1 := { user with password := newPassword.getD "" }
        let user2 := recordPasswordChange savedAt true false (hashPassword bcrypt true user1)
        (saveUser user2 users, .responded 200 (some (signToken user.id issuedAt)))

/-! ## reviewController.js -/

/-- The fields of the body of a create-review request read by
`setTourUserIds`. -/
structure ReviewBody where
  tour : Option String := none
  user : Option String := none
  deriving DecidableEq, Repr

/-- `setTourUserIds`: each of the two fields is set only when the body has no
truthy value for it.  Reading `req.user.id` throws when `req.user` is
undefined. -/
def setTourUserIds (tourIdParam : Option String) (ctx : Ctx) (body : ReviewBody) :
    Except Err ReviewBody :=
  let body1 := if !truthy body.tour then { body with tour := tourIdParam } else body
  if !truthy body1.user then
    match ctx.reqUser with
    | some user => .ok { body1 with user := some user.id }
    | none =>
      .error { name := some "TypeError",
               message := "Cannot read properties of undefined (reading 'id')" }
  else .ok body1

/-! ## The responses of the responder -/

/-- The responses sent by the responder. -/
def Handled.responses : Handled → List Response
  | .sent r => [r]
  | .nothing => []
  | .threw _ => []

/-- The account written by a successful `resetPassword`. -/
def resetAccount (bcrypt : String → String) (savedAt : Int) (password : Option String)
    (user : User) : User :=
  recordPasswordChange savedAt true false (hashPassword bcrypt true
    { user with
      password := password.getD "", passwordResetToken := none, passwordResetExpires := none })

/-! ## The query builder behind the stages -/

/-- The methods of the external query builder that the stages call, as
functions on the states `B` of the builder. -/
structure Builder (B : Type) where
  find : QVal → B → B
  sort : String → B → B
  select : String → B → B
  skip : JSNum → B → B
  limit : JSNum → B → B

/-- The four parts of the fetch request configured in a builder state: the
constraints, the sort keys, the projection, and the offset and limit. -/
structure Parts (B C S P W : Type) where
  constraints : B → C
  sortKeys : B → S
  projection : B → P
  window : B → W

/-- One call of the log, made on a builder state. -/
def QueryCall.run {B : Type} (ops : Builder B) : QueryCall → B → B
  | .find conditions, b => ops.find conditions b
  | .sort arg, b => ops.sort arg b
  | .select arg, b => ops.select arg b
  | .skip n, b => ops.skip n b
  | .limit n, b => ops.limit n b

/-- The builder state reached from `base` by the calls of the log, in order:
the fetch request configured by the log. -/
def configure {B : Type} (ops : Builder B) (calls : List QueryCall) (base : B) : B :=
  calls.foldl (fun b call => call.run ops b) base

/-- What is assumed of the external query builder: repeating a call with the
same argument changes nothing, `skip` and `limit` do not depend on their
order, and each method leaves the parts of the request other than its own as
they are. -/
structure Builder.Lawful {B C S P W : Type} (ops : Builder B) (parts : Parts B C S P W) :
    Prop where
  find_idem : ∀ c b, ops.find c (ops.find c b) = ops.find c b
  sort_idem : ∀ a b, ops.sort a (ops.sort a b) = ops.sort a b
  select_idem : ∀ a b, ops.select a (ops.select a b) = ops.select a b
  skip_idem : ∀ n b, ops.skip n (ops.skip n b) = ops.skip n b
  limit_idem : ∀ n b, ops.limit n (ops.limit n b) = ops.limit n b
  skip_limit : ∀ n m b, ops.skip n (ops.limit m b) = ops.limit m (ops.skip n b)
  find_frame : ∀ c b, parts.sortKeys (ops.find c b) = parts.sortKeys b ∧
    parts.projection (ops.find c b) = parts.projection b ∧
    parts.window (ops.find c b) = parts.window b
  sort_frame : ∀ a b, parts.constraints (ops.sort a b) = parts.constraints b ∧
    parts.projection (ops.sort a b) = parts.projection b ∧
    parts.window (ops.sort a b) = parts.window b
  select_frame : ∀ a b, parts.constraints (ops.select a b) = parts.constraints b ∧
    parts.sortKeys (ops.select a b) = parts.sortKeys b ∧
    parts.window (ops.select a b) = parts.window b
  skip_frame : ∀ n b, parts.constraints (ops.skip n b) = parts.constraints b ∧
    parts.sortKeys (ops.skip n b) = parts.sortKeys b ∧
    parts.projection (ops.skip n b) = parts.projection b
  limit_frame : ∀ n b, parts.constraints (ops.limit n b) = parts.constraints b ∧
    parts.sortKeys (ops.limit n b) = parts.sortKeys b ∧
    parts.projection (ops.limit n b) = parts.projection b

/-- A fetch request in which each part holds the argument of the last call that
set it. -/
structure Request where
  conditions : Option QVal := none
  sortArg : Option String := none
  selectArg : Option String := none
  skip : Option JSNum := none
  limit : Option JSNum := none

/-- A builder on `Request`: each method records its argument in its own part. -/
def lastWrite : Builder Request where
  find c b := { b with conditions := some c }
  sort a b := { b with sortArg := some a }
  select a b := { b with selectArg := some a }
  skip n b := { b with skip := some n }
  limit n b := { b with limit := some n }

/-- The four parts of a `Request`. -/
def requestParts :
    Parts Request (Option QVal) (Option String) (Option String)
      (Option JSNum × Option JSNum) where
  constraints b := b.conditions
  sortKeys b := b.sortArg
  projection b := b.selectArg
  window b := (b.skip, b.limit)

/-! ## Theorems -/

/-! ### The central error responder -/

theorem withDefaults_recognised (err : Err) : recognised (withDefaults err) = recognised err := rfl

/-- An error matching none of the five patterns goes through the production
chain as the plain copy. -/
theorem classify_unrecognised (statusOf : Option Nat → Option String) (err : Err)
    (h : recognised err = false) : classify statusOf err = .ok (spreadCopy err) := by
  simp only [recognised, Bool.or_eq_false_iff, decide_eq_false_iff_not] at h
  obtain ⟨⟨⟨⟨h1, h2⟩, h3⟩, h4⟩, h5⟩ := h
  simp [classify, h1, h2, h3, h4, h5, bind, Except.bind]

/-- An error named `TokenExpiredError` without the duplicate-key code is
replaced by the token-expired operational error. -/
theorem classify_tokenExpired (statusOf : Option Nat → Option String) (err : Err)
    (hName : err.name = some "TokenExpiredError") (hCode : err.code ≠ some 11000) :
    classify statusOf err = .ok (handleTokenExpiredError statusOf) := by
  simp [classify, hName, hCode, bind, Except.bind]

/-- An operational error built with a non-zero status code is answered with
that code and its own message, in development and in production mode. -/
theorem appError_answered (statusOf : Option Nat → Option String) (msg : String) (n : Nat)
    (url : String) (nodeEnv : Option String) (hn : n ≠ 0)
    (hEnv : nodeEnv = some "development" ∨ nodeEnv = some "production") :
    ∃ r, globalErrorHandler statusOf nodeEnv (AppError statusOf msg (some n)) url = .sent r ∧
      r.statusCode = some n ∧ r.message = some msg := by
  have hc : classify statusOf (withDefaults (AppError statusOf msg (some n))) =
      .ok (spreadCopy (withDefaults (AppError statusOf msg (some n)))) :=
    classify_unrecognised statusOf _ (by simp [recognised, withDefaults, AppError])
  rcases hEnv with h | h
  · subst h
    refine ⟨sendErrorDev (withDefaults (AppError statusOf msg (some n))) url,
      by simp [globalErrorHandler], ?_, ?_⟩ <;>
      (unfold sendErrorDev; split <;>
        simp [Response.statusCode, Response.message, getProp, withDefaults, AppError, orNat, hn])
  · subst h
    refine ⟨sendErrorProduction (spreadCopy (withDefaults (AppError statusOf msg (some n)))) url,
      by simp [globalErrorHandler, hc], ?_, ?_⟩ <;>
      (unfold sendErrorProduction; split <;>
        simp [Response.statusCode, Response.message, getProp, withDefaults, AppError, orNat,
          spreadCopy, hn])

/-- The freshness test over the integers: the token is stale exactly when its
issued-at second, in milliseconds, is before the password-change time. -/
theorem changedPasswordAfter_iff (user : User) (iat : Int) :
    changedPasswordAfter user iat = true ↔
      ∃ ms, user.passwordChangedAt = some ms ∧ iat * 1000 < ms := by
  unfold changedPasswordAfter
  cases h : user.passwordChangedAt with
  | none => simp
  | some ms =>
    simp only [decide_eq_true_eq, Option.some.injEq, exists_eq_left']
    rw [lt_div_iff₀ (by norm_num : (0 : ℚ) < 1000)]
    exact_mod_cast Iff.rfl

/-- The outcome of `protect` once a token was extracted. -/
theorem protect_of_token (statusOf : Option Nat → Option String) (svc : Services) (ctx : Ctx)
    (token : String) (hTok : extractToken ctx = some token) (hNe : token ≠ "") :
    protect statusOf svc ctx =
      match svc.verify token with
      | .error err => (ctx, .error err)
      | .ok decoded =>
        match svc.findById decoded.id with
        | .error err => (ctx, .error err)
        | .ok none =>
          (ctx, .error (AppError statusOf
            "The user belonging to the token does no longer exists." (some 401)))
        | .ok (some currentUser) =>
          if changedPasswordAfter currentUser decoded.iat then
            (ctx, .error (AppError statusOf
              "User recently changed password! Please login again!" (some 401)))
          else
            ({ ctx with reqUser := some currentUser, localsUser := some currentUser }, .proceed) := by
  simp [protect, hTok, hNe]

/-- The production chain succeeds exactly on the errors for which every handler
it runs finds the property it dereferences. -/
theorem classify_ok_iff (statusOf : Option Nat → Option String) (err : Err) :
    (∃ r, classify statusOf err = .ok r) ↔ handlersDefined err = true := by
  unfold classify handlersDefined
  by_cases h1 : err.name = some "CastError" <;> by_cases h2 : err.code = some 11000 <;>
    by_cases h3 : err.name = some "ValidationError" <;>
    cases hk : err.keyValue <;> cases he : err.errors <;>
    simp_all [bind, Except.bind, handleDuplicateFieldsDB, handleValidationErrorDB,
      handleCastErrorDB, AppError, spreadCopy]

/-- Whatever the production chain returns for an error matching one of the five
patterns is an operational error, with status 401 for the token patterns and
400 otherwise. -/
theorem classify_recognised (statusOf : Option Nat → Option String) (err r : Err)
    (hRec : recognised err = true) (hOk : classify statusOf err = .ok r) :
    r.isOperational = true ∧ r.statusCode = some (if tokenKind err then 401 else 400) := by
  unfold classify at hOk
  unfold recognised at hRec
  unfold tokenKind
  by_cases h1 : err.name = some "CastError" <;> by_cases h2 : err.code = some 11000 <;>
    by_cases h3 : err.name = some "ValidationError" <;>
    by_cases h4 : err.name = some "JsonWebTokenError" <;>
    by_cases h5 : err.name = some "TokenExpiredError" <;>
    cases hk : err.keyValue <;> cases he : err.errors <;>
    simp_all [bind, Except.bind, handleDuplicateFieldsDB, handleValidationErrorDB,
      handleCastErrorDB, handleJsonWebTokenError, handleTokenExpiredError, AppError,
      spreadCopy] <;>
    (subst hOk; simp)

/-! ### C1: a request without credentials -/

/-- C1, the code as written: for every request with no `Authorization` header
and no `jwt` cookie, `protect` does not proceed and leaves the request
untouched, but the error it forwards carries no status code (the `401` is
passed to `next`), so the central responder answers it with status 500, in
development and in production mode alike, and never with 401. -/
theorem protect_no_credentials_answered_500 (statusOf : Option Nat → Option String)
    (svc : Services) (ctx : Ctx)
    (hAuth : ctx.authorization = none) (hCookie : ctx.jwtCookie = none) :
    protect statusOf svc ctx = (ctx, .error (notLoggedIn statusOf)) ∧
    (notLoggedIn statusOf).statusCode = none ∧
    (∀ nodeEnv, nodeEnv = some "development" ∨ nodeEnv = some "production" →
      ∃ r, globalErrorHandler statusOf nodeEnv (notLoggedIn statusOf) ctx.originalUrl = .sent r ∧
        r.statusCode = some 500 ∧ r.statusCode ≠ some 401) := by
  refine ⟨?_, rfl, ?_⟩
  · simp [protect, extractToken, hAuth, hCookie, truthy]
  · intro nodeEnv h
    have hc : classify statusOf (withDefaults (notLoggedIn statusOf)) =
        .ok (spreadCopy (withDefaults (notLoggedIn statusOf))) :=
      classify_unrecognised statusOf _ (by simp [recognised, withDefaults, notLoggedIn, AppError])
    rcases h with h | h
    · subst h
      refine ⟨sendErrorDev (withDefaults (notLoggedIn statusOf)) ctx.originalUrl,
        by simp [globalErrorHandler], ?_, ?_⟩ <;>
        (unfold sendErrorDev; split <;> simp [Response.statusCode, withDefaults, notLoggedIn,
          AppError, orNat])
    · subst h
      refine ⟨sendErrorProduction (spreadCopy (withDefaults (notLoggedIn statusOf))) ctx.originalUrl,
        by simp [globalErrorHandler, hc], ?_, ?_⟩ <;>
        (unfold sendErrorProduction; split <;> simp [Response.statusCode, withDefaults,
          notLoggedIn, AppError, orNat, spreadCopy])

/-- C1, witness: a request to `/api/v1/users/me` without header and cookie. -/
theorem protect_no_credentials_answered_500_witness :
    ∃ r, globalErrorHandler (fun _ => none) (some "production") (notLoggedIn (fun _ => none))
        "/api/v1/users/me" = .sent r ∧ r.statusCode = some 500 ∧ r.statusCode ≠ some 401 :=
  (protect_no_credentials_answered_500 (fun _ => none)
    ⟨fun _ => .error {}, fun _ => .ok none⟩ { originalUrl := "/api/v1/users/me" } rfl rfl).2.2
    (some "production") (Or.inr rfl)

/-! ### C2: role restriction -/

/-- C2: for every list of permitted roles and every request carrying an
authenticated account, the middleware `restrictTo(roles)` forwards an
operational error with status 403 exactly when the role of the account is not
in the list, and otherwise calls `next()` with no error.  In particular, on the
admin-only user routes (`protect`, then `restrictTo('admin')`) every non-admin
account is stopped with that error, which the responder answers with status
403. -/
theorem restrictTo_forbidden_iff (statusOf : Option Nat → Option String) (roles : List String)
    (ctx : Ctx) (user : User) (hUser : ctx.reqUser = some user) :
    ((∃ err, restrictTo statusOf roles ctx = .error err ∧ err.isOperational = true ∧
        err.statusCode = some 403) ↔ user.role ∉ roles) ∧
    (user.role ∈ roles → restrictTo statusOf roles ctx = .proceed) ∧
    (user.role ≠ "admin" →
      (∀ svc ctx0, protect statusOf svc ctx0 = (ctx, .proceed) →
        ∃ err, adminUserRoute statusOf svc ctx0 = (ctx, .error err) ∧
          err.isOperational = true ∧ err.statusCode = some 403 ∧
          ∀ nodeEnv, nodeEnv = some "development" ∨ nodeEnv = some "production" →
            ∃ r, globalErrorHandler statusOf nodeEnv err ctx.originalUrl = .sent r ∧
              r.statusCode = some 403)) := by
  refine ⟨?_, ?_, ?_⟩
  · by_cases h : user.role ∈ roles
    · simp [restrictTo, hUser, h]
    · simp [restrictTo, hUser, h, AppError]
  · intro h
    simp [restrictTo, hUser, h]
  · intro h svc ctx0 hp
    refine ⟨AppError statusOf "You do not have permission to perform this action" (some 403),
      ?_, rfl, rfl, ?_⟩
    · simp [adminUserRoute, hp, restrictTo, hUser, h]
    · intro nodeEnv hEnv
      obtain ⟨r, hr, hs, _⟩ := appError_answered statusOf
        "You do not have permission to perform this action" 403 ctx.originalUrl nodeEnv
        (by decide) hEnv
      exact ⟨r, hr, hs⟩

/-- C2, witness: a `guide` account on a route restricted to `admin` and
`lead-guide`. -/
theorem restrictTo_forbidden_iff_witness :
    (∃ err, restrictTo (fun _ => none) ["admin", "lead-guide"]
        { reqUser := some { id := "u1", role := "guide" } } = .error err ∧
        err.isOperational = true ∧ err.statusCode = some 403) ↔
      "guide" ∉ ["admin", "lead-guide"] :=
  (restrictTo_forbidden_iff (fun _ => none) ["admin", "lead-guide"]
    { reqUser := some { id := "u1", role := "guide" } } { id := "u1", role := "guide" } rfl).1

/-! ### C3: an expired token -/

/-- C3, counterexample: in development mode a request whose token is rejected
as expired is answered with status 500 and the message of the library error
(`jwt expired`), not with 401 and the token-expired message. -/
theorem expired_token_development_counterexample :
    protect (fun _ => none)
        ⟨fun _ => .error (TokenExpiredError "jwt expired" none), fun _ => .ok none⟩
        { originalUrl := "/api/v1/users/me", authorization := some "Bearer abc" } =
      ({ originalUrl := "/api/v1/users/me", authorization := some "Bearer abc" },
        .error (TokenExpiredError "jwt expired" none)) ∧
    ∃ r, globalErrorHandler (fun _ => none) (some "development")
        (TokenExpiredError "jwt expired" none) "/api/v1/users/me" = .sent r ∧
      r.statusCode = some 500 ∧ r.statusCode ≠ some 401 ∧ r.message = some "jwt expired" ∧
      r.message ≠ some "Your token has expired! Please log in again." := by
  refine ⟨by decide, _, rfl, by decide, by decide, by decide, by decide⟩

/-- C3, amended: in production mode, for every request whose token is rejected
by the verification as expired, `protect` forwards that error and the central
responder answers it with status 401 and the message
`Your token has expired! Please log in again.`. -/
theorem expired_token_production_401 (statusOf : Option Nat → Option String) (svc : Services)
    (ctx : Ctx) (token message : String) (stack : Option String)
    (hTok : extractToken ctx = some token) (hNe : token ≠ "")
    (hVerify : svc.verify token = .error (TokenExpiredError message stack)) :
    protect statusOf svc ctx = (ctx, .error (TokenExpiredError message stack)) ∧
    ∃ r, globalErrorHandler statusOf (some "production") (TokenExpiredError message stack)
        ctx.originalUrl = .sent r ∧
      r.statusCode = some 401 ∧
      r.message = some "Your token has expired! Please log in again." := by
  refine ⟨by rw [protect_of_token statusOf svc ctx token hTok hNe, hVerify], ?_⟩
  have hc : classify statusOf (withDefaults (TokenExpiredError message stack)) =
      .ok (handleTokenExpiredError statusOf) :=
    classify_tokenExpired statusOf _ rfl (by simp [withDefaults, TokenExpiredError])
  refine ⟨sendErrorProduction (handleTokenExpiredError statusOf) ctx.originalUrl,
    by simp [globalErrorHandler, hc], ?_, ?_⟩ <;>
    (unfold sendErrorProduction; split <;>
      simp [Response.statusCode, Response.message, getProp, handleTokenExpiredError, AppError])

/-- C3, witness: the request of the counterexample, in production mode. -/
theorem expired_token_production_401_witness :
    ∃ r, globalErrorHandler (fun _ => none) (some "production")
        (TokenExpiredError "jwt expired" none) "/api/v1/users/me" = .sent r ∧
      r.statusCode = some 401 ∧
      r.message = some "Your token has expired! Please log in again." :=
  (expired_token_production_401 (fun _ => none)
    ⟨fun _ => .error (TokenExpiredError "jwt expired" none), fun _ => .ok none⟩
    { originalUrl := "/api/v1/users/me", authorization := some "Bearer abc" } "abc"
    "jwt expired" none (by decide) (by decide) rfl).2

/-! ### C4: when `protect` lets a request through -/

/-- C4: for every request, `protect` calls `next()` without an error exactly
when a token was extracted, the token verified, an account exists for the
subject id of the token, and the password of the account was not changed after
the issued-at time; the state handed on then has `req.user` and
`res.locals.user` equal to that account and is otherwise unchanged.  In every
other case an error is forwarded and the request state is untouched, so no
account is attached. -/
theorem protect_proceeds_iff (statusOf : Option Nat → Option String) (svc : Services)
    (ctx : Ctx) :
    (∀ ctx1, protect statusOf svc ctx = (ctx1, .proceed) ↔
      ∃ token decoded user, extractToken ctx = some token ∧ token ≠ "" ∧
        svc.verify token = .ok decoded ∧ svc.findById decoded.id = .ok (some user) ∧
        changedPasswordAfter user decoded.iat = false ∧
        ctx1 = { ctx with reqUser := some user, localsUser := some user }) ∧
    ((¬ ∃ ctx1, protect statusOf svc ctx = (ctx1, .proceed)) →
      ∃ err, protect statusOf svc ctx = (ctx, .error err)) := by
  constructor
  · intro ctx1
    cases hTok : extractToken ctx with
    | none => simp [protect, hTok]
    | some token =>
      by_cases hNe : token = ""
      · simp [protect, hTok, hNe]
      · rw [protect_of_token statusOf svc ctx token hTok hNe]
        cases hV : svc.verify token with
        | error e => simp [hNe, hV]
        | ok decoded =>
          dsimp only
          cases hF : svc.findById decoded.id with
          | error e => simp [hNe, hV, hF]
          | ok found =>
            cases found with
            | none => simp [hNe, hV, hF]
            | some user =>
              dsimp only
              cases hC : changedPasswordAfter user decoded.iat with
              | true => simp [hNe, hV, hF, hC]
              | false =>
                constructor
                · intro h
                  simp only [Bool.false_eq_true, if_false, Prod.mk.injEq, and_true] at h
                  exact ⟨token, decoded, user, rfl, hNe, hV, hF, hC, h.symm⟩
                · rintro ⟨t, d, u, ht, _, hd, hu, _, rfl⟩
                  cases ht
                  rw [hV] at hd
                  cases hd
                  rw [hF] at hu
                  cases hu
                  simp
  · intro hNot
    cases hTok : extractToken ctx with
    | none => exact ⟨notLoggedIn statusOf, by simp [protect, hTok]⟩
    | some token =>
      by_cases hNe : token = ""
      · exact ⟨notLoggedIn statusOf, by simp [protect, hTok, hNe]⟩
      · rw [protect_of_token statusOf svc ctx token hTok hNe] at hNot ⊢
        cases hV : svc.verify token with
        | error e => exact ⟨e, rfl⟩
        | ok decoded =>
          rw [hV] at hNot
          dsimp only at hNot ⊢
          cases hF : svc.findById decoded.id with
          | error e => exact ⟨e, rfl⟩
          | ok found =>
            rw [hF] at hNot
            cases found with
            | none => exact ⟨_, rfl⟩
            | some user =>
              dsimp only at hNot ⊢
              cases hC : changedPasswordAfter user decoded.iat with
              | true =>
                exact ⟨AppError statusOf "User recently changed password! Please login again!"
                  (some 401), by simp⟩
              | false =>
                exfalso
                apply hNot
                exact ⟨{ ctx with reqUser := some user, localsUser := some user },
                  by simp [hC]⟩

/-- C4, witness: a request with a bearer token that verifies, for an account
that never changed its password, is handed on with that account attached. -/
theorem protect_proceeds_iff_witness :
    protect (fun _ => none)
        ⟨fun _ => .ok ⟨"u1", 1700000000⟩, fun _ => .ok (some { id := "u1" })⟩
        { authorization := some "Bearer abc" } =
      ({ authorization := some "Bearer abc", reqUser := some { id := "u1" },
         localsUser := some { id := "u1" } }, .proceed) :=
  ((protect_proceeds_iff (fun _ => none)
      ⟨fun _ => .ok ⟨"u1", 1700000000⟩, fun _ => .ok (some { id := "u1" })⟩
      { authorization := some "Bearer abc" }).1 _).2
    ⟨"abc", ⟨"u1", 1700000000⟩, { id := "u1" }, by decide, by decide, rfl, rfl, rfl, rfl⟩

/-! ### C5: the freshness check -/

/-- C5: for every account and every issued-at timestamp `iat` (seconds),
`changedPasswordAfter(iat)` is true exactly when the account has a
password-change timestamp and that timestamp, converted to seconds, is later
than `iat`; it is false for every account without such a timestamp.  At the
freshness step of `protect` (token extracted and verified, account found) the
request is rejected with a 401 error exactly when it is true, and handed on
otherwise. -/
theorem changedPasswordAfter_spec (user : User) (iat : Int) :
    (changedPasswordAfter user iat = true ↔
      ∃ ms, user.passwordChangedAt = some ms ∧ (iat : ℚ) < (ms : ℚ) / 1000) ∧
    (user.passwordChangedAt = none → changedPasswordAfter user iat = false) ∧
    (∀ statusOf svc ctx token decoded, extractToken ctx = some token → token ≠ "" →
      svc.verify token = .ok decoded → decoded.iat = iat →
      svc.findById decoded.id = .ok (some user) →
      ((∃ err, protect statusOf svc ctx = (ctx, .error err) ∧ err.isOperational = true ∧
          err.statusCode = some 401) ↔ changedPasswordAfter user iat = true) ∧
      (changedPasswordAfter user iat = false →
        protect statusOf svc ctx =
          ({ ctx with reqUser := some user, localsUser := some user }, .proceed))) := by
  refine ⟨?_, ?_, ?_⟩
  · unfold changedPasswordAfter
    cases user.passwordChangedAt <;> simp
  · intro h
    simp [changedPasswordAfter, h]
  · intro statusOf svc ctx token decoded hTok hNe hV hIat hF
    rw [protect_of_token statusOf svc ctx token hTok hNe, hV]
    subst hIat
    cases hC : changedPasswordAfter user decoded.iat with
    | true => simp [hF, hC, AppError]
    | false => simp [hF, hC]

/-- C5, witness: an account whose password changed at 1 700 000 000 500 ms is
stale for a token issued at second 1 700 000 000. -/
theorem changedPasswordAfter_spec_witness :
    changedPasswordAfter { id := "u1", passwordChangedAt := some 1700000000500 } 1700000000
      = true :=
  (changedPasswordAfter_spec { id := "u1", passwordChangedAt := some 1700000000500 }
    1700000000).1.2 ⟨1700000000500, rfl, by norm_num⟩

/-! ### C6, C7: unclassified errors in production mode -/

/-- C6: in production mode, for every API request and every unclassified error
(not operational, matching none of the recognised patterns) the responder sends
status 500 with the body `{status: 'error', message: 'Something went very
wrong!'}`; two such errors, however they differ, produce identical responses. -/
theorem production_unclassified_api_generic (statusOf : Option Nat → Option String)
    (url : String) (e1 e2 : Err) (hApi : isApiUrl url = true)
    (hOp1 : e1.isOperational = false) (hKind1 : recognised e1 = false)
    (hOp2 : e2.isOperational = false) (hKind2 : recognised e2 = false) :
    globalErrorHandler statusOf (some "production") e1 url =
      .sent (.json (some 500)
        [("status", .text (some "error")),
         ("message", .text (some "Something went very wrong!"))]) ∧
    globalErrorHandler statusOf (some "production") e1 url =
      globalErrorHandler statusOf (some "production") e2 url := by
  have key : ∀ e : Err, e.isOperational = false → recognised e = false →
      globalErrorHandler statusOf (some "production") e url =
        .sent (.json (some 500)
          [("status", .text (some "error")),
           ("message", .text (some "Something went very wrong!"))]) := by
    intro e hOp hKind
    have hc := classify_unrecognised statusOf (withDefaults e)
      (by rw [withDefaults_recognised]; exact hKind)
    have hs : globalErrorHandler statusOf (some "production") e url =
        .sent (sendErrorProduction (spreadCopy (withDefaults e)) url) := by
      simp [globalErrorHandler, hc]
    rw [hs]
    simp [sendErrorProduction, hApi, spreadCopy, withDefaults, hOp]
  exact ⟨key e1 hOp1 hKind1, by rw [key e1 hOp1 hKind1, key e2 hOp2 hKind2]⟩

/-- C6, witness: a `RangeError` and a `TypeError` with different messages and
stacks on an API route. -/
theorem production_unclassified_api_generic_witness :
    globalErrorHandler (fun _ => none) (some "production")
        { name := some "RangeError", message := "Invalid array length", stack := some "at a" }
        "/api/v1/tours" =
      globalErrorHandler (fun _ => none) (some "production")
        { name := some "TypeError", message := "x is not a function", statusCode := some 418 }
        "/api/v1/tours" :=
  (production_unclassified_api_generic (fun _ => none) "/api/v1/tours"
    { name := some "RangeError", message := "Invalid array length", stack := some "at a" }
    { name := some "TypeError", message := "x is not a function", statusCode := some 418 }
    (by decide) rfl (by decide) rfl (by decide)).2

/-- C7, the code as written: in production mode, on a page-rendering route, an
unclassified error that carries its own non-zero `statusCode` is answered with
that status code (and the generic page message), not with 500: the rendering
branch passes `err.statusCode` to `res.status`, where the API branch passes
`500`. -/
theorem production_unclassified_page_keeps_status (statusOf : Option Nat → Option String)
    (url : String) (err : Err) (n : Nat) (hPage : isApiUrl url = false)
    (hOp : err.isOperational = false) (hKind : recognised err = false)
    (hCode : err.statusCode = some n) (hn : n ≠ 0) :
    globalErrorHandler statusOf (some "production") err url =
      .sent (.render (some n) "error"
        [("title", "Something went wrong!"), ("msg", "Please try again later.")]) := by
  have hc := classify_unrecognised statusOf (withDefaults err)
    (by rw [withDefaults_recognised]; exact hKind)
  have hs : globalErrorHandler statusOf (some "production") err url =
      .sent (sendErrorProduction (spreadCopy (withDefaults err)) url) := by
    simp [globalErrorHandler, hc]
  rw [hs]
  simp [sendErrorProduction, hPage, spreadCopy, withDefaults, hOp, hCode, orNat, hn]

/-- C7, failing input: the body parser rejects an oversized form posted to
`/submit-user-data` with a `PayloadTooLargeError` carrying `statusCode` 413;
the page is rendered with status 413. -/
theorem production_unclassified_page_keeps_status_witness :
    globalErrorHandler (fun _ => none) (some "production")
        { name := some "PayloadTooLargeError", message := "request entity too large",
          statusCode := some 413, status := some "413" } "/submit-user-data" =
      .sent (.render (some 413) "error"
        [("title", "Something went wrong!"), ("msg", "Please try again later.")]) :=
  production_unclassified_page_keeps_status (fun _ => none) "/submit-user-data"
    { name := some "PayloadTooLargeError", message := "request entity too large",
      statusCode := some 413, status := some "413" } 413 (by decide) rfl (by decide) rfl
    (by decide)

/-! ### C8: the classification chain -/

/-- C8, the code as written: in production mode an error with the
duplicate-key code `11000` that has no `keyValue` property is not rewritten
into an operational error and is not answered: `handleDuplicateFieldsDB` reads
`err.keyValue.name` and throws inside the responder. -/
theorem production_duplicate_without_keyValue_throws (statusOf : Option Nat → Option String)
    (url : String) (err : Err) (hCode : err.code = some 11000) (hKey : err.keyValue = none) :
    globalErrorHandler statusOf (some "production") err url =
      .threw "TypeError: Cannot read properties of undefined (reading 'name')" := by
  have hc : classify statusOf (withDefaults err) =
      .error "TypeError: Cannot read properties of undefined (reading 'name')" := by
    unfold classify
    by_cases h1 : err.name = some "CastError" <;>
      simp [withDefaults, hCode, hKey, h1, bind, Except.bind, handleDuplicateFieldsDB,
        handleCastErrorDB, AppError, spreadCopy]
  simp [globalErrorHandler, hc]

/-- C8, failing input: a duplicate-key error as reported by a server that does
not send `keyValue`, raised by a sign-up with an e-mail address already in
use. -/
theorem production_duplicate_without_keyValue_throws_witness :
    globalErrorHandler (fun _ => none) (some "production")
        { name := some "MongoError", code := some 11000,
          message := "E11000 duplicate key error collection: natours.users index: email_1" }
        "/api/v1/users/signup" =
      .threw "TypeError: Cannot read properties of undefined (reading 'name')" :=
  production_duplicate_without_keyValue_throws (fun _ => none) "/api/v1/users/signup"
    { name := some "MongoError", code := some 11000,
      message := "E11000 duplicate key error collection: natours.users index: email_1" }
    rfl rfl

/-! ### The round trip of `filter` through the JSON text -/

/-- A literal made of word characters, followed by a word boundary, stands at
the head of a text exactly when it is the maximal run of word characters
there. -/
theorem isPrefixOf_boundary (w : List Char) (hw : ∀ c ∈ w, isWordChar c = true) (t : List Char) :
    (w.isPrefixOf t && boundaryAfter (t.drop w.length)) =
      decide (t.takeWhile isWordChar = w) := by
  induction w generalizing t with
  | nil =>
    cases t with
    | nil => simp [boundaryAfter]
    | cons c t =>
      by_cases hc : isWordChar c = true <;> simp [boundaryAfter, List.takeWhile, hc]
  | cons x w ih =>
    have hx : isWordChar x = true := hw x (List.mem_cons_self _ _)
    have hw1 : ∀ c ∈ w, isWordChar c = true := fun c hc => hw c (List.mem_cons_of_mem _ hc)
    cases t with
    | nil => simp
    | cons c t =>
      by_cases hxc : x = c
      · subst hxc
        have := ih hw1 t
        simp only [List.isPrefixOf, beq_self_eq_true, Bool.true_and, List.length_cons,
          List.drop_succ_cons, List.takeWhile, hx, List.cons.injEq, true_and]
        exact this
      · have hcx : ¬ c = x := fun h => hxc h.symm
        by_cases hc : isWordChar c = true <;>
          simp [List.isPrefixOf, List.takeWhile, hc, hxc, hcx]

/-- The pattern matches at the head of a text exactly when the maximal run of
word characters at the head is one of the four operator names. -/
theorem startsOperator_eq (t : List Char) :
    startsOperator t = decide (t.takeWhile isWordChar ∈ operators) := by
  unfold startsOperator
  have h : ∀ w ∈ operators, ∀ c ∈ w, isWordChar c = true := by decide
  rw [Bool.eq_iff_iff]
  simp only [List.any_eq_true, decide_eq_true_eq]
  constructor
  · rintro ⟨w, hw, hm⟩
    rw [isPrefixOf_boundary w (h w hw) t] at hm
    simp only [decide_eq_true_eq] at hm
    rw [hm]
    exact hw
  · intro hm
    refine ⟨_, hm, ?_⟩
    rw [isPrefixOf_boundary _ (h _ hm) t]
    simp

theorem takeWhile_append_nonword (s : List Char) (c : Char) (b : List Char)
    (hc : isWordChar c = false) :
    (s ++ c :: b).takeWhile isWordChar = s.takeWhile isWordChar := by
  induction s with
  | nil => simp [List.takeWhile, hc]
  | cons x s ih => simp [List.takeWhile, ih]

theorem startsOperator_append (s : List Char) (c : Char) (b : List Char)
    (hc : isWordChar c = false) : startsOperator (s ++ c :: b) = startsOperator s := by
  rw [startsOperator_eq, startsOperator_eq, takeWhile_append_nonword s c b hc]

/-- No operator name begins with a character other than `g` and `l`. -/
theorem startsOperator_head (c : Char) (t : List Char) (hg : c ≠ 'g') (hl : c ≠ 'l') :
    startsOperator (c :: t) = false := by
  rw [startsOperator_eq]
  by_cases hc : isWordChar c = true
  · simp [List.takeWhile, hc, operators, hg, hl]
  · simp [List.takeWhile, hc, operators]

theorem startsOperator_nonword (c : Char) (t : List Char) (hc : isWordChar c = false) :
    startsOperator (c :: t) = false :=
  startsOperator_head c t (by rintro rfl; revert hc; decide) (by rintro rfl; revert hc; decide)

theorem replaceFrom_nonword (p : Bool) (c : Char) (t : List Char) (hc : isWordChar c = false) :
    replaceFrom p (c :: t) = c :: replaceFrom false t := by
  simp [replaceFrom, startsOperator_nonword c t hc, hc]

theorem replaceFrom_append (p : Bool) (a : List Char) (c : Char) (b : List Char)
    (hc : isWordChar c = false) :
    replaceFrom p (a ++ c :: b) = replaceFrom p a ++ c :: replaceFrom false b := by
  induction a generalizing p with
  | nil => simpa using replaceFrom_nonword p c b hc
  | cons x a ih =>
    have h := startsOperator_append (x :: a) c b hc
    simp only [List.cons_append] at h
    simp [replaceFrom, h, ih]


theorem isWordChar_toNat (c : Char) (h : isWordChar c = true) : 48 ≤ c.toNat := by
  simp only [isWordChar, Char.isAlphanum, Char.isAlpha, Char.isUpper, Char.isLower, Char.isDigit,
    Bool.or_eq_true, Bool.and_eq_true, decide_eq_true_eq] at h
  rcases h with ((⟨h, _⟩ | ⟨h, _⟩) | ⟨h, _⟩) | h
  · have h1 : (65 : UInt32).toNat ≤ c.val.toNat := h
    have h2 : (65 : UInt32).toNat = 65 := by decide
    have h3 : c.toNat = c.val.toNat := rfl
    omega
  · have h1 : (97 : UInt32).toNat ≤ c.val.toNat := h
    have h2 : (97 : UInt32).toNat = 97 := by decide
    have h3 : c.toNat = c.val.toNat := rfl
    omega
  · have h1 : (48 : UInt32).toNat ≤ c.val.toNat := h
    have h2 : (48 : UInt32).toNat = 48 := by decide
    have h3 : c.toNat = c.val.toNat := rfl
    omega
  · subst h
    decide

/-- A word character is its own escape. -/
theorem escapeChar_word (c : Char) (h : isWordChar c = true) : escapeChar c = [c] := by
  have h48 := isWordChar_toNat c h
  have h1 : c ≠ '"' := by rintro rfl; revert h; decide
  have h2 : c ≠ '\\' := by rintro rfl; revert h; decide
  have h3 : c ≠ '\x08' := by rintro rfl; revert h; decide
  have h4 : c ≠ '\x0c' := by rintro rfl; revert h; decide
  have h5 : c ≠ '\n' := by rintro rfl; revert h; decide
  have h6 : c ≠ '\r' := by rintro rfl; revert h; decide
  have h7 : c ≠ '\t' := by rintro rfl; revert h; decide
  have h8 : ¬ c.toNat < 32 := by omega
  simp [escapeChar, h1, h2, h3, h4, h5, h6, h7, h8]

/-- The escape of a character that is not a word character begins with a
character that is not a word character. -/
theorem escapeChar_nonword (c : Char) (h : isWordChar c = false) :
    ∃ d r, escapeChar c = d :: r ∧ isWordChar d = false := by
  unfold escapeChar
  split
  · exact ⟨_, _, rfl, by decide⟩
  split
  · exact ⟨_, _, rfl, by decide⟩
  split
  · exact ⟨_, _, rfl, by decide⟩
  split
  · exact ⟨_, _, rfl, by decide⟩
  split
  · exact ⟨_, _, rfl, by decide⟩
  split
  · exact ⟨_, _, rfl, by decide⟩
  split
  · exact ⟨_, _, rfl, by decide⟩
  split
  · exact ⟨_, _, rfl, by decide⟩
  · exact ⟨_, _, rfl, h⟩

theorem takeWhile_escape (t : List Char) :
    (escape t).takeWhile isWordChar = t.takeWhile isWordChar := by
  induction t with
  | nil => rfl
  | cons c t ih =>
    by_cases h : isWordChar c = true
    · simp [escape, escapeChar_word c h, List.takeWhile, h, ih]
    · simp only [Bool.not_eq_true] at h
      obtain ⟨d, r, hd, hw⟩ := escapeChar_nonword c h
      simp [escape, hd, List.takeWhile, hw, h]

theorem hex4_hexDigit : ∀ n, n < 32 →
    hex4 '0' '0' (hexDigit (n / 16)) (hexDigit (n % 16)) = some (Char.ofNat n) := by
  decide

theorem isWordChar_hexDigit : ∀ n, n < 16 → isWordChar (hexDigit n) = true := by
  decide

theorem replaceFrom_true (c : Char) (t : List Char) :
    replaceFrom true (c :: t) = c :: replaceFrom (isWordChar c) t := by
  simp [replaceFrom]

theorem lexBody_quote (t : List Char) : lexBody ('"' :: t) = some ([], t) := by
  rw [lexBody.eq_def]; simp

theorem lexBody_plain (c : Char) (t : List Char) (h1 : c ≠ '"') (h2 : c ≠ '\\')
    (h3 : ¬ c.toNat < 32) :
    lexBody (c :: t) =
      match lexBody t with
      | some (s, r) => some (c :: s, r)
      | none => none := by
  rw [lexBody.eq_def]; simp [h1, h2, h3]

theorem lexBody_escape (e : Char) (t : List Char) (he : e ≠ 'u') :
    lexBody ('\\' :: e :: t) =
      match unescapeChar e, lexBody t with
      | some ch, some (s, r) => some (ch :: s, r)
      | _, _ => none := by
  rw [lexBody.eq_def]; simp [he]

theorem lexBody_unicode (a b c d : Char) (t : List Char) :
    lexBody ('\\' :: 'u' :: a :: b :: c :: d :: t) =
      match hex4 a b c d, lexBody t with
      | some ch, some (s, r) => some (ch :: s, r)
      | _, _ => none := by
  rw [lexBody.eq_def]; simp

theorem replaceFrom_head (p : Bool) (c : Char) (t : List Char) (hg : c ≠ 'g') (hl : c ≠ 'l') :
    replaceFrom p (c :: t) = c :: replaceFrom (isWordChar c) t := by
  simp [replaceFrom, startsOperator_head c t hg hl]

theorem rewriteFrom_head (p : Bool) (c : Char) (t : List Char) (hg : c ≠ 'g') (hl : c ≠ 'l') :
    rewriteFrom p (c :: t) = c :: rewriteFrom (isWordChar c || decide (c.toNat < 32)) t := by
  simp [rewriteFrom, startsOperator_head c t hg hl]

theorem startsOperator_cons_escape (c : Char) (t : List Char) :
    startsOperator (c :: escape t) = startsOperator (c :: t) := by
  rw [startsOperator_eq, startsOperator_eq]
  simp [List.takeWhile, takeWhile_escape]

/-- The two-character escapes: a backslash and a letter, read back as the
control character. -/
theorem lexBody_replaceFrom_short (c x : Char) (cs : List Char) (p : Bool) (rest : List Char)
    (hEsc : escapeChar c = ['\\', x]) (hUn : unescapeChar x = some c) (hx : isWordChar x = true)
    (hxu : x ≠ 'u') (hxg : x ≠ 'g') (hxl : x ≠ 'l') (hc : c.toNat < 32)
    (ih : ∀ (p : Bool) (rest : List Char),
      lexBody (replaceFrom p (escape cs) ++ '"' :: rest) = some (rewriteFrom p cs, rest)) :
    lexBody (replaceFrom p (escape (c :: cs)) ++ '"' :: rest) =
      some (rewriteFrom p (c :: cs), rest) := by
  have hcg : c ≠ 'g' := by rintro rfl; revert hc; decide
  have hcl : c ≠ 'l' := by rintro rfl; revert hc; decide
  have e : escape (c :: cs) = '\\' :: x :: escape cs := by simp [escape, hEsc]
  rw [e, replaceFrom_nonword p _ _ (by decide), replaceFrom_head false x _ hxg hxl, hx]
  simp only [List.cons_append]
  rw [lexBody_escape _ _ hxu, ih, hUn, rewriteFrom_head p c cs hcg hcl]
  simp [hc]

/-- Reading back the replaced escape of a string: the result is the string
with `$` put before the operator names standing as whole words, a control
character counting as a word character for the character after it. -/
theorem lexBody_replaceFrom (s : List Char) :
    ∀ (p : Bool) (rest : List Char),
      lexBody (replaceFrom p (escape s) ++ '"' :: rest) = some (rewriteFrom p s, rest) := by
  induction s with
  | nil => intro p rest; simp [escape, replaceFrom, lexBody_quote, rewriteFrom]
  | cons c cs ih =>
    intro p rest
    by_cases h1 : c = '"'
    · subst h1
      have e : escape ('"' :: cs) = '\\' :: '"' :: escape cs := rfl
      rw [e, replaceFrom_nonword p _ _ (by decide), replaceFrom_nonword false _ _ (by decide)]
      simp only [List.cons_append]
      rw [lexBody_escape _ _ (by decide), ih]
      simp [unescapeChar, rewriteFrom, startsOperator_nonword, isWordChar]
    by_cases h2 : c = '\\'
    · subst h2
      have e : escape ('\\' :: cs) = '\\' :: '\\' :: escape cs := rfl
      rw [e, replaceFrom_nonword p _ _ (by decide), replaceFrom_nonword false _ _ (by decide)]
      simp only [List.cons_append]
      rw [lexBody_escape _ _ (by decide), ih]
      simp [unescapeChar, rewriteFrom, startsOperator_nonword, isWordChar]
    by_cases h3 : c = '\x08'
    · subst h3
      exact lexBody_replaceFrom_short _ 'b' cs p rest rfl rfl (by decide) (by decide) (by decide)
        (by decide) (by decide) ih
    by_cases h4 : c = '\x0c'
    · subst h4
      exact lexBody_replaceFrom_short _ 'f' cs p rest rfl rfl (by decide) (by decide) (by decide)
        (by decide) (by decide) ih
    by_cases h5 : c = '\n'
    · subst h5
      exact lexBody_replaceFrom_short _ 'n' cs p rest rfl rfl (by decide) (by decide) (by decide)
        (by decide) (by decide) ih
    by_cases h6 : c = '\r'
    · subst h6
      exact lexBody_replaceFrom_short _ 'r' cs p rest rfl rfl (by decide) (by decide) (by decide)
        (by decide) (by decide) ih
    by_cases h7 : c = '\t'
    · subst h7
      exact lexBody_replaceFrom_short _ 't' cs p rest rfl rfl (by decide) (by decide) (by decide)
        (by decide) (by decide) ih
    by_cases h8 : c.toNat < 32
    · have hcg : c ≠ 'g' := by rintro rfl; revert h8; decide
      have hcl : c ≠ 'l' := by rintro rfl; revert h8; decide
      have e : escape (c :: cs) = '\\' :: 'u' :: '0' :: '0' :: hexDigit (c.toNat / 16) ::
          hexDigit (c.toNat % 16) :: escape cs := by
        simp [escape, escapeChar, h1, h2, h3, h4, h5, h6, h7, h8]
      have hd1 : isWordChar (hexDigit (c.toNat / 16)) = true :=
        isWordChar_hexDigit _ (by omega)
      have hd2 : isWordChar (hexDigit (c.toNat % 16)) = true :=
        isWordChar_hexDigit _ (by omega)
      have h0 : isWordChar '0' = true := by decide
      have hu : isWordChar 'u' = true := by decide
      rw [e, replaceFrom_nonword p _ _ (by decide),
        replaceFrom_head false 'u' _ (by decide) (by decide), hu, replaceFrom_true, h0,
        replaceFrom_true, h0, replaceFrom_true, hd1, replaceFrom_true, hd2]
      simp only [List.cons_append]
      rw [lexBody_unicode, ih, hex4_hexDigit _ h8, rewriteFrom_head p c cs hcg hcl]
      simp [h8, Char.ofNat_toNat]
    · have e : escape (c :: cs) = c :: escape cs := by
        simp [escape, escapeChar, h1, h2, h3, h4, h5, h6, h7, h8]
      rw [e]
      simp only [replaceFrom, rewriteFrom, startsOperator_cons_escape, h8, decide_False,
        Bool.or_false]
      split
      · simp only [List.cons_append, List.nil_append, List.singleton_append]
        rw [lexBody_plain '$' _ (by decide) (by decide) (by decide), lexBody_plain c _ h1 h2 h8, ih]
      · simp only [List.cons_append, List.nil_append]
        rw [lexBody_plain c _ h1 h2 h8, ih]


theorem parseValue_str (n : Nat) (t : List Char) :
    parseValue (n + 1) ('"' :: t) = (lexBody t).map fun sr => (QVal.str ⟨sr.1⟩, sr.2) := by
  simp [parseValue]

theorem parseValue_arr_nil (n : Nat) (t : List Char) :
    parseValue (n + 1) ('[' :: ']' :: t) = some (.arr [], t) := by
  simp [parseValue]

theorem parseValue_arr_cons (n : Nat) (d : Char) (t : List Char) (hd : d ≠ ']') :
    parseValue (n + 1) ('[' :: d :: t) =
      (parseValue n (d :: t)).bind fun vr =>
        (parseItems n vr.2).map fun vsr => (QVal.arr (vr.1 :: vsr.1), vsr.2) := by
  simp [parseValue, hd]

theorem parseValue_obj_nil (n : Nat) (t : List Char) :
    parseValue (n + 1) ('{' :: '}' :: t) = some (.obj [], t) := by
  simp [parseValue]

theorem parseValue_obj_cons (n : Nat) (d : Char) (t : List Char) (hd : d ≠ '}') :
    parseValue (n + 1) ('{' :: d :: t) =
      (parseEntry n (d :: t)).bind fun er =>
        (parseEntries n er.2).map fun esr => (QVal.obj (er.1 :: esr.1), esr.2) := by
  simp [parseValue, hd]

theorem parseItems_end (n : Nat) (t : List Char) :
    parseItems (n + 1) (']' :: t) = some ([], t) := by
  simp [parseItems]

theorem parseItems_comma (n : Nat) (t : List Char) :
    parseItems (n + 1) (',' :: t) =
      (parseValue n t).bind fun vr =>
        (parseItems n vr.2).map fun vsr => (vr.1 :: vsr.1, vsr.2) := by
  simp [parseItems]

theorem parseEntries_end (n : Nat) (t : List Char) :
    parseEntries (n + 1) ('}' :: t) = some ([], t) := by
  simp [parseEntries]

theorem parseEntries_comma (n : Nat) (t : List Char) :
    parseEntries (n + 1) (',' :: t) =
      (parseEntry n t).bind fun er =>
        (parseEntries n er.2).map fun esr => (er.1 :: esr.1, esr.2) := by
  simp [parseEntries]

theorem parseEntry_key (n : Nat) (t : List Char) :
    parseEntry (n + 1) ('"' :: t) =
      (lexBody t).bind fun kr =>
        if kr.2.head? = some ':' then
          (parseValue n kr.2.tail).map fun vr => ((⟨kr.1⟩, vr.1), vr.2)
        else none := by
  simp [parseEntry]

theorem replaceFrom_quote (p : Bool) (k : String) (t : List Char) :
    replaceFrom p (quote k ++ t) =
      '"' :: (replaceFrom false (escape k.data) ++ '"' :: replaceFrom false t) := by
  have e : quote k ++ t = '"' :: (escape k.data ++ '"' :: t) := by simp [quote]
  rw [e, replaceFrom_nonword p _ _ (by decide), replaceFrom_append false _ _ _ (by decide)]

/-- The text of a value begins with `"`, `[` or `{`. -/
theorem stringify_head (v : QVal) :
    ∃ c t, stringify v = c :: t ∧ isWordChar c = false ∧ c ≠ ']' ∧ c ≠ '}' := by
  cases v with
  | str s =>
    exact ⟨'"', escape s.data ++ ['"'], by simp [stringify, quote], by decide, by decide,
      by decide⟩
  | arr xs =>
    cases xs with
    | nil => exact ⟨'[', [']'], by simp [stringify], by decide, by decide, by decide⟩
    | cons x xs =>
      exact ⟨'[', stringify x ++ stringifyItems xs, by simp [stringify], by decide, by decide,
        by decide⟩
  | obj es =>
    cases es with
    | nil => exact ⟨'{', ['}'], by simp [stringify], by decide, by decide, by decide⟩
    | cons e es =>
      obtain ⟨k, v⟩ := e
      exact ⟨'{', quote k ++ ':' :: (stringify v ++ stringifyEntries es), by simp [stringify],
        by decide, by decide, by decide⟩

theorem replaceFrom_stringify_head (p : Bool) (v : QVal) (rest : List Char) :
    ∃ c t, replaceFrom p (stringify v ++ rest) = c :: t ∧ c ≠ ']' ∧ c ≠ '}' := by
  obtain ⟨c, t, h, hw, h1, h2⟩ := stringify_head v
  exact ⟨c, replaceFrom false (t ++ rest), by rw [h, List.cons_append, replaceFrom_nonword p c _ hw],
    h1, h2⟩

mutual
theorem parseValue_replaceFrom : ∀ (v : QVal) (n : Nat) (p : Bool) (rest : List Char),
    fuelVal v ≤ n →
    parseValue n (replaceFrom p (stringify v ++ rest)) =
      some (rewriteVal v, replaceFrom false rest)
  | .str s, n, p, rest, h => by
    obtain ⟨m, rfl⟩ : ∃ m, n = m + 1 := ⟨n - 1, by simp [fuelVal] at h; omega⟩
    simp only [stringify]
    rw [replaceFrom_quote, parseValue_str, lexBody_replaceFrom]
    simp [rewriteVal, rewriteStr]
  | .arr [], n, p, rest, h => by
    obtain ⟨m, rfl⟩ : ∃ m, n = m + 1 := ⟨n - 1, by simp [fuelVal] at h; omega⟩
    simp only [stringify, List.cons_append, List.nil_append]
    rw [replaceFrom_nonword p _ _ (by decide), replaceFrom_nonword false _ _ (by decide),
      parseValue_arr_nil]
    simp [rewriteVal, rewriteItems]
  | .arr (x :: xs), n, p, rest, h => by
    obtain ⟨m, rfl⟩ : ∃ m, n = m + 1 := ⟨n - 1, by simp [fuelVal] at h; omega⟩
    simp only [fuelVal] at h
    simp only [stringify, List.cons_append, List.append_assoc]
    rw [replaceFrom_nonword p _ _ (by decide)]
    obtain ⟨d, t, hd, hne, _⟩ := replaceFrom_stringify_head false x (stringifyItems xs ++ rest)
    rw [hd, parseValue_arr_cons m d t hne, ← hd,
      parseValue_replaceFrom x m false _ (by omega)]
    simp only [Option.some_bind]
    rw [parseItems_replaceFrom xs m rest (by omega)]
    simp [rewriteVal, rewriteItems]
  | .obj [], n, p, rest, h => by
    obtain ⟨m, rfl⟩ : ∃ m, n = m + 1 := ⟨n - 1, by simp [fuelVal] at h; omega⟩
    simp only [stringify, List.cons_append, List.nil_append]
    rw [replaceFrom_nonword p _ _ (by decide), replaceFrom_nonword false _ _ (by decide),
      parseValue_obj_nil]
    simp [rewriteVal, rewriteEntries, rewriteStr]
  | .obj ((k, v) :: es), n, p, rest, h => by
    obtain ⟨m, rfl⟩ : ∃ m, n = m + 1 := ⟨n - 1, by simp [fuelVal] at h; omega⟩
    simp only [fuelVal] at h
    obtain ⟨m1, rfl⟩ : ∃ m1, m = m1 + 1 := ⟨m - 1, by omega⟩
    simp only [stringify, List.cons_append, List.append_assoc]
    rw [replaceFrom_nonword p _ _ (by decide), replaceFrom_quote,
      parseValue_obj_cons _ _ _ (by decide), parseEntry_key, lexBody_replaceFrom]
    simp only [Option.some_bind]
    rw [replaceFrom_nonword false _ _ (by decide)]
    simp only [List.head?_cons, List.tail_cons, if_true]
    rw [parseValue_replaceFrom v m1 false _ (by omega)]
    simp only [Option.map_some', Option.some_bind]
    rw [parseEntries_replaceFrom es (m1 + 1) rest (by omega)]
    simp [rewriteVal, rewriteEntries, rewriteStr]
theorem parseItems_replaceFrom : ∀ (xs : List QVal) (n : Nat) (rest : List Char),
    fuelItems xs ≤ n →
    parseItems n (replaceFrom false (stringifyItems xs ++ rest)) =
      some (rewriteItems xs, replaceFrom false rest)
  | [], n, rest, h => by
    obtain ⟨m, rfl⟩ : ∃ m, n = m + 1 := ⟨n - 1, by simp [fuelItems] at h; omega⟩
    simp only [stringifyItems, List.cons_append, List.nil_append]
    rw [replaceFrom_nonword false _ _ (by decide), parseItems_end]
    simp [rewriteItems]
  | x :: xs, n, rest, h => by
    obtain ⟨m, rfl⟩ : ∃ m, n = m + 1 := ⟨n - 1, by simp [fuelItems] at h; omega⟩
    simp only [fuelItems] at h
    simp only [stringifyItems, List.cons_append, List.append_assoc]
    rw [replaceFrom_nonword false _ _ (by decide), parseItems_comma,
      parseValue_replaceFrom x m false _ (by omega)]
    simp only [Option.some_bind]
    rw [parseItems_replaceFrom xs m rest (by omega)]
    simp [rewriteItems]
theorem parseEntries_replaceFrom : ∀ (es : List (String × QVal)) (n : Nat) (rest : List Char),
    fuelEntries es ≤ n →
    parseEntries n (replaceFrom false (stringifyEntries es ++ rest)) =
      some (rewriteEntries es, replaceFrom false rest)
  | [], n, rest, h => by
    obtain ⟨m, rfl⟩ : ∃ m, n = m + 1 := ⟨n - 1, by simp [fuelEntries] at h; omega⟩
    simp only [stringifyEntries, List.cons_append, List.nil_append]
    rw [replaceFrom_nonword false _ _ (by decide), parseEntries_end]
    simp [rewriteEntries, rewriteStr]
  | (k, v) :: es, n, rest, h => by
    obtain ⟨m, rfl⟩ : ∃ m, n = m + 1 := ⟨n - 1, by simp [fuelEntries] at h; omega⟩
    simp only [fuelEntries] at h
    obtain ⟨m1, rfl⟩ : ∃ m1, m = m1 + 1 := ⟨m - 1, by omega⟩
    simp only [stringifyEntries, List.cons_append, List.append_assoc]
    rw [replaceFrom_nonword false _ _ (by decide), parseEntries_comma, replaceFrom_quote,
      parseEntry_key, lexBody_replaceFrom]
    simp only [Option.some_bind]
    rw [replaceFrom_nonword false _ _ (by decide)]
    simp only [List.head?_cons, List.tail_cons, if_true]
    rw [parseValue_replaceFrom v m1 false _ (by omega)]
    simp only [Option.map_some', Option.some_bind]
    rw [parseEntries_replaceFrom es (m1 + 1) rest (by omega)]
    simp [rewriteEntries, rewriteStr]
end


theorem length_replaceFrom (p : Bool) (t : List Char) :
    t.length ≤ (replaceFrom p t).length := by
  induction t generalizing p with
  | nil => simp [replaceFrom]
  | cons c t ih =>
    have := ih (isWordChar c)
    simp only [replaceFrom, List.length_append, List.length_cons]
    omega

mutual
theorem fuelVal_le : ∀ v : QVal, fuelVal v ≤ (stringify v).length
  | .str s => by simp [fuelVal, stringify, quote]
  | .arr [] => by simp [fuelVal, stringify]
  | .arr (x :: xs) => by
    have := fuelVal_le x
    have := fuelItems_le xs
    simp only [fuelVal, stringify, List.length_cons, List.length_append]
    omega
  | .obj [] => by simp [fuelVal, stringify]
  | .obj ((k, v) :: es) => by
    have := fuelVal_le v
    have := fuelEntries_le es
    simp only [fuelVal, stringify, quote, List.length_cons, List.length_append]
    omega
theorem fuelItems_le : ∀ xs : List QVal, fuelItems xs ≤ (stringifyItems xs).length
  | [] => by simp [fuelItems, stringifyItems]
  | x :: xs => by
    have := fuelVal_le x
    have := fuelItems_le xs
    simp only [fuelItems, stringifyItems, List.length_cons, List.length_append]
    omega
theorem fuelEntries_le : ∀ es : List (String × QVal), fuelEntries es ≤ (stringifyEntries es).length
  | [] => by simp [fuelEntries, stringifyEntries]
  | (k, v) :: es => by
    have := fuelVal_le v
    have := fuelEntries_le es
    simp only [fuelEntries, stringifyEntries, quote, List.length_cons, List.length_append]
    omega
end

/-- Stringifying a value, replacing the operator names in the text and parsing
the result never fails, and yields the value with every string in it (keys and
string values alike) rewritten. -/
theorem parse_replaceFrom_stringify (v : QVal) :
    parse (replaceFrom false (stringify v)) = some (rewriteVal v) := by
  have h := parseValue_replaceFrom v ((replaceFrom false (stringify v)).length + 1) false []
    (by have := fuelVal_le v; have := length_replaceFrom false (stringify v); omega)
  simp only [List.append_nil] at h
  simp [parse, h, replaceFrom]

/-! ### C9: the constraint built by `filter` -/

theorem foldl_deleteProp (obj : List (String × QVal)) :
    excludeFields.foldl (fun obj el => deleteProp el obj) obj = nonReserved obj := by
  simp only [excludeFields, List.foldl, deleteProp, nonReserved, List.filter_filter]
  congr 1
  funext e
  simp only [List.contains, List.elem, bne, Bool.not_or, Bool.and_assoc]
  cases e.1 == "page" <;> cases e.1 == "sort" <;> cases e.1 == "limit" <;>
    cases e.1 == "fields" <;> rfl

theorem keysOf_rewriteEntries (es : List (String × QVal)) :
    keysOf (rewriteEntries es) = (keysOf es).map rewriteStr := by
  induction es with
  | nil => simp [keysOf, rewriteEntries]
  | cons e es ih =>
    obtain ⟨k, v⟩ := e
    simp only [keysOf, List.map_cons, rewriteEntries, List.cons.injEq, true_and] at ih ⊢
    exact ih

theorem rewriteFrom_of_not_mentions (s : List Char) :
    ∀ p : Bool, mentionsOperator p s = false → rewriteFrom p s = s := by
  induction s with
  | nil => intro p _; rfl
  | cons c cs ih =>
    intro p h
    simp only [mentionsOperator, Bool.or_eq_false_iff] at h
    simp only [rewriteFrom, h.1, ih _ h.2]
    simp

/-- The outcome of `filter`: it never throws, and passes to `find` the kept
entries with every string in them rewritten. -/
theorem filter_eq (self : APIFeatures) :
    self.filter = .ok { self with
      query := self.query ++ [.find (.obj (rewriteEntries (nonReserved self.queryString)))] } := by
  simp only [APIFeatures.filter, foldl_deleteProp, parse_replaceFrom_stringify, rewriteVal]

/-- C9, counterexample: for the query string `?gt=5&page=2` the only key of the
constraint object is `$gt`, which is not a key of the query string. -/
theorem filter_operator_key_counterexample :
    APIFeatures.filter ⟨[], [("gt", .str "5"), ("page", .str "2")]⟩ =
      .ok ⟨[.find (.obj [("$gt", .str "5")])], [("gt", .str "5"), ("page", .str "2")]⟩ ∧
    keysOf [("$gt", .str "5")] ≠
      (keysOf [("gt", .str "5"), ("page", .str "2")]).filter fun k => !excludeFields.contains k := by
  exact ⟨rfl, by decide⟩

/-- C9, amended: for every query-parameter mapping, `filter` passes to `find` a
constraint object whose top-level keys are the keys of the mapping other than
`page`, `sort`, `limit` and `fields`, each with `$` put before every `gte`,
`gt`, `lte`, `lt` standing as a whole word in the JSON text of the key (so they
are exactly those keys when no key contains such a word); the keys of every
nested object are
rewritten in the same way, so that each comparison operator `gte`, `gt`,
`lte`, `lt` given for a key appears as `$gte`, `$gt`, `$lte`, `$lt`. -/
theorem filter_constraint_keys (self : APIFeatures) :
    self.filter = .ok { self with
      query := self.query ++ [.find (.obj (rewriteEntries (nonReserved self.queryString)))] } ∧
    keysOf (rewriteEntries (nonReserved self.queryString)) =
      ((keysOf self.queryString).filter fun k => !excludeFields.contains k).map rewriteStr ∧
    ((∀ k ∈ keysOf self.queryString, mentionsOperator false k.data = false) →
      keysOf (rewriteEntries (nonReserved self.queryString)) =
        (keysOf self.queryString).filter fun k => !excludeFields.contains k) ∧
    (∀ k es, (k, QVal.obj es) ∈ nonReserved self.queryString →
      (rewriteStr k, QVal.obj (rewriteEntries es)) ∈
        rewriteEntries (nonReserved self.queryString) ∧
      keysOf (rewriteEntries es) = (keysOf es).map rewriteStr) ∧
    rewriteStr "gte" = "$gte" ∧ rewriteStr "gt" = "$gt" ∧
    rewriteStr "lte" = "$lte" ∧ rewriteStr "lt" = "$lt" := by
  have hk : keysOf (nonReserved self.queryString) =
      (keysOf self.queryString).filter fun k => !excludeFields.contains k := by
    simp only [keysOf, nonReserved, List.filter_map]
    rfl
  have hmem : ∀ (es : List (String × QVal)) (k : String) (v : QVal), (k, v) ∈ es →
      (rewriteStr k, rewriteVal v) ∈ rewriteEntries es := by
    intro es
    induction es with
    | nil => intro k v h; cases h
    | cons e es ih =>
      obtain ⟨k1, v1⟩ := e
      intro k v h
      simp only [rewriteEntries, List.mem_cons]
      rcases List.mem_cons.mp h with h | h
      · cases h
        exact Or.inl rfl
      · exact Or.inr (ih k v h)
  refine ⟨filter_eq self, ?_, ?_, ?_, by decide, by decide, by decide, by decide⟩
  · rw [keysOf_rewriteEntries, hk]
  · intro h
    rw [keysOf_rewriteEntries, hk]
    have hid : ∀ k ∈ (keysOf self.queryString).filter (fun k => !excludeFields.contains k),
        rewriteStr k = id k := by
      intro k hmemk
      have hm := h k (List.mem_filter.mp hmemk).1
      show String.mk (rewriteFrom false k.data) = k
      rw [rewriteFrom_of_not_mentions _ _ hm]
    rw [List.map_congr_left hid, List.map_id]
  · intro k es h
    refine ⟨?_, keysOf_rewriteEntries es⟩
    have := hmem _ k (.obj es) h
    simpa [rewriteVal] using this

/-- C9, witness: for `?price[gte]=500&difficulty=easy&page=2` no key contains an
operator name as a whole word, and the top-level keys of the constraint are
`price` and `difficulty`. -/
theorem filter_constraint_keys_witness :
    keysOf (rewriteEntries (nonReserved
        [("price", .obj [("gte", .str "500")]), ("difficulty", .str "easy"),
         ("page", .str "2")])) =
      (keysOf [("price", QVal.obj [("gte", .str "500")]), ("difficulty", .str "easy"),
        ("page", .str "2")]).filter fun k => !excludeFields.contains k :=
  (filter_constraint_keys
    ⟨[], [("price", .obj [("gte", .str "500")]), ("difficulty", .str "easy"),
          ("page", .str "2")]⟩).2.2.1 (by decide)

/-! ### C10: pagination -/

theorem roundHalfEven_of_lt (m : ℚ) (n : ℤ) (h1 : (n : ℚ) - 1 / 2 < m) (h2 : m < n + 1 / 2) :
    roundHalfEven m = n := by
  unfold roundHalfEven
  simp only
  by_cases hm : (n : ℚ) ≤ m
  · have hf : Int.floor m = n := by
      rw [Int.floor_eq_iff]
      constructor
      · exact hm
      · linarith
    rw [hf]
    have : m - n < 1 / 2 := by linarith
    rw [if_pos this]
  · have hm1 : m < n := not_le.mp hm
    have hf : Int.floor m = n - 1 := by
      rw [Int.floor_eq_iff]
      push_cast
      constructor
      · linarith
      · linarith
    rw [hf]
    push_cast
    have h3 : ¬ (m - (n - 1) < 1 / 2) := by
      intro h
      linarith
    have h4 : 1 / 2 < m - ((n : ℚ) - 1) := by linarith
    rw [if_neg h3, if_pos h4]
    omega

theorem roundHalfEven_intCast (n : ℤ) : roundHalfEven (n : ℚ) = n :=
  roundHalfEven_of_lt _ n (by linarith) (by linarith)

theorem log_eq_of_bounds (a : ℚ) (e : ℤ) (h1 : (2 : ℚ) ^ e ≤ a) (h2 : a < 2 ^ (e + 1)) :
    Int.log 2 a = e := by
  have ha : 0 < a := lt_of_lt_of_le (by positivity) h1
  have l1 : e ≤ Int.log 2 a := (Int.zpow_le_iff_le_log (by norm_num) ha).mp (by exact_mod_cast h1)
  have l2 : Int.log 2 a < e + 1 :=
    (Int.lt_zpow_iff_log_lt (by norm_num) ha).mp (by exact_mod_cast h2)
  omega

/-- The value of `roundDouble` at an argument of binary exponent `e`, `n` being
the integer nearest to the argument counted in units of the last place. -/
theorem roundDouble_eval (x : ℚ) (e q n : ℤ) (h1 : (2 : ℚ) ^ e ≤ |x|) (h2 : |x| < 2 ^ (e + 1))
    (hq : q = max (e - 52) (-1074))
    (hn1 : (n : ℚ) - 1 / 2 < |x| / 2 ^ q) (hn2 : |x| / 2 ^ q < n + 1 / 2)
    (hov : (n : ℚ) * 2 ^ q < 2 ^ (1024 : ℤ)) :
    roundDouble x = .num (if x < 0 then -((n : ℚ) * 2 ^ q) else n * 2 ^ q) := by
  have hx : x ≠ 0 := by
    intro h
    rw [h, abs_zero] at h1
    exact absurd h1 (not_le.mpr (by positivity))
  unfold roundDouble roundAt
  simp only [hx, if_false, log_eq_of_bounds _ e h1 h2, ← hq,
    roundHalfEven_of_lt _ n hn1 hn2, not_le.mpr hov]

/-- Whole numbers below `2 ^ 53` in absolute value are doubles. -/
theorem roundDouble_intCast (n : ℤ) (h : |n| < 2 ^ 53) : roundDouble (n : ℚ) = .num n := by
  by_cases hn : n = 0
  · simp [hn, roundDouble]
  have hx : (n : ℚ) ≠ 0 := by exact_mod_cast hn
  have ha1 : (1 : ℚ) ≤ |(n : ℚ)| := by
    have : (1 : ℤ) ≤ |n| := Int.one_le_abs hn
    exact_mod_cast this
  have ha2 : |(n : ℚ)| < 2 ^ (53 : ℤ) := by
    have : ((|n| : ℤ) : ℚ) < ((2 ^ 53 : ℤ) : ℚ) := by exact_mod_cast h
    rw [Int.cast_abs] at this
    calc |(n : ℚ)| < ((2 ^ 53 : ℤ) : ℚ) := this
      _ = 2 ^ (53 : ℤ) := by norm_num
  have hpos : (0 : ℚ) < |(n : ℚ)| := lt_of_lt_of_le one_pos ha1
  have he0 : 0 ≤ Int.log 2 |(n : ℚ)| :=
    (Int.zpow_le_iff_le_log (by norm_num) hpos).mp (by simpa using ha1)
  have he1 : Int.log 2 |(n : ℚ)| < 53 :=
    (Int.lt_zpow_iff_log_lt (by norm_num) hpos).mp (by exact_mod_cast ha2)
  obtain ⟨k, hk⟩ : ∃ k : ℕ, Int.log 2 |(n : ℚ)| = 52 - k :=
    ⟨(52 - Int.log 2 |(n : ℚ)|).toNat, by omega⟩
  have hq : max (Int.log 2 |(n : ℚ)| - 52) (-1074) = -(k : ℤ) := by
    rw [hk]
    omega
  have hm : |(n : ℚ)| / 2 ^ (-(k : ℤ)) = ((|n| * 2 ^ k : ℤ) : ℚ) := by
    rw [zpow_neg, zpow_natCast, div_inv_eq_mul]
    push_cast
    rfl
  have hr : (((|n| * 2 ^ k : ℤ) : ℚ)) * 2 ^ (-(k : ℤ)) = |(n : ℚ)| := by
    rw [zpow_neg, zpow_natCast]
    push_cast
    field_simp
  have hov : ¬ ((2 : ℚ) ^ (1024 : ℤ) ≤ |(n : ℚ)|) := by
    have : (2 : ℚ) ^ (53 : ℤ) ≤ 2 ^ (1024 : ℤ) := by norm_num
    exact not_le.mpr (lt_of_lt_of_le ha2 this)
  unfold roundDouble roundAt
  simp only [hx, if_false, hq, hm, roundHalfEven_intCast, hr, hov]
  by_cases hneg : (n : ℚ) < 0
  · simp [hneg, abs_of_neg hneg]
  · simp [hneg, abs_of_nonneg (not_lt.mp hneg)]

/-- The coercion of a string of digits that writes a whole number below
`2 ^ 53`. -/
theorem numberOfDigits_str (s : String) (v : ℕ) (h : digitsValue s.data = some v)
    (hv : v < 2 ^ 53) : numberOfDigits (.str s) = .num v := by
  have := roundDouble_intCast (v : ℤ) (by rw [abs_of_nonneg (by positivity)]; exact_mod_cast hv)
  simpa [numberOfDigits, h] using this

/-- The product `x * 1` of a double and `1` is the double. -/
theorem mul_one_of_double (x : ℚ) (h : roundDouble x = .num x) :
    JSNum.mul (.num x) (.num 1) = .num x := by
  simpa [JSNum.mul] using h

/-- C10, counterexample: for `?page=0&limit=10` the numeric page parameter is
`0`, and `paginate` configures the offset `0` (page 1), not `(0 - 1) * 10`. -/
theorem paginate_page_zero_counterexample :
    numberOfDigits (.str "0") = .num 0 ∧
    numberOfDigits (.str "10") = .num 10 ∧
    (APIFeatures.paginate numberOfDigits
        ⟨[], [("page", .str "0"), ("limit", .str "10")]⟩).query =
      [.skip (.num 0), .limit (.num 10)] ∧
    JSNum.mul (JSNum.sub (.num 0) (.num 1)) (.num 10) = .num (-10) ∧
    (JSNum.num 0) ≠ .num (-10) := by
  have h0 : numberOfDigits (.str "0") = .num 0 := by
    simpa using numberOfDigits_str "0" 0 (by simp [digitsValue]) (by norm_num)
  have h10 : numberOfDigits (.str "10") = .num 10 := by
    simpa using numberOfDigits_str "10" 10 (by simp [digitsValue]) (by norm_num)
  have r0 : roundDouble 0 = .num 0 := by simp [roundDouble]
  have r10 : roundDouble 10 = .num 10 := by
    simpa using roundDouble_intCast 10 (by norm_num)
  have rm1 : roundDouble (-1) = .num (-1) := by
    simpa using roundDouble_intCast (-1) (by norm_num)
  have rm10 : roundDouble (-10) = .num (-10) := by
    simpa using roundDouble_intCast (-10) (by norm_num)
  refine ⟨h0, h10, ?_, ?_, by decide⟩
  · simp [APIFeatures.paginate, getProp, timesOne, orNum, h0, h10, JSNum.mul, JSNum.sub, r0, r10]
  · simp [JSNum.mul, JSNum.sub, rm1, rm10]

/-- The number chosen by `v * 1 || d`: the numeric value of the parameter when
it is a number other than zero, the default `d` when the parameter is omitted,
is not a number, or is zero. -/
theorem orNum_timesOne (toNumber : QVal → JSNum) (prop : Option QVal) (d : JSNum) :
    (prop = none → orNum (timesOne toNumber prop) d = d) ∧
    (∀ v x, prop = some v → toNumber v = .num x → roundDouble x = .num x → x ≠ 0 →
      orNum (timesOne toNumber prop) d = .num x) ∧
    (∀ v s, prop = some v → toNumber v = .inf s →
      orNum (timesOne toNumber prop) d = .inf s) ∧
    (∀ v, prop = some v → toNumber v = .nan ∨ toNumber v = .num 0 →
      orNum (timesOne toNumber prop) d = d) := by
  refine ⟨?_, ?_, ?_, ?_⟩
  · rintro rfl
    rfl
  · rintro v x rfl hv hd hx
    simp [timesOne, hv, mul_one_of_double x hd, orNum, hx]
  · rintro v s rfl hv
    cases s <;> simp [timesOne, hv, JSNum.mul, orNum]
  · rintro v rfl (hv | hv)
    · simp [timesOne, hv, JSNum.mul, orNum]
    · simp [timesOne, hv, JSNum.mul, orNum, roundDouble]

/-- The offset `(page - 1) * limit` is exact on whole numbers as long as the
difference and the product stay below `2 ^ 53` in absolute value. -/
theorem skip_exact (p l : ℤ) (h1 : |p - 1| < 2 ^ 53) (h2 : |(p - 1) * l| < 2 ^ 53) :
    JSNum.mul (JSNum.sub (.num p) (.num 1)) (.num l) = .num (((p - 1) * l : ℤ) : ℚ) := by
  have hs : roundDouble ((p : ℚ) - 1) = .num ((p - 1 : ℤ) : ℚ) := by
    have := roundDouble_intCast (p - 1) h1
    push_cast at this ⊢
    exact this
  have hm : roundDouble ((((p - 1 : ℤ) : ℚ)) * l) = .num (((p - 1) * l : ℤ) : ℚ) := by
    have := roundDouble_intCast ((p - 1) * l) h2
    push_cast at this ⊢
    exact this
  simp only [JSNum.sub, hs, JSNum.mul, hm]

/-- C10, amended: for every query-parameter mapping, `paginate` configures
offset `(page - 1) * limit`, computed in the arithmetic of the numbers of the
language, and limit `limit`, where `page` is the numeric page parameter when
that is a number other than zero, and 1 when the parameter is omitted, is not a
number or is zero; `limit` is the numeric limit parameter when that is a number
other than zero, and 100 otherwise.  On whole numbers the offset is the exact
product as long as `page - 1` and the product stay below `2 ^ 53` in absolute
value.  Every non-zero numeric limit, an infinite one included, is passed on as
it is: no upper bound is applied. -/
theorem paginate_skip_limit (toNumber : QVal → JSNum) (self : APIFeatures) :
    ∃ page limit : JSNum,
      self.paginate toNumber =
        { self with query := self.query ++
            [.skip (JSNum.mul (JSNum.sub page (.num 1)) limit), .limit limit] } ∧
      (getProp "page" self.queryString = none → page = .num 1) ∧
      (∀ v x, getProp "page" self.queryString = some v → toNumber v = .num x →
        roundDouble x = .num x → x ≠ 0 → page = .num x) ∧
      (∀ v s, getProp "page" self.queryString = some v → toNumber v = .inf s →
        page = .inf s) ∧
      (∀ v, getProp "page" self.queryString = some v →
        toNumber v = .nan ∨ toNumber v = .num 0 → page = .num 1) ∧
      (getProp "limit" self.queryString = none → limit = .num 100) ∧
      (∀ v x, getProp "limit" self.queryString = some v → toNumber v = .num x →
        roundDouble x = .num x → x ≠ 0 → limit = .num x) ∧
      (∀ v s, getProp "limit" self.queryString = some v → toNumber v = .inf s →
        limit = .inf s) ∧
      (∀ v, getProp "limit" self.queryString = some v →
        toNumber v = .nan ∨ toNumber v = .num 0 → limit = .num 100) ∧
      (∀ p l : ℤ, page = .num p → limit = .num l → |p - 1| < 2 ^ 53 →
        |(p - 1) * l| < 2 ^ 53 →
        JSNum.mul (JSNum.sub page (.num 1)) limit = .num (((p - 1) * l : ℤ) : ℚ)) := by
  obtain ⟨p1, p2, p3, p4⟩ := orNum_timesOne toNumber (getProp "page" self.queryString) (.num 1)
  obtain ⟨l1, l2, l3, l4⟩ :=
    orNum_timesOne toNumber (getProp "limit" self.queryString) (.num 100)
  refine ⟨orNum (timesOne toNumber (getProp "page" self.queryString)) (.num 1),
    orNum (timesOne toNumber (getProp "limit" self.queryString)) (.num 100),
    rfl, p1, p2, p3, p4, l1, l2, l3, l4, ?_⟩
  intro p l hp hl h1 h2
  rw [hp, hl]
  exact skip_exact p l h1 h2

/-- C10, witness: `?page=2&limit=10` gives offset 10 and limit 10. -/
theorem paginate_skip_limit_witness :
    (APIFeatures.paginate numberOfDigits
        ⟨[], [("page", .str "2"), ("limit", .str "10")]⟩).query =
      [.skip (.num 10), .limit (.num 10)] := by
  obtain ⟨page, limit, h, _, hp, _, _, _, hl, _, _, hx⟩ :=
    paginate_skip_limit numberOfDigits ⟨[], [("page", .str "2"), ("limit", .str "10")]⟩
  have r2 : roundDouble 2 = .num 2 := by simpa using roundDouble_intCast 2 (by norm_num)
  have r10 : roundDouble 10 = .num 10 := by simpa using roundDouble_intCast 10 (by norm_num)
  have n2 : numberOfDigits (.str "2") = .num 2 := by
    simpa using numberOfDigits_str "2" 2 (by simp [digitsValue]) (by norm_num)
  have n10 : numberOfDigits (.str "10") = .num 10 := by
    simpa using numberOfDigits_str "10" 10 (by simp [digitsValue]) (by norm_num)
  have hpage : page = .num 2 := hp (.str "2") 2 (by simp [getProp]) n2 r2 (by norm_num)
  have hlimit : limit = .num 10 := hl (.str "10") 10 (by simp [getProp]) n10 r10 (by norm_num)
  have hskip := hx 2 10 (by simpa using hpage) (by simpa using hlimit) (by norm_num)
    (by norm_num)
  rw [h, hskip, hlimit]
  norm_num

/-- Beyond `2 ^ 53` the offset is the double nearest to the product: for
`?page=4&limit=9007199254740991` it is `27021597764222972`, the exact product
being `27021597764222973`.  With an infinite limit and no page parameter the
offset is `0 * Infinity`, that is `NaN`. -/
theorem paginate_offset_rounded :
    (APIFeatures.paginate numberOfDigits
        ⟨[], [("page", .str "4"), ("limit", .str "9007199254740991")]⟩).query =
      [.skip (.num 27021597764222972), .limit (.num 9007199254740991)] ∧
    (APIFeatures.paginate (fun _ => .inf false) ⟨[], [("limit", .str "1e999")]⟩).query =
      [.skip .nan, .limit (.inf false)] := by
  have r3 : roundDouble 3 = .num 3 := by simpa using roundDouble_intCast 3 (by norm_num)
  have r4 : roundDouble 4 = .num 4 := by simpa using roundDouble_intCast 4 (by norm_num)
  have rl : roundDouble 9007199254740991 = .num 9007199254740991 := by
    simpa using roundDouble_intCast 9007199254740991 (by norm_num)
  have n4 : numberOfDigits (.str "4") = .num 4 := by
    simpa using numberOfDigits_str "4" 4 (by simp [digitsValue]) (by norm_num)
  have nl : numberOfDigits (.str "9007199254740991") = .num 9007199254740991 := by
    simpa using numberOfDigits_str "9007199254740991" 9007199254740991
      (by simp [digitsValue]) (by norm_num)
  have rp : roundDouble 27021597764222973 = .num 27021597764222972 := by
    rw [roundDouble_eval 27021597764222973 54 2 6755399441055743 (by norm_num [abs_of_pos])
      (by norm_num [abs_of_pos]) (by decide) (by norm_num [abs_of_pos])
      (by norm_num [abs_of_pos]) (by norm_num)]
    norm_num
  have m4 : JSNum.mul (.num 4) (.num 1) = .num 4 := mul_one_of_double 4 r4
  have ml : JSNum.mul (.num 9007199254740991) (.num 1) = .num 9007199254740991 :=
    mul_one_of_double 9007199254740991 rl
  have hsub : JSNum.sub (.num 4) (.num 1) = .num 3 := by
    show roundDouble (4 - 1) = .num 3
    norm_num [r3]
  have hmul : JSNum.mul (.num 3) (.num 9007199254740991) = .num 27021597764222972 := by
    show roundDouble (3 * 9007199254740991) = .num 27021597764222972
    norm_num [rp]
  have gp : getProp "page" [("page", QVal.str "4"), ("limit", .str "9007199254740991")] =
      some (.str "4") := by simp [getProp]
  have gl : getProp "limit" [("page", QVal.str "4"), ("limit", .str "9007199254740991")] =
      some (.str "9007199254740991") := by simp [getProp]
  have o4 : orNum (.num 4) (.num 1) = .num 4 := by simp [orNum]
  have ol : orNum (.num 9007199254740991) (.num 100) = .num 9007199254740991 := by simp [orNum]
  constructor
  · simp only [APIFeatures.paginate, gp, gl, timesOne, n4, nl, m4, ml, o4, ol, hsub, hmul,
      List.nil_append]
  · simp [APIFeatures.paginate, getProp, timesOne, orNum, JSNum.mul, JSNum.sub, roundDouble]

/-! ### C11, C12: sorting and field limiting -/

theorem splitChars_ne_nil (sep : Char) (s : List Char) : splitChars sep s ≠ [] := by
  cases s with
  | nil => simp [splitChars]
  | cons c cs =>
    unfold splitChars
    split
    · simp
    · split <;> simp

/-- Splitting at spaces what was split at commas and joined with spaces gives
the pieces between the commas, for a text without spaces. -/
theorem splitChars_joinChars (s : List Char) (h : ∀ c ∈ s, c ≠ ' ') :
    splitChars ' ' (joinChars ' ' (splitChars ',' s)) = splitChars ',' s := by
  induction s with
  | nil => simp [splitChars, joinChars]
  | cons c cs ih =>
    have hc : c ≠ ' ' := h c (List.mem_cons_self _ _)
    have ih := ih fun d hd => h d (List.mem_cons_of_mem _ hd)
    obtain ⟨x, rest, hx⟩ : ∃ x rest, splitChars ',' cs = x :: rest := by
      cases hs : splitChars ',' cs with
      | nil => exact absurd hs (splitChars_ne_nil _ _)
      | cons x rest => exact ⟨x, rest, rfl⟩
    by_cases hcomma : c = ','
    · subst hcomma
      have e : splitChars ',' (',' :: cs) = [] :: splitChars ',' cs := by simp [splitChars]
      rw [e, hx]
      rw [hx] at ih
      simp only [joinChars, List.nil_append]
      simp only [splitChars, if_true]
      rw [ih]
    · have e : splitChars ',' (c :: cs) = (c :: x) :: rest := by simp [splitChars, hcomma, hx]
      rw [e]
      rw [hx] at ih
      have j : joinChars ' ' ((c :: x) :: rest) = c :: joinChars ' ' (x :: rest) := by
        cases rest <;> simp [joinChars]
      rw [j]
      simp only [splitChars, hc, if_false]
      rw [ih]

theorem pathNames_commaToSpace (s : String) (h : ∀ c ∈ s.data, c.isWhitespace = false) :
    pathNames (commaToSpace s) = commaPieces s := by
  have hs : ∀ c ∈ s.data, c ≠ ' ' := by
    intro c hc hsp
    have := h c hc
    rw [hsp] at this
    revert this
    decide
  simp only [pathNames, commaToSpace, commaPieces, splitChars_joinChars s.data hs]

/-- C11, counterexample: for `?sort=` the sort parameter is the empty string;
splitting it at commas names no sort key, but `sort` configures the default
order, descending `createdAt` then `_id`. -/
theorem sort_empty_parameter_counterexample :
    getProp "sort" [("sort", QVal.str "")] = some (.str "") ∧
    APIFeatures.sort ⟨[], [("sort", .str "")]⟩ =
      .ok ⟨[.sort "-createdAt _id"], [("sort", .str "")]⟩ ∧
    sortKeys "-createdAt _id" = [⟨"createdAt", true⟩, ⟨"_id", false⟩] ∧
    (commaPieces "").map sortKeyOf ≠ sortKeys "-createdAt _id" := by
  refine ⟨rfl, rfl, by decide, by decide⟩

/-- C11, amended: for every query-parameter mapping whose sort parameter is a
non-empty string, `sort` passes the parameter with its commas turned into
spaces, which (for a parameter free of white space) the query builder reads as
the ordered list of the pieces between the commas, each ascending unless
prefixed with `-`, then descending; `sort=price,-ratingsAverage` gives ascending
`price` then descending `ratingsAverage`.  When the sort parameter is absent or
is the empty string, the list is descending `createdAt` followed by `_id`. -/
theorem sort_keys (self : APIFeatures) :
    ((getProp "sort" self.queryString = none ∨
        getProp "sort" self.queryString = some (.str "")) →
      self.sort = .ok { self with query := self.query ++ [.sort "-createdAt _id"] }) ∧
    sortKeys "-createdAt _id" = [⟨"createdAt", true⟩, ⟨"_id", false⟩] ∧
    (∀ s, getProp "sort" self.queryString = some (.str s) → s ≠ "" →
      self.sort = .ok { self with query := self.query ++ [.sort (commaToSpace s)] } ∧
      ((∀ c ∈ s.data, c.isWhitespace = false) →
        sortKeys (commaToSpace s) = (commaPieces s).map sortKeyOf)) ∧
    sortKeys (commaToSpace "price,-ratingsAverage") =
      [⟨"price", false⟩, ⟨"ratingsAverage", true⟩] := by
  refine ⟨?_, by decide, ?_, by decide⟩
  · rintro (h | h) <;> simp [APIFeatures.sort, h]
  · intro s h hs
    refine ⟨by simp [APIFeatures.sort, h, hs], fun hw => ?_⟩
    simp only [sortKeys, pathNames_commaToSpace s hw]

/-- C11, witness: `?sort=price,-ratingsAverage`. -/
theorem sort_keys_witness :
    APIFeatures.sort ⟨[], [("sort", .str "price,-ratingsAverage")]⟩ =
        .ok ⟨[.sort "price -ratingsAverage"], [("sort", .str "price,-ratingsAverage")]⟩ ∧
    sortKeys (commaToSpace "price,-ratingsAverage") =
      (commaPieces "price,-ratingsAverage").map sortKeyOf :=
  ⟨((sort_keys ⟨[], [("sort", .str "price,-ratingsAverage")]⟩).2.2.1
      "price,-ratingsAverage" rfl (by decide)).1,
   ((sort_keys ⟨[], [("sort", .str "price,-ratingsAverage")]⟩).2.2.1
      "price,-ratingsAverage" rfl (by decide)).2 (by decide)⟩

/-- C12, counterexample: for `?fields=-price` the projection configured by
`limitFields` excludes `price`; it includes no field at all. -/
theorem limitFields_exclusion_counterexample :
    APIFeatures.limitFields ⟨[], [("fields", .str "-price")]⟩ =
      .ok ⟨[.select "-price"], [("fields", .str "-price")]⟩ ∧
    projection "-price" = [.exclude "price"] ∧
    projection "-price" ≠ (commaPieces "-price").map fun name => .include ⟨name⟩ := by
  refine ⟨rfl, by decide, by decide⟩

/-- C12, amended: for every query-parameter mapping whose fields parameter is a
non-empty string, `limitFields` passes the parameter with its commas turned
into spaces, which (for a parameter free of white space) the query builder
reads as the list of the pieces between the commas: a piece names a field to
include, a piece prefixed with `-` a field to exclude, a piece prefixed with
`+` a field whose schema-level exclusion is lifted; `fields=name,price` gives
`name` and `price`.  When the fields parameter is absent or is the empty
string, the projection excludes `__v` and nothing else. -/
theorem limitFields_projection (self : APIFeatures) :
    ((getProp "fields" self.queryString = none ∨
        getProp "fields" self.queryString = some (.str "")) →
      self.limitFields = .ok { self with query := self.query ++ [.select "-__v"] }) ∧
    projection "-__v" = [.exclude "__v"] ∧
    (∀ s, getProp "fields" self.queryString = some (.str s) → s ≠ "" →
      self.limitFields = .ok { self with query := self.query ++ [.select (commaToSpace s)] } ∧
      ((∀ c ∈ s.data, c.isWhitespace = false) →
        projection (commaToSpace s) = (commaPieces s).map projectionEntryOf)) ∧
    projection (commaToSpace "name,price") = [.include "name", .include "price"] := by
  refine ⟨?_, by decide, ?_, by decide⟩
  · rintro (h | h) <;> simp [APIFeatures.limitFields, h]
  · intro s h hs
    refine ⟨by simp [APIFeatures.limitFields, h, hs], fun hw => ?_⟩
    simp only [projection, pathNames_commaToSpace s hw]

/-- C12, witness: `?fields=name,price`. -/
theorem limitFields_projection_witness :
    APIFeatures.limitFields ⟨[], [("fields", .str "name,price")]⟩ =
        .ok ⟨[.select "name price"], [("fields", .str "name,price")]⟩ ∧
    projection (commaToSpace "name,price") =
      (commaPieces "name,price").map projectionEntryOf :=
  ⟨((limitFields_projection ⟨[], [("fields", .str "name,price")]⟩).2.2.1
      "name,price" rfl (by decide)).1,
   ((limitFields_projection ⟨[], [("fields", .str "name,price")]⟩).2.2.1
      "name,price" rfl (by decide)).2 (by decide)⟩

/-! ### C13: the non-throwing login check -/

/-- The outcome of `isLoggedIn` in each of its cases. -/
theorem isLoggedIn_cases (svc : Services) (ctx : Ctx) :
    (isLoggedIn svc ctx = ⟨ctx, [.proceed], []⟩ ∧
      ¬ ∃ user cookie decoded, ctx.jwtCookie = some cookie ∧ cookie ≠ "" ∧
        svc.verify cookie = .ok decoded ∧ svc.findById decoded.id = .ok (some user) ∧
        changedPasswordAfter user decoded.iat = false) ∨
    ∃ user cookie decoded, ctx.jwtCookie = some cookie ∧ cookie ≠ "" ∧
      svc.verify cookie = .ok decoded ∧ svc.findById decoded.id = .ok (some user) ∧
      changedPasswordAfter user decoded.iat = false ∧
      isLoggedIn svc ctx = ⟨{ ctx with localsUser := some user }, [.proceed], []⟩ := by
  unfold isLoggedIn
  cases hc : ctx.jwtCookie with
  | none => simp
  | some cookie =>
    by_cases he : cookie = ""
    · simp [he]
    · cases hv : svc.verify cookie with
      | error e => simp [he, hv]
      | ok decoded =>
        cases hf : svc.findById decoded.id with
        | error e => simp [he, hv, hf]
        | ok found =>
          cases found with
          | none => simp [he, hv, hf]
          | some u =>
            cases hcp : changedPasswordAfter u decoded.iat with
            | true =>
              left
              refine ⟨by simp [he, hv, hf, hcp], ?_⟩
              rintro ⟨user, c, d, h1, _, h3, h4, h5⟩
              cases h1
              rw [hv] at h3
              cases h3
              rw [hf] at h4
              cases h4
              rw [hcp] at h5
              cases h5
            | false =>
              right
              exact ⟨u, cookie, decoded, rfl, he, hv, hf, hcp, by simp [he, hv, hf, hcp, ← hc]⟩

/-- C13: for every request, whatever the cookie contains, however the
verification ends and however the account lookup ends (a rejected lookup
included), `isLoggedIn` calls `next()` exactly once, with no error argument,
sends no response and leaves `req.user` alone; it sets `res.locals.user`, to
the account found, when the cookie is not empty, its token verifies, the
account exists and the password was not changed after the token was issued,
and leaves the state untouched in every other case. -/
theorem isLoggedIn_proceeds (svc : Services) (ctx : Ctx) :
    (isLoggedIn svc ctx).nextCalls = [.proceed] ∧
    (isLoggedIn svc ctx).responses = [] ∧
    (isLoggedIn svc ctx).ctx.reqUser = ctx.reqUser ∧
    (∀ user cookie decoded, ctx.jwtCookie = some cookie → cookie ≠ "" →
      svc.verify cookie = .ok decoded → svc.findById decoded.id = .ok (some user) →
      changedPasswordAfter user decoded.iat = false →
      (isLoggedIn svc ctx).ctx = { ctx with localsUser := some user }) ∧
    ((¬ ∃ user cookie decoded, ctx.jwtCookie = some cookie ∧ cookie ≠ "" ∧
        svc.verify cookie = .ok decoded ∧ svc.findById decoded.id = .ok (some user) ∧
        changedPasswordAfter user decoded.iat = false) →
      (isLoggedIn svc ctx).ctx = ctx) := by
  rcases isLoggedIn_cases svc ctx with ⟨h, hn⟩ | ⟨u, c, d, h1, h2, h3, h4, h5, h⟩
  · rw [h]
    refine ⟨rfl, rfl, rfl, ?_, fun _ => rfl⟩
    intro user cookie decoded g1 g2 g3 g4 g5
    exact absurd ⟨user, cookie, decoded, g1, g2, g3, g4, g5⟩ hn
  · rw [h]
    refine ⟨rfl, rfl, rfl, ?_, ?_⟩
    · intro user cookie decoded g1 g2 g3 g4 _
      rw [h1] at g1
      cases g1
      rw [h3] at g3
      cases g3
      rw [h4] at g4
      cases g4
      rfl
    · intro hn
      exact absurd ⟨u, c, d, h1, h2, h3, h4, h5⟩ hn

/-- C13, witness: a cookie whose token verifies for an existing account that
never changed its password. -/
theorem isLoggedIn_proceeds_witness :
    (isLoggedIn ⟨fun _ => .ok ⟨"u1", 1700000000⟩, fun _ => .ok (some { id := "u1" })⟩
        { jwtCookie := some "abc" }).ctx =
      { jwtCookie := some "abc", localsUser := some { id := "u1" } } :=
  (isLoggedIn_proceeds ⟨fun _ => .ok ⟨"u1", 1700000000⟩, fun _ => .ok (some { id := "u1" })⟩
    { jwtCookie := some "abc" }).2.2.2.1 { id := "u1" } "abc" ⟨"u1", 1700000000⟩ rfl
    (by decide) rfl rfl rfl

/-! ### C14: the async boundary adapter -/

/-- C14: for every `async` handler `fn` wrapped by `catchAsync`: if the promise
returned by `fn` rejects with `e`, the wrapper calls `next` exactly once, with
`e`, after whatever `fn` did itself; if it fulfils, the wrapper makes no call
of `next` of its own.  The wrapper sends nothing and changes no state itself,
and every rejection of `fn` is forwarded. -/
theorem catchAsync_forwards (fn : Ctx → AsyncRun) (ctx : Ctx) :
    (∀ e, (fn ctx).settled = .rejected e →
      (catchAsync fn ctx).nextCalls = (fn ctx).effects.nextCalls ++ [.error e]) ∧
    ((fn ctx).settled = .fulfilled →
      (catchAsync fn ctx).nextCalls = (fn ctx).effects.nextCalls) ∧
    (catchAsync fn ctx).responses = (fn ctx).effects.responses ∧
    (catchAsync fn ctx).ctx = (fn ctx).effects.ctx := by
  refine ⟨?_, ?_, rfl, rfl⟩
  · intro e h
    simp [catchAsync, h, catchCalls]
  · intro h
    simp [catchAsync, h, catchCalls]

/-- C14, witness: a handler that rejects with a `CastError` without calling
`next` itself. -/
theorem catchAsync_forwards_witness :
    (catchAsync (fun ctx => ⟨⟨ctx, [], []⟩, .rejected { name := some "CastError" }⟩) {}).nextCalls
      = [] ++ [.error { name := some "CastError" }] :=
  (catchAsync_forwards (fun ctx => ⟨⟨ctx, [], []⟩, .rejected { name := some "CastError" }⟩) {}).1
    { name := some "CastError" } rfl

/-! ### C15: the rating aggregate -/

theorem roundRating_default : roundRating (.num (9 / 2)) = .num (9 / 2) := by
  have h45 : roundDouble ((9 / 2 : ℚ) * 10) = .num 45 := by
    have := roundDouble_intCast 45 (by norm_num)
    norm_num at this ⊢
    exact this
  have hf : Int.floor ((45 : ℚ) + 1 / 2) = 45 := by
    rw [Int.floor_eq_iff]
    constructor <;> norm_num
  have hq : roundDouble (((45 : ℤ) : ℚ) / 10) = .num (9 / 2) := by
    rw [roundDouble_eval (((45 : ℤ) : ℚ) / 10) 2 (-50) 5066549580791808
      (by norm_num [abs_of_pos]) (by norm_num [abs_of_pos]) (by decide)
      (by norm_num [abs_of_pos]) (by norm_num [abs_of_pos]) (by norm_num)]
    norm_num
  simp only [roundRating, JSNum.mul, h45, mathRound, hf, hq]

/-- The first document that matches a filter, after the update of the first
document that matches it, when the update keeps the filter true. -/
theorem find?_updateFirst (p : Tour → Bool) (f : Tour → Tour)
    (hp : ∀ t, p t = true → p (f t) = true) (tours : List Tour) :
    (updateFirst p f tours).find? p = (tours.find? p).map f := by
  induction tours with
  | nil => rfl
  | cons t ts ih =>
    cases h : p t with
    | true => simp [updateFirst, h, hp t h]
    | false => simp [updateFirst, h, ih]

/-- What `calcAverageRatings` writes into the tour: the count of the reviews
referencing it, and the average returned by the aggregation, passed through
the setter, or the default when there is no review. -/
theorem calcAverageRatings_tours (avg : List ℚ → JSNum) (tourId : String) (db : Store) :
    (calcAverageRatings avg tourId db).tours =
      updateTourRatings tourId (reviewsOf tourId db.reviews).length
        (if (reviewsOf tourId db.reviews).isEmpty then .num (9 / 2)
         else avg ((reviewsOf tourId db.reviews).map Review.rating)) db.tours := by
  unfold calcAverageRatings ratingStats
  cases h : (reviewsOf tourId db.reviews).isEmpty with
  | true =>
    have : reviewsOf tourId db.reviews = [] := List.isEmpty_iff.mp h
    simp [this]
  | false => simp [h]

/-- C15, counterexample: a tour with three reviews rated 4, 5 and 5 has the
mean 14/3 (as a double, the one nearest to it); `calcAverageRatings` stores
the double 4.7. -/
theorem calcAverageRatings_rounds_counterexample :
    (calcAverageRatings meanDouble "t1"
        ⟨[⟨"r1", "t1", "u1", 4⟩, ⟨"r2", "t1", "u2", 5⟩, ⟨"r3", "t1", "u3", 5⟩],
         [{ id := "t1" }]⟩).tours =
      [{ id := "t1", ratingsAverage := roundDouble (47 / 10), ratingsQuantity := 3 }] ∧
    meanDouble [4, 5, 5] = roundDouble (14 / 3) ∧
    roundDouble (47 / 10) ≠ roundDouble (14 / 3) := by
  have hm : meanDouble [4, 5, 5] = roundDouble (14 / 3) := by
    unfold meanDouble
    norm_num
  have h1 : roundDouble (14 / 3) = .num (5254199565265579 / 1125899906842624) := by
    rw [roundDouble_eval (14 / 3) 2 (-50) 5254199565265579 (by norm_num [abs_of_pos])
      (by norm_num [abs_of_pos]) (by decide) (by norm_num [abs_of_pos])
      (by norm_num [abs_of_pos]) (by norm_num)]
    norm_num
  have h2 : roundDouble ((5254199565265579 / 1125899906842624 : ℚ) * 10) =
      .num (3283874728290987 / 70368744177664) := by
    rw [roundDouble_eval ((5254199565265579 / 1125899906842624 : ℚ) * 10) 5 (-47)
      6567749456581974 (by norm_num [abs_of_pos]) (by norm_num [abs_of_pos]) (by decide)
      (by norm_num [abs_of_pos]) (by norm_num [abs_of_pos]) (by norm_num)]
    norm_num
  have hf : Int.floor ((3283874728290987 / 70368744177664 : ℚ) + 1 / 2) = 47 := by
    rw [Int.floor_eq_iff]
    constructor <;> norm_num
  have h3 : roundDouble (47 / 10) = .num (5291729562160333 / 1125899906842624) := by
    rw [roundDouble_eval (47 / 10) 2 (-50) 5291729562160333 (by norm_num [abs_of_pos])
      (by norm_num [abs_of_pos]) (by decide) (by norm_num [abs_of_pos])
      (by norm_num [abs_of_pos]) (by norm_num)]
    norm_num
  have hr : roundRating (roundDouble (14 / 3)) = roundDouble (47 / 10) := by
    have hc : (((47 : ℤ) : ℚ)) / 10 = 47 / 10 := by norm_num
    simp only [h1, roundRating, JSNum.mul, h2, mathRound, hf, hc]
  refine ⟨?_, hm, ?_⟩
  · rw [calcAverageRatings_tours]
    have hrev : reviewsOf "t1"
        [⟨"r1", "t1", "u1", 4⟩, ⟨"r2", "t1", "u2", 5⟩, ⟨"r3", "t1", "u3", 5⟩] =
        [⟨"r1", "t1", "u1", 4⟩, ⟨"r2", "t1", "u2", 5⟩, ⟨"r3", "t1", "u3", 5⟩] := by
      decide
    simp only [hrev, List.isEmpty_cons, Bool.false_eq_true, if_false, List.map, hm, hr,
      updateTourRatings, updateFirst, matchesTour, List.length_cons, List.length_nil]
    simp
  · rw [h1, h3]
    intro h
    injection h with h
    norm_num at h

/-- C15, amended: for every tour that the queries of the tour model find (one
that is not secret) and every collection of reviews, after
`calcAverageRatings(tourId)` the tour's `ratingsQuantity` equals the number of
reviews that reference the tour; its `ratingsAverage` equals
`Math.round(m * 10) / 10`, the average `m` that the aggregation returns for
their ratings rounded to one decimal place in the arithmetic of the language,
when at least one review references the tour, and 4.5 when none does; the
reviews are left as they are.  The recomputation is run for the tour of the
review after every review create, after every update of a stored review that
keeps its tour, and after every delete of a stored review. -/
theorem calcAverageRatings_spec (avg : List ℚ → JSNum) (tourId : String) (db : Store) :
    (calcAverageRatings avg tourId db).reviews = db.reviews ∧
    (∀ t, db.tours.find? (matchesTour tourId) = some t →
      ∃ t1, (calcAverageRatings avg tourId db).tours.find? (matchesTour tourId) = some t1 ∧
        t1.ratingsQuantity = (reviewsOf tourId db.reviews).length ∧
        (reviewsOf tourId db.reviews ≠ [] →
          t1.ratingsAverage =
            roundRating (avg ((reviewsOf tourId db.reviews).map Review.rating))) ∧
        (reviewsOf tourId db.reviews = [] → t1.ratingsAverage = .num (9 / 2))) ∧
    (∀ m k : ℚ, roundDouble (m * 10) = .num k →
      roundRating (.num m) = roundDouble ((Int.floor (k + 1 / 2) : ℚ) / 10)) ∧
    (∀ review, createReview avg review db =
      calcAverageRatings avg review.tour { db with reviews := db.reviews ++ [review] }) ∧
    (∀ id patch r, db.reviews.find? (fun x => x.id = id) = some r →
      (applyPatch patch r).tour = r.tour →
      reviewFindByIdAndUpdate avg id patch db =
        .ok (some (applyPatch patch r), calcAverageRatings avg (applyPatch patch r).tour
          { db with
            reviews := db.reviews.map fun x => if x.id = id then applyPatch patch x else x })) ∧
    (∀ id r, db.reviews.find? (fun x => x.id = id) = some r →
      reviewFindByIdAndDelete avg id db =
        .ok (some r, calcAverageRatings avg r.tour
          { db with reviews := db.reviews.filter fun x => x.id ≠ id })) := by
  refine ⟨?_, ?_, ?_, fun _ => rfl, ?_, ?_⟩
  · unfold calcAverageRatings
    split <;> rfl
  · intro t ht
    rw [calcAverageRatings_tours, updateTourRatings, find?_updateFirst, ht]
    · refine ⟨_, rfl, rfl, ?_, ?_⟩
      · intro hne
        have : (reviewsOf tourId db.reviews).isEmpty = false := by
          cases hr : reviewsOf tourId db.reviews with
          | nil => exact absurd hr hne
          | cons _ _ => rfl
        simp [this]
      · intro he
        simp [he, roundRating_default]
    · intro t1 h
      exact h
  · intro m k hk
    simp only [roundRating, JSNum.mul, hk, mathRound]
  · intro id patch r hr htour
    simp [reviewFindByIdAndUpdate, hr, htour]
  · intro id r hr
    simp [reviewFindByIdAndDelete, hr]

/-- C15, on one tour with one review rated 5: the tour is found, and after the
recomputation it carries the count 1 and the average 5. -/
theorem calcAverageRatings_spec_witness :
    ∃ t1, (calcAverageRatings meanDouble "t1"
        ⟨[⟨"r1", "t1", "u1", 5⟩], [{ id := "t1" }]⟩).tours.find? (matchesTour "t1") = some t1 ∧
      t1.ratingsQuantity = 1 ∧ t1.ratingsAverage = .num 5 := by
  have r5 : roundDouble 5 = .num 5 := by simpa using roundDouble_intCast 5 (by norm_num)
  have r50 : roundDouble 50 = .num 50 := by simpa using roundDouble_intCast 50 (by norm_num)
  have hf : Int.floor ((50 : ℚ) + 1 / 2) = 50 := by
    rw [Int.floor_eq_iff]
    constructor <;> norm_num
  have hm : meanDouble [5] = .num 5 := by
    unfold meanDouble
    norm_num [r5]
  have hr : roundRating (.num 5) = .num 5 := by
    have h1 : roundDouble ((5 : ℚ) * 10) = .num 50 := by norm_num [r50]
    have h2 : roundDouble (((50 : ℤ) : ℚ) / 10) = .num 5 := by norm_num [r5]
    simp only [roundRating, JSNum.mul, h1, mathRound, hf, h2]
  obtain ⟨t1, h1, h2, h3, _⟩ := (calcAverageRatings_spec meanDouble "t1"
    ⟨[⟨"r1", "t1", "u1", 5⟩], [{ id := "t1" }]⟩).2.1 { id := "t1" } rfl
  have hrev : reviewsOf "t1" [⟨"r1", "t1", "u1", 5⟩] = [⟨"r1", "t1", "u1", 5⟩] := by decide
  refine ⟨t1, h1, ?_, ?_⟩
  · rw [h2, hrev]
    rfl
  · rw [h3 (by rw [hrev]; exact List.cons_ne_nil _ _), hrev]
    simp only [List.map, hm, hr]

/-! ### C16: documents that are not found -/

/-- For every model whose query resolves to `null`, the three factory handlers
forward an operational error with status 404 and send no success response. -/
theorem factory_not_found {Doc Body : Type} (statusOf : Option Nat → Option String)
    (model : Model Doc Body) (id : String) (body : Body) :
    (model.findById id = .ok none →
      ∃ msg, getOne statusOf model id = .forwarded (AppError statusOf msg (some 404))) ∧
    (model.findByIdAndUpdate id body = .ok none →
      ∃ msg, updateOne statusOf model id body = .forwarded (AppError statusOf msg (some 404))) ∧
    (model.findByIdAndDelete id = .ok none →
      ∃ msg, deleteOne statusOf model id = .forwarded (AppError statusOf msg (some 404))) := by
  refine ⟨fun h => ⟨"No document found with that ID", ?_⟩,
    fun h => ⟨"No document found with that ID", ?_⟩,
    fun h => ⟨"No tour found with that ID", ?_⟩⟩
  · simp only [getOne, h]
  · simp only [updateOne, h]
  · simp only [deleteOne, h]

/-- The constant answer of the production API branch to an error that is not
operational and matches no pattern. -/
theorem production_api_generic_response (statusOf : Option Nat → Option String) (url : String)
    (e : Err) (hApi : isApiUrl url = true) (hOp : e.isOperational = false)
    (hKind : recognised e = false) :
    globalErrorHandler statusOf (some "production") e url =
      .sent (.json (some 500)
        [("status", .text (some "error")),
         ("message", .text (some "Something went very wrong!"))]) := by
  have hc := classify_unrecognised statusOf (withDefaults e)
    (by rw [withDefaults_recognised]; exact hKind)
  have hs : globalErrorHandler statusOf (some "production") e url =
      .sent (sendErrorProduction (spreadCopy (withDefaults e)) url) := by
    simp [globalErrorHandler, hc]
  rw [hs]
  simp [sendErrorProduction, hApi, spreadCopy, withDefaults, hOp]

/-- C16, the code as written: for the review model and every identifier that
matches no stored review, `updateOne` and `deleteOne` forward the `TypeError`
thrown by the hook `post(/^findOneAnd/)` (`this.r` is `null`), which is not
operational and carries no status code; in production mode an API caller gets
status 500 with the generic message, not 404.  `getOne`, whose query runs no
hook on `findOneAnd`, forwards the operational 404 error. -/
theorem review_not_found_forwards_typeError (statusOf : Option Nat → Option String)
    (avg : List ℚ → JSNum) (db : Store) (id : String) (patch : ReviewPatch)
    (h : db.reviews.find? (fun x => x.id = id) = none) :
    updateOne statusOf (reviewModel avg db) id patch = .forwarded hookTypeError ∧
    deleteOne statusOf (reviewModel avg db) id = .forwarded hookTypeError ∧
    hookTypeError.isOperational = false ∧ hookTypeError.statusCode = none ∧
    getOne statusOf (reviewModel avg db) id =
      .forwarded (AppError statusOf "No document found with that ID" (some 404)) ∧
    (∀ url, isApiUrl url = true →
      globalErrorHandler statusOf (some "production") hookTypeError url =
        .sent (.json (some 500)
          [("status", .text (some "error")),
           ("message", .text (some "Something went very wrong!"))])) := by
  refine ⟨?_, ?_, rfl, rfl, ?_, ?_⟩
  · simp [updateOne, reviewModel, reviewFindByIdAndUpdate, h, Except.map]
  · simp [deleteOne, reviewModel, reviewFindByIdAndDelete, h, Except.map]
  · simp [getOne, reviewModel, h]
  · intro url hu
    exact production_api_generic_response statusOf url hookTypeError hu rfl (by decide)

/-- C16, failing input: `PATCH /api/v1/reviews/r9` when no review has the
identifier `r9`. -/
theorem review_not_found_forwards_typeError_witness :
    updateOne (fun _ => none)
        (reviewModel meanDouble ⟨[⟨"r1", "t1", "u1", 4⟩], [{ id := "t1" }]⟩) "r9"
        { rating := some 5 } =
      .forwarded hookTypeError :=
  (review_not_found_forwards_typeError (fun _ => none) meanDouble
    ⟨[⟨"r1", "t1", "u1", 4⟩], [{ id := "t1" }]⟩ "r9" { rating := some 5 } (by decide)).1

/-! ### C17: the life of a password-reset token -/

theorem mem_saveUser (x v : User) (users : List User) (h : v ∈ saveUser x users) :
    v = x ∨ (v ∈ users ∧ v.id ≠ x.id) := by
  simp only [saveUser, List.mem_map] at h
  obtain ⟨u, hu, rfl⟩ := h
  by_cases hid : u.id = x.id
  · simp [hid]
  · simp [hid, hu]

theorem resetAccount_fields (bcrypt : String → String) (savedAt : Int)
    (password : Option String) (user : User) :
    (resetAccount bcrypt savedAt password user).id = user.id ∧
    (resetAccount bcrypt savedAt password user).passwordResetToken = none ∧
    (resetAccount bcrypt savedAt password user).passwordResetExpires = none ∧
    (resetAccount bcrypt savedAt password user).passwordChangedAt = some (savedAt - 1000) := by
  simp [resetAccount, recordPasswordChange, hashPassword]

/-- The outcome of `resetPassword` in each of its cases. -/
theorem resetPassword_cases (statusOf : Option Nat → Option String)
    (sha256 bcrypt : String → String) (now savedAt issuedAt : Int) (token : String)
    (password passwordConfirm : Option String) (users : List User) :
    (∃ err, resetPassword statusOf sha256 bcrypt now savedAt issuedAt token password
        passwordConfirm users = (users, .forwarded err)) ∨
    ∃ user, users.find? (matchesResetToken (sha256 token) now) = some user ∧
      resetPassword statusOf sha256 bcrypt now savedAt issuedAt token password
          passwordConfirm users =
        (saveUser (resetAccount bcrypt savedAt password user) users,
          .responded 200 (some (signToken user.id issuedAt))) := by
  unfold resetPassword
  cases hf : users.find? (matchesResetToken (sha256 token) now) with
  | none => exact Or.inl ⟨_, rfl⟩
  | some user =>
    cases hv : validatePassword password passwordConfirm with
    | some err => exact Or.inl ⟨err, rfl⟩
    | none => exact Or.inr ⟨user, rfl, rfl⟩

/-- C17: the stored account carries no reset token and no reset expiry after
the token has been used (`resetPassword` answers with success), and after a
send failure of `forgotPassword`, which then forwards an operational error
with status 500; every other account is left as it was.  A reset token appears
on a stored account only through a `forgotPassword` whose email was sent:
after any `forgotPassword` or `resetPassword`, an account that carries a token
either carried it before, unchanged, or has just received it from a successful
`forgotPassword`. -/
theorem reset_token_lifecycle (statusOf : Option Nat → Option String)
    (sha256 bcrypt : String → String) (users : List User) :
    (∀ now savedAt issuedAt token password passwordConfirm users1 code issued,
      resetPassword statusOf sha256 bcrypt now savedAt issuedAt token password
          passwordConfirm users = (users1, .responded code issued) →
      ∃ user, users.find? (matchesResetToken (sha256 token) now) = some user ∧
        (∀ v ∈ users1, v.id = user.id →
          v.passwordResetToken = none ∧ v.passwordResetExpires = none) ∧
        (∀ v ∈ users1, v.id ≠ user.id → v ∈ users)) ∧
    (∀ resetToken now email user,
      users.find? (fun u => u.active && u.email = email) = some user →
      (forgotPassword statusOf sha256 resetToken now false email users).2 =
        .forwarded (AppError statusOf "There was an error sending the email. Try again later."
          (some 500)) ∧
      (AppError statusOf "There was an error sending the email. Try again later."
        (some 500)).isOperational = true ∧
      (∀ v ∈ (forgotPassword statusOf sha256 resetToken now false email users).1,
        v.id = user.id → v.passwordResetToken = none ∧ v.passwordResetExpires = none) ∧
      (∀ v ∈ (forgotPassword statusOf sha256 resetToken now false email users).1,
        v.id ≠ user.id → v ∈ users)) ∧
    (∀ resetToken now emailSent email,
      ∀ v ∈ (forgotPassword statusOf sha256 resetToken now emailSent email users).1,
        v.passwordResetToken ≠ none →
        v ∈ users ∨
        (emailSent = true ∧
          (forgotPassword statusOf sha256 resetToken now emailSent email users).2 =
            .responded 200 none ∧
          v.passwordResetToken = some (sha256 resetToken))) ∧
    (∀ now savedAt issuedAt token password passwordConfirm,
      ∀ v ∈ (resetPassword statusOf sha256 bcrypt now savedAt issuedAt token password
          passwordConfirm users).1,
        v.passwordResetToken ≠ none → v ∈ users) := by
  refine ⟨?_, ?_, ?_, ?_⟩
  · intro now savedAt issuedAt token password passwordConfirm users1 code issued h
    rcases resetPassword_cases statusOf sha256 bcrypt now savedAt issuedAt token password
      passwordConfirm users with ⟨err, he⟩ | ⟨user, hu, he⟩
    · rw [he] at h
      cases h
    · rw [he] at h
      cases h
      obtain ⟨hid, ht, hx, _⟩ := resetAccount_fields bcrypt savedAt password user
      refine ⟨user, hu, ?_, ?_⟩
      · intro v hv hvid
        rcases mem_saveUser _ _ _ hv with rfl | ⟨_, hne⟩
        · exact ⟨ht, hx⟩
        · exact absurd (hvid.trans hid.symm) hne
      · intro v hv hvid
        rcases mem_saveUser _ _ _ hv with rfl | ⟨hm, _⟩
        · exact absurd hid hvid
        · exact hm
  · intro resetToken now email user hu
    simp only [forgotPassword, hu, Bool.false_eq_true, if_false]
    refine ⟨?_, ?_, ?_, ?_⟩
    · trivial
    · trivial
    · intro v hv hvid
      rcases mem_saveUser _ _ _ hv with rfl | ⟨_, hne⟩
      · exact ⟨rfl, rfl⟩
      · exact absurd hvid hne
    · intro v hv hvid
      rcases mem_saveUser _ _ _ hv with rfl | ⟨hm, _⟩
      · exact absurd rfl hvid
      · rcases mem_saveUser _ _ _ hm with rfl | ⟨hm1, _⟩
        · exact absurd rfl hvid
        · exact hm1
  · intro resetToken now emailSent email v hv htok
    unfold forgotPassword at hv ⊢
    cases hu : users.find? (fun u => u.active && u.email = email) with
    | none =>
      rw [hu] at hv
      exact Or.inl hv
    | some user =>
      rw [hu] at hv
      cases emailSent with
      | true =>
        simp only [if_true] at hv ⊢
        rcases mem_saveUser _ _ _ hv with rfl | ⟨hm, _⟩
        · exact Or.inr ⟨trivial, trivial, rfl⟩
        · exact Or.inl hm
      | false =>
        simp only [Bool.false_eq_true, if_false] at hv
        rcases mem_saveUser _ _ _ hv with rfl | ⟨hm, hne⟩
        · exact absurd rfl htok
        · rcases mem_saveUser _ _ _ hm with rfl | ⟨hm1, _⟩
          · exact absurd rfl hne
          · exact Or.inl hm1
  · intro now savedAt issuedAt token password passwordConfirm v hv htok
    rcases resetPassword_cases statusOf sha256 bcrypt now savedAt issuedAt token password
      passwordConfirm users with ⟨err, he⟩ | ⟨user, _, he⟩
    · rw [he] at hv
      exact hv
    · rw [he] at hv
      rcases mem_saveUser _ _ _ hv with rfl | ⟨hm, _⟩
      · exact absurd (resetAccount_fields bcrypt savedAt password user).2.1 htok
      · exact hm

theorem reset_token_lifecycle_witness :
    (∀ v ∈ (resetPassword (fun _ => none) id id 5 6 7 "t" (some "12345678") (some "12345678")
        [{ id := "1", passwordResetToken := some "t", passwordResetExpires := some 10 }]).1,
      v.id = "1" → v.passwordResetToken = none ∧ v.passwordResetExpires = none) ∧
    (forgotPassword (fun _ => none) id "t" 0 false "a@b.c" [{ id := "1", email := "a@b.c" }]).2 =
      .forwarded (AppError (fun _ => none)
        "There was an error sending the email. Try again later." (some 500)) ∧
    (∀ v ∈ (forgotPassword (fun _ => none) id "t" 0 false "a@b.c"
        [{ id := "1", email := "a@b.c" }]).1,
      v.id = "1" → v.passwordResetToken = none ∧ v.passwordResetExpires = none) := by
  have h := reset_token_lifecycle (fun _ => none) id id
    [{ id := "1", passwordResetToken := some "t", passwordResetExpires := some 10 }]
  have h1 := reset_token_lifecycle (fun _ => none) id id [{ id := "1", email := "a@b.c" }]
  obtain ⟨user, hu, ha, _⟩ := h.1 5 6 7 "t" (some "12345678") (some "12345678") _ 200
    (some ⟨"1", 0⟩) rfl
  have hu1 : user = { id := "1", passwordResetToken := some "t", passwordResetExpires := some 10 } :=
    (Option.some.inj hu).symm
  subst hu1
  have hb := h1.2.1 "t" 0 "a@b.c" { id := "1", email := "a@b.c" } rfl
  exact ⟨ha, hb.1, hb.2.2.1⟩

/-! ### C22: the one-second margin of the password-change hook -/

theorem recordPasswordChange_changedAt (t : Int) (user : User) :
    (recordPasswordChange t true false user).passwordChangedAt = some (t - 1000) ∧
    (recordPasswordChange t true false user).id = user.id := by
  simp [recordPasswordChange]

theorem changedPasswordAfter_false_iff (user : User) (iat : Int) :
    changedPasswordAfter user iat = false ↔
      ∀ ms, user.passwordChangedAt = some ms → ms ≤ iat * 1000 := by
  rw [← Bool.not_eq_true, changedPasswordAfter_iff]
  constructor
  · intro h ms hms
    by_contra hlt
    exact h ⟨ms, hms, not_le.mp hlt⟩
  · rintro h ⟨ms, hms, hlt⟩
    exact absurd (h ms hms) (not_le.mpr hlt)

/-- The outcome of `updatePassword` in each of its cases. -/
theorem updatePassword_cases (statusOf : Option Nat → Option String) (bcrypt : String → String)
    (compare : String → String → Bool) (savedAt issuedAt : Int) (reqUserId : String)
    (passwordCurrent : String) (newPassword passwordConfirm : Option String)
    (users : List User) :
    (∃ err, updatePassword statusOf bcrypt compare savedAt issuedAt reqUserId passwordCurrent
        newPassword passwordConfirm users = (users, .forwarded err)) ∨
    ∃ user user2 : User, user2.id = user.id ∧
      user2.passwordChangedAt = some (savedAt - 1000) ∧
      updatePassword statusOf bcrypt compare savedAt issuedAt reqUserId passwordCurrent
          newPassword passwordConfirm users =
        (saveUser user2 users, .responded 200 (some (signToken user.id issuedAt))) := by
  unfold updatePassword
  cases hf : users.find? (fun u => u.active && u.id = reqUserId) with
  | none => exact Or.inl ⟨_, rfl⟩
  | some user =>
    cases hc : compare passwordCurrent user.password with
    | false =>
      exact Or.inl ⟨AppError statusOf
        "Password is Incorrect! Please fill in the Correct Password." (some 401), by simp [hc]⟩
    | true =>
      cases hv : validatePassword newPassword passwordConfirm with
      | some err => exact Or.inl ⟨err, by simp [hc]⟩
      | none =>
        refine Or.inr ⟨user, recordPasswordChange savedAt true false (hashPassword bcrypt true
          { user with password := newPassword.getD "" }), ?_, ?_, ?_⟩
        · simp [recordPasswordChange, hashPassword]
        · simp [recordPasswordChange, hashPassword]
        · simp [hc]

/-- C22: a change recorded by the hook at time `t` (milliseconds) is stored as
`t - 1000`.  Every token whose issued-at second is at or after `floor(t / 1000)`
is then not judged stale by `changedPasswordAfter`; in particular the token
that `updatePassword` or `resetPassword` signs, at a time not before the save,
is not stale for the account it names.  Every token signed more than one
second before `t` is judged stale. -/
theorem fresh_token_not_stale (t : Int) (user : User) :
    (∀ iat, t / 1000 ≤ iat →
      changedPasswordAfter (recordPasswordChange t true false user) iat = false) ∧
    (∀ id s, s + 1000 < t →
      changedPasswordAfter (recordPasswordChange t true false user) (signToken id s).iat
        = true) ∧
    (∀ statusOf bcrypt compare issuedAt reqUserId passwordCurrent newPassword passwordConfirm
        users users1 code token,
      updatePassword statusOf bcrypt compare t issuedAt reqUserId passwordCurrent newPassword
          passwordConfirm users = (users1, .responded code (some token)) →
      t ≤ issuedAt →
      ∀ v ∈ users1, v.id = token.id → changedPasswordAfter v token.iat = false) ∧
    (∀ statusOf sha256 bcrypt now issuedAt resetToken password passwordConfirm
        users users1 code token,
      resetPassword statusOf sha256 bcrypt now t issuedAt resetToken password
          passwordConfirm users = (users1, .responded code (some token)) →
      t ≤ issuedAt →
      ∀ v ∈ users1, v.id = token.id → changedPasswordAfter v token.iat = false) := by
  have key : ∀ (v : User) (issuedAt : Int), v.passwordChangedAt = some (t - 1000) →
      t ≤ issuedAt → changedPasswordAfter v (issuedAt / 1000) = false := by
    intro v issuedAt hv hle
    rw [changedPasswordAfter_false_iff]
    intro ms hms
    rw [hv] at hms
    cases hms
    omega
  refine ⟨?_, ?_, ?_, ?_⟩
  · intro iat hle
    rw [changedPasswordAfter_false_iff]
    intro ms hms
    rw [(recordPasswordChange_changedAt t user).1] at hms
    cases hms
    omega
  · intro id s hs
    rw [changedPasswordAfter_iff]
    refine ⟨t - 1000, (recordPasswordChange_changedAt t user).1, ?_⟩
    simp only [signToken]
    omega
  · intro statusOf bcrypt compare issuedAt reqUserId passwordCurrent newPassword passwordConfirm
      users users1 code token h hle v hv hid
    rcases updatePassword_cases statusOf bcrypt compare t issuedAt reqUserId passwordCurrent
      newPassword passwordConfirm users with ⟨err, he⟩ | ⟨u, u2, hid2, hch, he⟩
    · rw [he] at h
      cases h
    · rw [he] at h
      cases h
      rcases mem_saveUser _ _ _ hv with rfl | ⟨_, hne⟩
      · exact key _ issuedAt hch hle
      · exact absurd (hid.trans hid2.symm) hne
  · intro statusOf sha256 bcrypt now issuedAt resetToken password passwordConfirm
      users users1 code token h hle v hv hid
    rcases resetPassword_cases statusOf sha256 bcrypt now t issuedAt resetToken password
      passwordConfirm users with ⟨err, he⟩ | ⟨u, _, he⟩
    · rw [he] at h
      cases h
    · rw [he] at h
      cases h
      obtain ⟨hid2, _, _, hch⟩ := resetAccount_fields bcrypt t password u
      rcases mem_saveUser _ _ _ hv with rfl | ⟨_, hne⟩
      · exact key _ issuedAt hch hle
      · exact absurd (hid.trans hid2.symm) hne

theorem fresh_token_not_stale_witness :
    changedPasswordAfter (recordPasswordChange 5999 true false { id := "1" }) 5 = false ∧
    changedPasswordAfter (recordPasswordChange 5999 true false { id := "1" })
      (signToken "1" 4998).iat = true ∧
    (∀ v ∈ (updatePassword (fun _ => none) id (fun a b => a == b) 5999 6000 "1" "old"
        (some "12345678") (some "12345678") [{ id := "1", password := "old" }]).1,
      v.id = "1" → changedPasswordAfter v 6 = false) := by
  have h := fresh_token_not_stale 5999 { id := "1" }
  exact ⟨h.1 5 (by decide), h.2.1 "1" 4998 (by decide),
    h.2.2.1 (fun _ => none) id (fun a b => a == b) 6000 "1" "old" (some "12345678")
      (some "12345678") [{ id := "1", password := "old" }] _ 200 ⟨"1", 6⟩ rfl (by decide)⟩

/-! ### C21: the owner of a new review -/

/-- C21, as stated, fails: a create-review request of the authenticated
account `me` whose body names another account keeps that account as the owner
of the review. -/
theorem setTourUserIds_keeps_body_user_counterexample :
    setTourUserIds (some "t1") { reqUser := some { id := "me" } } { user := some "other" }
      = .ok { tour := some "t1", user := some "other" } ∧
    "other" ≠ ({ id := "me" } : User).id :=
  ⟨rfl, by decide⟩

/-- C21, amended: for every authenticated create-review request,
`setTourUserIds` hands over without an error; the user field of the body
equals the id of the authenticated account when the body carries no user (an
absent or empty one), and a user that the body does carry is kept as it is. -/
theorem setTourUserIds_user (tourIdParam : Option String) (ctx : Ctx) (account : User)
    (body : ReviewBody) (hauth : ctx.reqUser = some account) :
    ∃ body1, setTourUserIds tourIdParam ctx body = .ok body1 ∧
      (truthy body.user = false → body1.user = some account.id) ∧
      (truthy body.user = true → body1.user = body.user) := by
  unfold setTourUserIds
  cases hu : truthy body.user <;> cases ht : truthy body.tour <;> simp [hu, ht, hauth]

theorem setTourUserIds_user_witness :
    ∃ body1, setTourUserIds (some "t1") { reqUser := some { id := "me" } } {} = .ok body1 ∧
      (truthy ({} : ReviewBody).user = false → body1.user = some "me") ∧
      (truthy ({} : ReviewBody).user = true → body1.user = ({} : ReviewBody).user) :=
  setTourUserIds_user (some "t1") { reqUser := some { id := "me" } } { id := "me" } {} rfl

/-! ### C23: the message of a duplicate-key error -/

/-- C23, the code as written: in production mode a duplicate-key error (code
`11000`, with its `keyValue`) is answered with the message built from
`keyValue.name`, whatever the index that reported the duplicate.  When the
duplicated key has no field `name` (the e-mail index of the accounts, the
`(tour, user)` index of the reviews) the message is
`Duplicate field value: "undefined". Please use another value`: the duplicated
value is not shown. -/
theorem production_duplicate_message (statusOf : Option Nat → Option String) (url : String)
    (err : Err) (kv : List (String × String))
    (hCode : err.code = some 11000) (hKey : err.keyValue = some kv)
    (hCast : err.name ≠ some "CastError") (hVal : err.name ≠ some "ValidationError")
    (hJwt : err.name ≠ some "JsonWebTokenError") (hExp : err.name ≠ some "TokenExpiredError") :
    ∃ r, globalErrorHandler statusOf (some "production") err url = .sent r ∧
      r.statusCode = some 400 ∧
      r.message = some ("Duplicate field value: \"" ++ tpl (getProp "name" kv) ++
        "\". Please use another value") ∧
      (getProp "name" kv = none →
        r.message = some "Duplicate field value: \"undefined\". Please use another value") := by
  have hc : classify statusOf (withDefaults err) =
      .ok (AppError statusOf ("Duplicate field value: \"" ++ tpl (getProp "name" kv) ++
        "\". Please use another value") (some 400)) := by
    unfold classify
    simp [withDefaults, hCode, hKey, hCast, hVal, hJwt, hExp, bind, Except.bind,
      handleDuplicateFieldsDB, spreadCopy]
  have hs : globalErrorHandler statusOf (some "production") err url =
      .sent (sendErrorProduction (AppError statusOf ("Duplicate field value: \"" ++
        tpl (getProp "name" kv) ++ "\". Please use another value") (some 400)) url) := by
    simp [globalErrorHandler, hc]
  refine ⟨_, hs, ?_, ?_, ?_⟩
  · cases hu : isApiUrl url <;> simp [sendErrorProduction, hu, AppError, Response.statusCode]
  · cases hu : isApiUrl url <;>
      simp [sendErrorProduction, hu, AppError, Response.message, getProp]
  · intro hn
    cases hu : isApiUrl url <;>
      simp [sendErrorProduction, hu, AppError, Response.message, getProp, hn, tpl]

/-- C23, failing input: a sign-up with an e-mail address already in use. -/
theorem production_duplicate_message_witness :
    ∃ r, globalErrorHandler (fun _ => some "fail") (some "production")
        { name := some "MongoServerError", code := some 11000,
          keyValue := some [("email", "a@b.c")],
          message := "E11000 duplicate key error collection: natours.users index: email_1" }
        "/api/v1/users/signup" = .sent r ∧
      r.statusCode = some 400 ∧
      r.message = some ("Duplicate field value: \"" ++ tpl (getProp "name" [("email", "a@b.c")])
        ++ "\". Please use another value") ∧
      (getProp "name" [("email", "a@b.c")] = none →
        r.message = some "Duplicate field value: \"undefined\". Please use another value") :=
  production_duplicate_message (fun _ => some "fail") "/api/v1/users/signup"
    { name := some "MongoServerError", code := some 11000,
      keyValue := some [("email", "a@b.c")],
      message := "E11000 duplicate key error collection: natours.users index: email_1" }
    [("email", "a@b.c")] rfl rfl (by decide) (by decide) (by decide) (by decide)

/-! ### C20: how many responses the responder sends -/

/-- C20, as stated, fails: with the environment mode unset the responder sends
no response, and neither does it with a mode other than `development` and
`production`. -/
theorem globalErrorHandler_unset_mode_counterexample :
    (globalErrorHandler (fun _ => none) none { message := "boom" } "/api/v1/tours").responses
      = [] ∧
    (globalErrorHandler (fun _ => none) (some "test") { message := "boom" }
      "/api/v1/tours").responses = [] := by
  decide

/-- C20, amended: for every error passed to the central error responder, the
responder sends exactly one response in development mode, and in production
mode whenever every handler of the classification chain finds the property it
reads; for every other value of the environment mode, unset included, it
sends none. -/
theorem globalErrorHandler_responses (statusOf : Option Nat → Option String)
    (nodeEnv : Option String) (err : Err) (url : String) :
    (nodeEnv = some "development" →
      ∃ r, (globalErrorHandler statusOf nodeEnv err url).responses = [r]) ∧
    (nodeEnv = some "production" → handlersDefined err = true →
      ∃ r, (globalErrorHandler statusOf nodeEnv err url).responses = [r]) ∧
    (nodeEnv ≠ some "development" → nodeEnv ≠ some "production" →
      (globalErrorHandler statusOf nodeEnv err url).responses = []) := by
  have hd : handlersDefined (withDefaults err) = handlersDefined err := rfl
  refine ⟨?_, ?_, ?_⟩
  · rintro rfl
    exact ⟨sendErrorDev (withDefaults err) url, by simp [globalErrorHandler, Handled.responses]⟩
  · rintro rfl h
    obtain ⟨c, hc⟩ := (classify_ok_iff statusOf (withDefaults err)).mpr (hd.trans h)
    exact ⟨sendErrorProduction c url, by simp [globalErrorHandler, hc, Handled.responses]⟩
  · intro h1 h2
    simp [globalErrorHandler, h1, h2, Handled.responses]

theorem globalErrorHandler_responses_witness :
    (∃ r, (globalErrorHandler (fun _ => none) (some "development") { message := "boom" }
      "/api/v1/tours").responses = [r]) ∧
    (∃ r, (globalErrorHandler (fun _ => none) (some "production") { message := "boom" }
      "/api/v1/tours").responses = [r]) ∧
    (globalErrorHandler (fun _ => none) none { message := "boom" }
      "/api/v1/tours").responses = [] :=
  ⟨(globalErrorHandler_responses (fun _ => none) (some "development") { message := "boom" }
      "/api/v1/tours").1 rfl,
   (globalErrorHandler_responses (fun _ => none) (some "production") { message := "boom" }
      "/api/v1/tours").2.1 rfl (by decide),
   (globalErrorHandler_responses (fun _ => none) none { message := "boom" }
      "/api/v1/tours").2.2 (by decide) (by decide)⟩

/-! ### C19: string values under `filter` -/

theorem mem_rewriteEntries (es : List (String × QVal)) (k : String) (v : QVal)
    (h : (k, v) ∈ es) : (rewriteStr k, rewriteVal v) ∈ rewriteEntries es := by
  induction es with
  | nil => cases h
  | cons e es ih =>
    obtain ⟨k1, v1⟩ := e
    simp only [rewriteEntries, List.mem_cons]
    rcases List.mem_cons.mp h with h | h
    · cases h
      exact Or.inl rfl
    · exact Or.inr (ih h)

theorem rewriteFrom_length (s : List Char) :
    ∀ p : Bool, s.length ≤ (rewriteFrom p s).length ∧
      (mentionsOperator p s = true → s.length < (rewriteFrom p s).length) := by
  induction s with
  | nil => intro p; simp [rewriteFrom, mentionsOperator]
  | cons c cs ih =>
    intro p
    obtain ⟨h1, h2⟩ := ih (isWordChar c || decide (c.toNat < 32))
    simp only [rewriteFrom, mentionsOperator, List.length_append, List.length_cons,
      Bool.or_eq_true]
    constructor
    · omega
    · rintro (h | h)
      · simp only [h, if_true, List.length_cons, List.length_nil]
        omega
      · have := h2 h
        omega

/-- C19, the code as written: for every query-parameter mapping and every
non-reserved key whose value is a string `v`, `filter` passes to `find` a
constraint that compares against `v` rewritten like the operator names, `$` put
before every `gte`, `gt`, `lte`, `lt` standing as a whole word in `v`; the
value is the one given exactly when it contains no such word, and is altered
otherwise (the value `lt` becomes `$lt`). -/
theorem filter_rewrites_string_values (self : APIFeatures) (k v : String)
    (h : (k, QVal.str v) ∈ nonReserved self.queryString) :
    self.filter = .ok { self with
      query := self.query ++ [.find (.obj (rewriteEntries (nonReserved self.queryString)))] } ∧
    (rewriteStr k, QVal.str (rewriteStr v)) ∈ rewriteEntries (nonReserved self.queryString) ∧
    (mentionsOperator false v.data = false → rewriteStr v = v) ∧
    (mentionsOperator false v.data = true → rewriteStr v ≠ v) ∧
    rewriteStr "lt" = "$lt" := by
  refine ⟨filter_eq self, ?_, ?_, ?_, by decide⟩
  · have := mem_rewriteEntries _ k (.str v) h
    simpa [rewriteVal] using this
  · intro hm
    show String.mk (rewriteFrom false v.data) = v
    rw [rewriteFrom_of_not_mentions _ _ hm]
  · intro hm heq
    have hl := (rewriteFrom_length v.data false).2 hm
    have : (rewriteStr v).data.length = v.data.length := by rw [heq]
    simp only [rewriteStr] at this
    omega

/-- C19, failing input: for `?name=lt` the constraint on `name` compares
against `$lt`. -/
theorem filter_rewrites_string_values_witness :
    APIFeatures.filter ⟨[], [("name", .str "lt")]⟩ =
      .ok ⟨[.find (.obj (rewriteEntries (nonReserved [("name", .str "lt")])))],
        [("name", .str "lt")]⟩ ∧
    (rewriteStr "name", QVal.str (rewriteStr "lt")) ∈
      rewriteEntries (nonReserved [("name", .str "lt")]) ∧
    rewriteStr "lt" ≠ "lt" ∧
    rewriteStr "name" = "name" ∧
    rewriteEntries (nonReserved [("name", .str "lt")]) = [("name", .str "$lt")] :=
  have h := filter_rewrites_string_values ⟨[], [("name", .str "lt")]⟩ "name" "lt"
    (List.mem_singleton.mpr rfl)
  ⟨h.1, h.2.1, h.2.2.2.1 (by decide), by decide, rfl⟩

/-! ### C18: the stages applied twice -/

theorem configure_append {B : Type} (ops : Builder B) (calls more : List QueryCall) (base : B) :
    configure ops (calls ++ more) base = configure ops more (configure ops calls base) := by
  simp [configure, List.foldl_append]

theorem lastWrite_lawful : lastWrite.Lawful requestParts where
  find_idem _ _ := rfl
  sort_idem _ _ := rfl
  select_idem _ _ := rfl
  skip_idem _ _ := rfl
  limit_idem _ _ := rfl
  skip_limit _ _ _ := rfl
  find_frame _ _ := ⟨rfl, rfl, rfl⟩
  sort_frame _ _ := ⟨rfl, rfl, rfl⟩
  select_frame _ _ := ⟨rfl, rfl, rfl⟩
  skip_frame _ _ := ⟨rfl, rfl, rfl⟩
  limit_frame _ _ := ⟨rfl, rfl, rfl⟩

/-- The outcome of `sort`: on success one call of `sort` is added to the log,
with an argument read off the query string alone. -/
theorem sort_cases (self : APIFeatures) :
    (∃ what, self.sort = .error what ∧
      ∃ v, getProp "sort" self.queryString = some v ∧ ∀ s, v ≠ .str s) ∨
    ∃ arg, self.sort = .ok { self with query := self.query ++ [.sort arg] } ∧
      ∀ q, APIFeatures.sort ⟨q, self.queryString⟩ = .ok ⟨q ++ [.sort arg], self.queryString⟩ := by
  unfold APIFeatures.sort
  cases hp : getProp "sort" self.queryString with
  | none => exact Or.inr ⟨"-createdAt _id", rfl, fun q => by simp [hp]⟩
  | some v =>
    cases v with
    | str s =>
      by_cases hs : s = ""
      · exact Or.inr ⟨"-createdAt _id", by simp [hs], fun q => by simp [hp, hs]⟩
      · exact Or.inr ⟨commaToSpace s, by simp [hs], fun q => by simp [hp, hs]⟩
    | arr xs => exact Or.inl ⟨_, rfl, _, rfl, fun s h => by cases h⟩
    | obj es => exact Or.inl ⟨_, rfl, _, rfl, fun s h => by cases h⟩

/-- The outcome of `limitFields`, likewise. -/
theorem limitFields_cases (self : APIFeatures) :
    (∃ what, self.limitFields = .error what ∧
      ∃ v, getProp "fields" self.queryString = some v ∧ ∀ s, v ≠ .str s) ∨
    ∃ arg, self.limitFields = .ok { self with query := self.query ++ [.select arg] } ∧
      ∀ q, APIFeatures.limitFields ⟨q, self.queryString⟩ =
        .ok ⟨q ++ [.select arg], self.queryString⟩ := by
  unfold APIFeatures.limitFields
  cases hp : getProp "fields" self.queryString with
  | none => exact Or.inr ⟨"-__v", rfl, fun q => by simp [hp]⟩
  | some v =>
    cases v with
    | str s =>
      by_cases hs : s = ""
      · exact Or.inr ⟨"-__v", by simp [hs], fun q => by simp [hp, hs]⟩
      · exact Or.inr ⟨commaToSpace s, by simp [hs], fun q => by simp [hp, hs]⟩
    | arr xs => exact Or.inl ⟨_, rfl, _, rfl, fun s h => by cases h⟩
    | obj es => exact Or.inl ⟨_, rfl, _, rfl, fun s h => by cases h⟩

/-- C18: for a query builder whose methods obey `Builder.Lawful`, every
query-parameter mapping, every log of earlier calls and every builder state
`base`: `filter` and `paginate` always succeed, `sort` and `limitFields`
succeed whenever their parameter is absent or a string; a stage applied to its
own result succeeds and leaves the configured request equal to that of one
application; and one application of `filter` leaves the sort keys, the
projection and the offset and limit as they were, `sort` the constraints, the
projection and the offset and limit, `limitFields` the constraints, the sort
keys and the offset and limit, `paginate` the constraints, the sort keys and the
projection. -/
theorem stages_idempotent {B C S P W : Type} (ops : Builder B) (parts : Parts B C S P W)
    (laws : ops.Lawful parts) (toNumber : QVal → JSNum) (self : APIFeatures) (base : B) :
    (∃ s1 s2, self.filter = .ok s1 ∧ s1.filter = .ok s2 ∧
      configure ops s2.query base = configure ops s1.query base ∧
      parts.sortKeys (configure ops s1.query base) =
        parts.sortKeys (configure ops self.query base) ∧
      parts.projection (configure ops s1.query base) =
        parts.projection (configure ops self.query base) ∧
      parts.window (configure ops s1.query base) =
        parts.window (configure ops self.query base)) ∧
    ((∀ v, getProp "sort" self.queryString = some v → ∃ s, v = .str s) →
      ∃ s1, self.sort = .ok s1) ∧
    (∀ s1, self.sort = .ok s1 → ∃ s2, s1.sort = .ok s2 ∧
      configure ops s2.query base = configure ops s1.query base ∧
      parts.constraints (configure ops s1.query base) =
        parts.constraints (configure ops self.query base) ∧
      parts.projection (configure ops s1.query base) =
        parts.projection (configure ops self.query base) ∧
      parts.window (configure ops s1.query base) =
        parts.window (configure ops self.query base)) ∧
    ((∀ v, getProp "fields" self.queryString = some v → ∃ s, v = .str s) →
      ∃ s1, self.limitFields = .ok s1) ∧
    (∀ s1, self.limitFields = .ok s1 → ∃ s2, s1.limitFields = .ok s2 ∧
      configure ops s2.query base = configure ops s1.query base ∧
      parts.constraints (configure ops s1.query base) =
        parts.constraints (configure ops self.query base) ∧
      parts.sortKeys (configure ops s1.query base) =
        parts.sortKeys (configure ops self.query base) ∧
      parts.window (configure ops s1.query base) =
        parts.window (configure ops self.query base)) ∧
    (configure ops ((self.paginate toNumber).paginate toNumber).query base =
        configure ops (self.paginate toNumber).query base ∧
      parts.constraints (configure ops (self.paginate toNumber).query base) =
        parts.constraints (configure ops self.query base) ∧
      parts.sortKeys (configure ops (self.paginate toNumber).query base) =
        parts.sortKeys (configure ops self.query base) ∧
      parts.projection (configure ops (self.paginate toNumber).query base) =
        parts.projection (configure ops self.query base)) := by
  have one : ∀ (call : QueryCall) (q : List QueryCall),
      configure ops (q ++ [call]) base = call.run ops (configure ops q base) := by
    intro call q
    simp [configure]
  refine ⟨?_, ?_, ?_, ?_, ?_, ?_⟩
  · refine ⟨_, _, filter_eq self, filter_eq _, ?_, ?_, ?_, ?_⟩
    · simp only [one, QueryCall.run, laws.find_idem]
    · simp only [one, QueryCall.run, (laws.find_frame _ _).1]
    · simp only [one, QueryCall.run, (laws.find_frame _ _).2.1]
    · simp only [one, QueryCall.run, (laws.find_frame _ _).2.2]
  · intro hstr
    rcases sort_cases self with ⟨what, _, v, hv, hns⟩ | ⟨arg, h1, _⟩
    · obtain ⟨s, hs⟩ := hstr v hv
      exact absurd hs (hns s)
    · exact ⟨_, h1⟩
  · intro s1 hs1
    rcases sort_cases self with ⟨what, he, _⟩ | ⟨arg, h1, h2⟩
    · rw [he] at hs1
      cases hs1
    · rw [h1] at hs1
      cases hs1
      refine ⟨_, h2 _, ?_, ?_, ?_, ?_⟩
      · simp only [one, QueryCall.run, laws.sort_idem]
      · simp only [one, QueryCall.run, (laws.sort_frame _ _).1]
      · simp only [one, QueryCall.run, (laws.sort_frame _ _).2.1]
      · simp only [one, QueryCall.run, (laws.sort_frame _ _).2.2]
  · intro hstr
    rcases limitFields_cases self with ⟨what, _, v, hv, hns⟩ | ⟨arg, h1, _⟩
    · obtain ⟨s, hs⟩ := hstr v hv
      exact absurd hs (hns s)
    · exact ⟨_, h1⟩
  · intro s1 hs1
    rcases limitFields_cases self with ⟨what, he, _⟩ | ⟨arg, h1, h2⟩
    · rw [he] at hs1
      cases hs1
    · rw [h1] at hs1
      cases hs1
      refine ⟨_, h2 _, ?_, ?_, ?_, ?_⟩
      · simp only [one, QueryCall.run, laws.select_idem]
      · simp only [one, QueryCall.run, (laws.select_frame _ _).1]
      · simp only [one, QueryCall.run, (laws.select_frame _ _).2.1]
      · simp only [one, QueryCall.run, (laws.select_frame _ _).2.2]
  · have two : ∀ (c1 c2 : QueryCall) (q : List QueryCall),
        configure ops (q ++ [c1, c2]) base =
          c2.run ops (c1.run ops (configure ops q base)) := by
      intro c1 c2 q
      simp [configure]
    refine ⟨?_, ?_, ?_, ?_⟩
    · simp only [APIFeatures.paginate, two, QueryCall.run]
      rw [laws.skip_limit, laws.skip_idem, laws.limit_idem]
    · simp only [APIFeatures.paginate, two, QueryCall.run, (laws.limit_frame _ _).1,
        (laws.skip_frame _ _).1]
    · simp only [APIFeatures.paginate, two, QueryCall.run, (laws.limit_frame _ _).2.1,
        (laws.skip_frame _ _).2.1]
    · simp only [APIFeatures.paginate, two, QueryCall.run, (laws.limit_frame _ _).2.2,
        (laws.skip_frame _ _).2.2]

/-- C18, on the builder `lastWrite`: for `?page=2&limit=10&sort=price` the
stage `paginate`, applied twice to a query on which `sort` was called,
configures the offset 10 and the limit 10, as one application does, and leaves
the sort keys as they were. -/
theorem stages_idempotent_witness :
    configure lastWrite ((APIFeatures.paginate numberOfDigits (APIFeatures.paginate numberOfDigits
        ⟨[.sort "price"], [("page", .str "2"), ("limit", .str "10"), ("sort", .str "price")]⟩)).query)
        {} =
      configure lastWrite (APIFeatures.paginate numberOfDigits
        ⟨[.sort "price"], [("page", .str "2"), ("limit", .str "10"), ("sort", .str "price")]⟩).query
        {} ∧
    requestParts.sortKeys (configure lastWrite (APIFeatures.paginate numberOfDigits
        ⟨[.sort "price"], [("page", .str "2"), ("limit", .str "10"), ("sort", .str "price")]⟩).query
        {}) = some "price" :=
  have h := (stages_idempotent lastWrite requestParts lastWrite_lawful numberOfDigits
    ⟨[.sort "price"], [("page", .str "2"), ("limit", .str "10"), ("sort", .str "price")]⟩
    {}).2.2.2.2.2
  ⟨h.1, h.2.2.1.trans rfl⟩

end Natours
